import Mathlib

/-!
# Portfolio page script (`src/script.js`): a verification development

The script is presentation logic: it turns user input into DOM, CSS and
`localStorage` mutations.  The parts of the browser state the script reads
and writes are modelled as explicit state records, and each handler of the
script as a function on those records.

* `element.classList` is a `DOMTokenList`: an ordered set of class names.
* `localStorage` and `element.style` are string-keyed maps, kept as
  association lists.
* JavaScript numbers are IEEE doubles.  The metric counter (section 2b) and
  the reach test of the particles (section 7b) are also modelled in double
  arithmetic, each operation rounded by `roundDouble`; the other sections,
  and the statements that say so, use exact rationals.
-/

namespace Portfolio

/-! ## Browser data structures -/

/-- The `classList` of an element: an ordered set of class names. -/
abbrev DOMTokenList := List String

namespace DOMTokenList

/-- The call `classList.contains(c)`. -/
def contains (cl : DOMTokenList) (c : String) : Bool :=
  cl.elem c

/-- The call `classList.add(c)`: appends the token unless it is present. -/
def add (cl : DOMTokenList) (c : String) : DOMTokenList :=
  if cl.elem c then cl else cl ++ [c]

/-- The call `classList.remove(c)`. -/
def remove (cl : DOMTokenList) (c : String) : DOMTokenList :=
  cl.filter (fun t => t != c)

end DOMTokenList

/-- A string-keyed map with string values, as an association list. -/
abbrev StringMap := List (String × String)

namespace StringMap

/-- The value stored under `k`, if any. -/
def get (m : StringMap) (k : String) : Option String :=
  match m with
  | [] => none
  | (k', v) :: rest => if k' = k then some v else get rest k

/-- Stores `v` under `k`: overwrites the entry of `k` or appends a new one. -/
def set (m : StringMap) (k v : String) : StringMap :=
  match m with
  | [] => [(k, v)]
  | (k', v') :: rest => if k' = k then (k, v) :: rest else (k', v') :: set rest k v

end StringMap

/-- The `localStorage` object of the page. -/
abbrev Storage := StringMap

namespace Storage

/-- The call `localStorage.getItem(k)`; `none` is JavaScript `null`. -/
def getItem (st : Storage) (k : String) : Option String :=
  StringMap.get st k

/-- The call `localStorage.setItem(k, v)`. -/
def setItem (st : Storage) (k v : String) : Storage :=
  StringMap.set st k v

/-- The test `k in localStorage` for a key that is not a `Storage` method name. -/
def hasKey (st : Storage) (k : String) : Bool :=
  (StringMap.get st k).isSome

end Storage

/-- The inline style of an element (`element.style`). -/
abbrev CSSStyleDeclaration := StringMap

namespace CSSStyleDeclaration

/-- The call `style.setProperty(name, value)`. -/
def setProperty (el : CSSStyleDeclaration) (name value : String) : CSSStyleDeclaration :=
  StringMap.set el name value

/-- The call `style.getPropertyValue(name)`: the empty string when unset. -/
def getPropertyValue (el : CSSStyleDeclaration) (name : String) : String :=
  (StringMap.get el name).getD ""

end CSSStyleDeclaration

/-! ## Double arithmetic

A JavaScript number is an IEEE 754 double.  Where the rounding of a result
matters, a finite double is modelled as the rational it denotes and each
arithmetic operation of the script as the exact operation followed by
`roundDouble`. -/

/-- Rounding of a rational to the nearest integer, a tie going to the even one. -/
def roundHalfEven (q : ℚ) : ℤ :=
  let below := ⌊q⌋
  let rest := q - below
  if rest < 1 / 2 then below
  else if 1 / 2 < rest then below + 1
  else if below % 2 = 0 then below
  else below + 1

/-- The spacing of the doubles at `x`: the doubles of magnitude from `2 ^ e`
up to `2 ^ (e + 1)` are the multiples of `2 ^ (e - 52)`, and below
`2 ^ (-1022)` the spacing stays `2 ^ (-1074)`.  At `0` the value is
`2 ^ (-52)`, of which `0` is a multiple like of any other spacing. -/
def ulp (x : ℚ) : ℚ :=
  2 ^ (max (Int.log 2 |x|) (-1022) - 52)

/-- The double nearest to `x`, a tie going to the double with an even
significand.  A value beyond the largest double, which the machine replaces
by an infinity, is kept as a finite number of that magnitude: the counter
is stated for targets up to `2 ^ 53`, and the reach test compares the value
with `120`, which fails for both. -/
def roundDouble (x : ℚ) : ℚ :=
  roundHalfEven (x / ulp x) * ulp x

/-- The call `Math.sqrt(s)` for a double `s` that is not negative: the double
nearest to the square root.  The root lies between `2 ^ h` and `2 ^ (h + 1)` for
`h` half the exponent of `s`, rounded down. -/
def sqrtDouble (s : ℚ) : ℚ :=
  if s ≤ 0 then 0
  else
    let spacing : ℚ := 2 ^ (Int.log 2 s / 2 - 52)
    let scaled : ℚ := s / (spacing * spacing)
    let below : ℕ := Nat.sqrt ⌊scaled⌋₊
    let middle : ℚ := below * below + below + 1 / 4
    if scaled < middle then below * spacing
    else if middle < scaled then (below + 1) * spacing
    else if below % 2 = 0 then below * spacing
    else (below + 1) * spacing

/-- The call `parseInt(text)` for the decimal numeral of the integer `n`: the
double nearest to `n`, which is an integer. -/
def parseInt (n : ℤ) : ℤ :=
  ⌊roundDouble n⌋

/-! ## 1. Dark mode toggle (`script.js` lines 73-145) -/

/-- The browser state read and written by the theme logic: the class list and
inline style of `document.documentElement`, the class lists of the elements
`#sun-icon` and `#moon-icon`, and `localStorage`. -/
structure ThemeState where
  rootClassList : DOMTokenList
  rootStyle : CSSStyleDeclaration
  sunIcon : DOMTokenList
  moonIcon : DOMTokenList
  localStorage : Storage
  deriving DecidableEq, Repr

/-- The values `updateCubeThemeVars(true)` sets. -/
def darkPalette : List (String × String) :=
  [ ("--cube-accent-1", "#8b5cf6"),
    ("--cube-accent-2", "#a78bfa"),
    ("--cube-accent-3", "#c4b5fd"),
    ("--cube-accent-4", "#6366f1"),
    ("--cube-accent-5", "#818cf8"),
    ("--cube-accent-6", "#a5b4fc"),
    ("--cube-sky-1", "#0a0f1e"),
    ("--cube-sky-2", "#1a1f35"),
    ("--cube-stroke-default", "#a78bfa"),
    ("--cube-outline-stroke", "rgba(139, 92, 246, 0.6)"),
    ("--cube-glow", "rgba(139, 92, 246, 0.25)") ]

/-- The values `updateCubeThemeVars(false)` sets. -/
def lightPalette : List (String × String) :=
  [ ("--cube-accent-1", "#0891b2"),
    ("--cube-accent-2", "#06b6d4"),
    ("--cube-accent-3", "#22d3ee"),
    ("--cube-accent-4", "#0ea5e9"),
    ("--cube-accent-5", "#14b8a6"),
    ("--cube-accent-6", "#38bdf8"),
    ("--cube-sky-1", "#f8fafc"),
    ("--cube-sky-2", "#e0f2fe"),
    ("--cube-stroke-default", "#0891b2"),
    ("--cube-outline-stroke", "rgba(8, 145, 178, 0.5)"),
    ("--cube-glow", "rgba(8, 145, 178, 0.15)") ]

/-- The function `updateCubeThemeVars(isDark)`, on the inline style of the root
element: eleven `setProperty` calls in the order of the source. -/
def updateCubeThemeVars (isDark : Bool) (el : CSSStyleDeclaration) : CSSStyleDeclaration :=
  if isDark then
    ((((((((((el.setProperty "--cube-accent-1" "#8b5cf6").setProperty
      "--cube-accent-2" "#a78bfa").setProperty
      "--cube-accent-3" "#c4b5fd").setProperty
      "--cube-accent-4" "#6366f1").setProperty
      "--cube-accent-5" "#818cf8").setProperty
      "--cube-accent-6" "#a5b4fc").setProperty
      "--cube-sky-1" "#0a0f1e").setProperty
      "--cube-sky-2" "#1a1f35").setProperty
      "--cube-stroke-default" "#a78bfa").setProperty
      "--cube-outline-stroke" "rgba(139, 92, 246, 0.6)").setProperty
      "--cube-glow" "rgba(139, 92, 246, 0.25)"
  else
    ((((((((((el.setProperty "--cube-accent-1" "#0891b2").setProperty
      "--cube-accent-2" "#06b6d4").setProperty
      "--cube-accent-3" "#22d3ee").setProperty
      "--cube-accent-4" "#0ea5e9").setProperty
      "--cube-accent-5" "#14b8a6").setProperty
      "--cube-accent-6" "#38bdf8").setProperty
      "--cube-sky-1" "#f8fafc").setProperty
      "--cube-sky-2" "#e0f2fe").setProperty
      "--cube-stroke-default" "#0891b2").setProperty
      "--cube-outline-stroke" "rgba(8, 145, 178, 0.5)").setProperty
      "--cube-glow" "rgba(8, 145, 178, 0.15)"

/-- The flag `isDarkMode` computed by `initializeTheme`; `prefersDark` is
`window.matchMedia('(prefers-color-scheme: dark)').matches`. -/
def isDarkMode (prefersDark : Bool) (st : Storage) : Bool :=
  st.getItem "theme" == some "dark" || (!st.hasKey "theme" && prefersDark)

/-- The function `initializeTheme`. -/
def initializeTheme (prefersDark : Bool) (s : ThemeState) : ThemeState :=
  if isDarkMode prefersDark s.localStorage then
    { s with
      rootClassList := s.rootClassList.add "dark"
      moonIcon := s.moonIcon.remove "hidden"
      sunIcon := s.sunIcon.add "hidden"
      rootStyle := updateCubeThemeVars true s.rootStyle }
  else
    { s with
      rootClassList := s.rootClassList.remove "dark"
      sunIcon := s.sunIcon.remove "hidden"
      moonIcon := s.moonIcon.add "hidden"
      rootStyle := updateCubeThemeVars false s.rootStyle }

/-- The function `toggleTheme`. -/
def toggleTheme (s : ThemeState) : ThemeState :=
  if s.rootClassList.contains "dark" then
    { s with
      rootClassList := s.rootClassList.remove "dark"
      localStorage := s.localStorage.setItem "theme" "light"
      sunIcon := s.sunIcon.remove "hidden"
      moonIcon := s.moonIcon.add "hidden"
      rootStyle := updateCubeThemeVars false s.rootStyle }
  else
    { s with
      rootClassList := s.rootClassList.add "dark"
      localStorage := s.localStorage.setItem "theme" "dark"
      moonIcon := s.moonIcon.remove "hidden"
      sunIcon := s.sunIcon.add "hidden"
      rootStyle := updateCubeThemeVars true s.rootStyle }

/-- The dark flag: the root element carries the class `dark`. -/
def ThemeState.dark (s : ThemeState) : Bool :=
  s.rootClassList.contains "dark"

/-- The persisted theme value, `localStorage.getItem('theme')`. -/
def ThemeState.persisted (s : ThemeState) : Option String :=
  s.localStorage.getItem "theme"

/-- The sun icon is hidden. -/
def ThemeState.sunHidden (s : ThemeState) : Bool :=
  s.sunIcon.contains "hidden"

/-- The moon icon is hidden. -/
def ThemeState.moonHidden (s : ThemeState) : Bool :=
  s.moonIcon.contains "hidden"

/-- Every variable of the palette has its palette value in the style. -/
def paletteSet (palette : List (String × String)) (el : CSSStyleDeclaration) : Bool :=
  palette.all (fun p => el.getPropertyValue p.1 == p.2)

/-- The desktop icons and the cube colour variables agree with the dark flag:
with the flag set the moon icon is visible, the sun icon is hidden and the dark
palette is set; with the flag cleared the sun icon is visible, the moon icon
is hidden and the light palette is set. -/
def ThemeState.agrees (s : ThemeState) : Bool :=
  if s.dark then
    !s.moonHidden && s.sunHidden && paletteSet darkPalette s.rootStyle
  else
    !s.sunHidden && s.moonHidden && paletteSet lightPalette s.rootStyle

/-- The page as first loaded with an empty `localStorage`: no class on the root
element, both icons without `hidden`. -/
def freshThemeState : ThemeState :=
  { rootClassList := [], rootStyle := [], sunIcon := [], moonIcon := [], localStorage := [] }

/-! ## 2. Scroll reveal (`script.js` lines 150-181) -/

/-- An element of `document.querySelectorAll('.scroll-reveal')`: its class list
and its `data-delay` attribute, read as a number of milliseconds. -/
structure RevealElement where
  classList : DOMTokenList
  dataDelay : Option Nat
  deriving DecidableEq, Repr

/-- An `IntersectionObserverEntry`: the target, as its index in
`scrollRevealElements`, and the flag `isIntersecting`. -/
structure IntersectionObserverEntry where
  target : Nat
  isIntersecting : Bool
  deriving DecidableEq, Repr

/-- A callback handed to `setTimeout` by the observer callback and not yet run:
the delay and the target whose reveal it performs. -/
structure RevealTimer where
  delay : Nat
  target : Nat
  deriving DecidableEq, Repr

/-- The state of the scroll-reveal feature.  `observed` is the observer's list
of observation targets, `timers` the pending `setTimeout` callbacks.  The
fields `addCalls` and `counterCalls` record, in order, the targets of the
executed `classList.add('is-visible')` and `animateMetricCounter` calls. -/
structure RevealState where
  elements : List RevealElement
  observed : List Nat
  timers : List RevealTimer
  addCalls : List Nat
  counterCalls : List Nat
  deriving DecidableEq, Repr

/-- The targets with an executed or a pending reveal. -/
def RevealState.scheduled (s : RevealState) : List Nat :=
  s.addCalls ++ s.timers.map RevealTimer.target

/-- The state after `scrollRevealElements.forEach(element => observer.observe(element))`. -/
def RevealState.pageLoad (elements : List RevealElement) : RevealState :=
  { elements := elements
    observed := List.range elements.length
    timers := []
    addCalls := []
    counterCalls := [] }

/-- The call `observer.unobserve(target)`. -/
def unobserve (observed : List Nat) (target : Nat) : List Nat :=
  observed.filter (fun t => t != target)

/-- The expression `entry.target.getAttribute('data-delay') || 0`. -/
def revealDelay (elements : List RevealElement) (target : Nat) : Nat :=
  match elements.get? target with
  | some el => el.dataDelay.getD 0
  | none => 0

/-- The body of `entries.forEach(entry => ...)` in the observer callback: an
intersecting entry schedules the reveal of its target and unobserves it. -/
def revealEntry (s : RevealState) (entry : IntersectionObserverEntry) : RevealState :=
  if entry.isIntersecting then
    { s with
      timers := s.timers ++ [{ delay := revealDelay s.elements entry.target, target := entry.target }]
      observed := unobserve s.observed entry.target }
  else
    s

/-- The callback of the scroll-reveal `IntersectionObserver`. -/
def revealCallback (s : RevealState) (entries : List IntersectionObserverEntry) : RevealState :=
  entries.foldl revealEntry s

/-- Applies `f` to the element at index `target`. -/
def updateElement (f : RevealElement → RevealElement) :
    List RevealElement → Nat → List RevealElement
  | [], _ => []
  | el :: rest, 0 => f el :: rest
  | el :: rest, target + 1 => el :: updateElement f rest target

/-- The timeout callback scheduled by the observer callback: adds `is-visible`
to the target and starts the counter of a metric card. -/
def revealTimeout (s : RevealState) (target : Nat) : RevealState :=
  let elements := updateElement
    (fun el => { el with classList := el.classList.add "is-visible" }) s.elements target
  let isMetricCard := match elements.get? target with
    | some el => el.classList.contains "metric-card"
    | none => false
  { s with
    elements := elements
    addCalls := s.addCalls ++ [target]
    counterCalls := if isMetricCard then s.counterCalls ++ [target] else s.counterCalls }

/-- What the browser does next to the scroll-reveal feature: it delivers a
batch of entries to the observer callback, or it runs the pending timeout
callback at position `index`. -/
inductive RevealEvent where
  | notify (entries : List IntersectionObserverEntry)
  | timeout (index : Nat)
  deriving DecidableEq, Repr

/-- A batch the browser can deliver in state `s`: every entry reports a target
that is being observed.  The observer queues an entry for each change of
intersection of an observed target, so one batch can hold several entries
for the same target. -/
def deliverable (s : RevealState) (entries : List IntersectionObserverEntry) : Bool :=
  entries.all (fun entry => s.observed.elem entry.target)

/-- One step of the scroll-reveal feature; `none` when the browser cannot
produce the event in state `s`. -/
def revealStep (s : RevealState) : RevealEvent → Option RevealState
  | .notify entries => if deliverable s entries then some (revealCallback s entries) else none
  | .timeout index =>
    match s.timers.drop index with
    | [] => none
    | timer :: later =>
      some (revealTimeout { s with timers := s.timers.take index ++ later } timer.target)

/-- The state after a sequence of events. -/
def revealRun (s : RevealState) : List RevealEvent → Option RevealState
  | [] => some s
  | event :: events =>
    match revealStep s event with
    | some s' => revealRun s' events
    | none => none

/-- The number of entries of a batch that report `target` as intersecting. -/
def intersectingCount (entries : List IntersectionObserverEntry) (target : Nat) : Nat :=
  (entries.filter (fun entry => entry.isIntersecting && entry.target == target)).length

/-- The batches of a sequence of events, in order. -/
def deliveries : List RevealEvent → List (List IntersectionObserverEntry)
  | [] => []
  | .notify entries :: events => entries :: deliveries events
  | .timeout _ :: events => deliveries events

/-! ## 2b. Counter animation for hero metrics (`script.js` lines 185-205) -/

/-- A value assigned to `numberElement.textContent`. -/
inductive CounterText where
  | running (shown : ℤ)
  | final (target : ℤ)
  deriving DecidableEq, Repr

/-- The displayed string: `Math.floor(current)` or `target + '+'`. -/
def CounterText.text : CounterText → String
  | .running shown => toString shown
  | .final target => toString target ++ "+"

/-- The number a display shows. -/
def CounterText.value : CounterText → ℤ
  | .running shown => shown
  | .final target => target

/-- The constant `duration` of `animateMetricCounter`. -/
def duration : ℚ := 2000

/-- The closure `updateCounter`, with `current` passed explicitly; each call
made through `requestAnimationFrame` uses one unit of `frames`.  The result
is the list of displays, or `none` when the frames run out. -/
def updateCounter (target : ℤ) (increment : ℚ) : Nat → ℚ → Option (List CounterText)
  | 0, _ => none
  | frames + 1, current =>
    let current := current + increment
    if current < target then
      (updateCounter target increment frames current).map
        (fun shown => CounterText.running ⌊current⌋ :: shown)
    else
      some [CounterText.final target]

/-- The function `animateMetricCounter`; `numberElement` is the parsed
`data-target` of the `.metric-number` child, `none` when there is no such child. -/
def animateMetricCounter (frames : Nat) (numberElement : Option ℤ) : Option (List CounterText) :=
  match numberElement with
  | none => some []
  | some target =>
    let increment := (target : ℚ) / (duration / 16)
    updateCounter target increment frames 0

/-! The two definitions above use exact arithmetic.  The two below round each
operation as the machine does: `parseInt` returns the double nearest to the
written integer, and the quotient `duration / 16`, the increment and each sum
`current + increment` are rounded to doubles. -/

/-- The closure `updateCounter` in double arithmetic: the sum
`current + increment` is rounded at each update. -/
def updateCounterDouble (target : ℤ) (increment : ℚ) : Nat → ℚ → Option (List CounterText)
  | 0, _ => none
  | frames + 1, current =>
    let current := roundDouble (current + increment)
    if current < target then
      (updateCounterDouble target increment frames current).map
        (fun shown => CounterText.running ⌊current⌋ :: shown)
    else
      some [CounterText.final target]

/-- The function `animateMetricCounter` in double arithmetic; `numberElement`
is the integer written in the `data-target` attribute of the
`.metric-number` child, `none` when there is no such child. -/
def animateMetricCounterDouble (frames : Nat) (numberElement : Option ℤ) :
    Option (List CounterText) :=
  match numberElement with
  | none => some []
  | some dataTarget =>
    let target := parseInt dataTarget
    let increment := roundDouble ((target : ℚ) / roundDouble (duration / 16))
    updateCounterDouble target increment frames 0

/-! ## 12. Info modal (`script.js` lines 745-895) -/

/-- A value of the table `projectInfo`. -/
structure ProjectEntry where
  title : String
  content : String
  deriving DecidableEq, Repr

/-- The template literal `content` of the entry `TaxMate`. -/
def taxMateContent : String :=
  "
                <p><strong>TaxMate</strong> is an intelligent tax simplification system that helps users navigate complex tax calculations with AI-powered document processing and personalized guidance.</p>
                <h4>Key Features:</h4>
                <ul>
                    <li>Smart OCR-based document extraction (Form-16, salary slips)</li>
                    <li>AI-powered tax regime comparison and recommendations</li>
                    <li>Automated tax calculation and deduction optimization</li>
                    <li>Personalized tax-saving suggestions</li>
                    <li>Manual data entry with intelligent validation</li>
                    <li>Interactive dashboard for tax planning</li>
                </ul>
                <h4>Tech Stack:</h4>
                <ul>
                    <li>Frontend: React.js with modern UI</li>
                    <li>Backend: Node.js & Express.js</li>
                    <li>Database: MongoDB</li>
                    <li>AI/ML: OCR integration for document processing</li>
                    <li>Deployment: Vercel</li>
                </ul>
                <h4>GitHub:</h4>
                <p><a href=\"https://github.com/Adia12528/TaxMate\" target=\"_blank\" style=\"color: #06b6d4;\">View Repository →</a></p>
            "

/-- The template literal `content` of the entry `Automata Engine`. -/
def automataEngineContent : String :=
  "
                <p><strong>Automata Engine</strong> is a powerful visualization and simulation tool for finite automata, helping students and developers understand automata theory concepts.</p>
                <h4>Key Features:</h4>
                <ul>
                    <li>Interactive DFA/NFA visualization</li>
                    <li>State transition animations</li>
                    <li>String acceptance testing</li>
                    <li>Real-time automata construction</li>
                    <li>Educational examples and tutorials</li>
                </ul>
                <h4>Tech Stack:</h4>
                <ul>
                    <li>Frontend: Modern JavaScript with Canvas API</li>
                    <li>Visualization: Custom rendering engine</li>
                    <li>Deployment: Vercel</li>
                </ul>
                <h4>Links:</h4>
                <p><a href=\"https://automata-engine.vercel.app\" target=\"_blank\" style=\"color: #10b981;\">Live Demo →</a> | <a href=\"https://github.com/Adia12528/AutomataEngine\" target=\"_blank\" style=\"color: #06b6d4;\">GitHub →</a></p>
            "

/-- The template literal `content` of the entry `File Compressor`. -/
def fileCompressorContent : String :=
  "
                <p><strong>File Compressor</strong> is a web-based tool that allows users to compress files efficiently using modern compression algorithms.</p>
                <h4>Key Features:</h4>
                <ul>
                    <li>Fast file compression and decompression</li>
                    <li>Support for multiple file formats</li>
                    <li>Client-side processing for privacy</li>
                    <li>Batch file processing</li>
                    <li>Compression ratio visualization</li>
                    <li>Download compressed files instantly</li>
                </ul>
                <h4>Tech Stack:</h4>
                <ul>
                    <li>Frontend: React.js with modern UI</li>
                    <li>Compression: JavaScript compression libraries</li>
                    <li>Deployment: Vercel</li>
                </ul>
                <h4>Links:</h4>
                <p><a href=\"https://file-compressor-lac.vercel.app\" target=\"_blank\" style=\"color: #10b981;\">Live Demo →</a> | <a href=\"https://github.com/Adia12528/FileCompressor\" target=\"_blank\" style=\"color: #06b6d4;\">GitHub →</a></p>
            "

/-- The object literal `projectInfo`: its own properties, in source order. -/
def projectInfo : List (String × ProjectEntry) :=
  [ ("TaxMate",
      { title := "TaxMate - AI-Powered Tax Simplification", content := taxMateContent }),
    ("Automata Engine",
      { title := "Automata Engine", content := automataEngineContent }),
    ("File Compressor",
      { title := "File Compressor", content := fileCompressorContent }) ]

/-- The property names every object literal inherits from `Object.prototype`.
Each of them holds a function, or for `__proto__` the prototype object. -/
def objectPrototypeKeys : List String :=
  [ "constructor", "__defineGetter__", "__defineSetter__", "hasOwnProperty",
    "__lookupGetter__", "__lookupSetter__", "isPrototypeOf", "propertyIsEnumerable",
    "toString", "valueOf", "__proto__", "toLocaleString" ]

/-- The own property of the table with the given name. -/
def ownProperty : List (String × ProjectEntry) → String → Option ProjectEntry
  | [], _ => none
  | (key, entry) :: rest, name => if key = name then some entry else ownProperty rest name

/-- The value of a property read on `projectInfo`. -/
inductive PropertyValue where
  | own (entry : ProjectEntry)
  | inherited
  | undefined
  deriving DecidableEq, Repr

/-- The expression `projectInfo[projectName]`: an own property, else a property
inherited from `Object.prototype`, else `undefined`. -/
def projectInfoGet (projectName : String) : PropertyValue :=
  match ownProperty projectInfo projectName with
  | some entry => .own entry
  | none => if objectPrototypeKeys.elem projectName then .inherited else .undefined

/-- The browser state of the info modal: the class list of `#info-modal`, the
`textContent` of `#info-modal-title`, the string last assigned to the
`innerHTML` of `#info-modal-body`, and `document.body.style.overflow`. -/
structure ModalState where
  modalClassList : DOMTokenList
  modalTitle : String
  modalBody : String
  bodyOverflow : String
  deriving DecidableEq, Repr

/-- The text an assignment to `textContent` stores; `none` is `undefined`,
which the nullable attribute treats as `null`, the empty string. -/
def textContentOf (value : Option String) : String :=
  value.getD ""

/-- The markup an assignment to `innerHTML` stores; `none` is `undefined`,
which is converted to the string `undefined`. -/
def innerHTMLOf (value : Option String) : String :=
  value.getD "undefined"

/-- The properties `info.title` and `info.content` of
`projectInfo[projectName] || { title: projectName, content: ... }`.  Every
object is truthy, so the fallback is taken for `undefined` only; an inherited
function or prototype object has neither property. -/
def modalInfo (projectName : String) : Option String × Option String :=
  match projectInfoGet projectName with
  | .own entry => (some entry.title, some entry.content)
  | .inherited => (none, none)
  | .undefined =>
    (some projectName, some ("<p>Information about " ++ projectName ++ " coming soon!</p>"))

/-- The function `openModal`. -/
def openModal (projectName : String) (s : ModalState) : ModalState :=
  let info := modalInfo projectName
  { s with
    modalTitle := textContentOf info.1
    modalBody := innerHTMLOf info.2
    modalClassList := s.modalClassList.add "active"
    bodyOverflow := "hidden" }

/-- The generic placeholder body for a project name. -/
def placeholderContent (projectName : String) : String :=
  "<p>Information about " ++ projectName ++ " coming soon!</p>"

/-! ## 3. Contact form submission (`script.js` lines 210-236) -/

/-- A control of `#contact-form`: its current value and the default value that
`contactForm.reset()` restores. -/
structure FormField where
  name : String
  value : String
  defaultValue : String
  deriving DecidableEq, Repr

/-- The callbacks the submit handler hands to `setTimeout`: the simulated
reply after 1500 ms, and the hiding of the status 5000 ms after it. -/
inductive ContactTimer where
  | sent
  | hide
  deriving DecidableEq, Repr

/-- The state of the contact form: the controls, the class list and text of
`#form-status`, and the pending timeout callbacks with their delays. -/
structure ContactState where
  fields : List FormField
  statusClassList : DOMTokenList
  statusText : String
  timers : List (Nat × ContactTimer)
  deriving DecidableEq, Repr

/-- The call `contactForm.reset()`. -/
def resetForm (fields : List FormField) : List FormField :=
  fields.map (fun field => { field with value := field.defaultValue })

/-- The `submit` listener of the contact form, up to its `setTimeout` call. -/
def submitContact (s : ContactState) : ContactState :=
  { s with
    statusClassList :=
      ((((s.statusClassList.remove "hidden").remove "text-red-500").remove
        "text-green-500").add "text-gray-500").add "animate-pulse"
    statusText := "Sending message..."
    timers := s.timers ++ [(1500, ContactTimer.sent)] }

/-- The callback of the 1500 ms timer. -/
def contactSent (s : ContactState) : ContactState :=
  { s with
    statusClassList :=
      ((s.statusClassList.remove "text-gray-500").remove "animate-pulse").add "text-green-500"
    statusText := "Message sent successfully! Thank you for reaching out."
    fields := resetForm s.fields
    timers := s.timers ++ [(5000, ContactTimer.hide)] }

/-- The callback of the 5000 ms timer. -/
def contactHide (s : ContactState) : ContactState :=
  { s with statusClassList := s.statusClassList.add "hidden" }

/-- Sets the value of the control at position `index`. -/
def editField (value : String) : List FormField → Nat → List FormField
  | [], _ => []
  | field :: rest, 0 => { field with value := value } :: rest
  | field :: rest, index + 1 => field :: editField value rest index

/-- What happens next to the contact form: the user edits a control, the form
is submitted, or the pending timeout callback at position `index` runs. -/
inductive ContactEvent where
  | edit (index : Nat) (value : String)
  | submit
  | timeout (index : Nat)
  deriving DecidableEq, Repr

/-- One step of the contact form; `none` when there is no pending callback at
the given position. -/
def contactStep (s : ContactState) : ContactEvent → Option ContactState
  | .edit index value => some { s with fields := editField value s.fields index }
  | .submit => some (submitContact s)
  | .timeout index =>
    match s.timers.drop index with
    | [] => none
    | (_, timer) :: later =>
      let s' := { s with timers := s.timers.take index ++ later }
      match timer with
      | .sent => some (contactSent s')
      | .hide => some (contactHide s')

/-- The state after a sequence of events. -/
def contactRun (s : ContactState) : List ContactEvent → Option ContactState
  | [] => some s
  | event :: events =>
    match contactStep s event with
    | some s' => contactRun s' events
    | none => none

/-- The status reports a submission in progress or a success: its text is one
of the two messages of the handler and it does not carry the error colour. -/
def ContactState.reportsNoError (s : ContactState) : Bool :=
  (s.statusText == "Sending message..." ||
      s.statusText == "Message sent successfully! Thank you for reaching out.") &&
    !s.statusClassList.contains "text-red-500"

/-! ## 6. Mobile sidebar navigation (`script.js` lines 268-314) -/

/-- The state of the mobile sidebar: the flag `sidebarOpen`, the class lists of
`#mobile-nav-sidebar` and `#nav-overlay`, the class list of
`#mobile-menu-toggle` when that element exists, and
`document.body.style.overflow`. -/
structure SidebarState where
  sidebarOpen : Bool
  mobileNavSidebar : DOMTokenList
  navOverlay : DOMTokenList
  mobileMenuToggle : Option DOMTokenList
  bodyOverflow : String
  deriving DecidableEq, Repr

/-- The function `openSidebar`. -/
def openSidebar (s : SidebarState) : SidebarState :=
  { sidebarOpen := true
    mobileNavSidebar := s.mobileNavSidebar.add "open"
    navOverlay := (s.navOverlay.remove "hidden").add "open"
    mobileMenuToggle := s.mobileMenuToggle.map (fun cl => cl.add "active")
    bodyOverflow := "hidden" }

/-- The function `closeSidebar`. -/
def closeSidebar (s : SidebarState) : SidebarState :=
  { sidebarOpen := false
    mobileNavSidebar := s.mobileNavSidebar.remove "open"
    navOverlay := (s.navOverlay.add "hidden").remove "open"
    mobileMenuToggle := s.mobileMenuToggle.map (fun cl => cl.remove "active")
    bodyOverflow := "" }

/-- The `click` listener of `#mobile-menu-toggle`. -/
def menuToggleClick (s : SidebarState) : SidebarState :=
  if s.sidebarOpen then closeSidebar s else openSidebar s

/-- The `click` listener of `#mobile-nav-close`. -/
def navCloseClick (s : SidebarState) : SidebarState :=
  closeSidebar s

/-- The `click` listener of `#nav-overlay`. -/
def navOverlayClick (s : SidebarState) : SidebarState :=
  closeSidebar s

/-- The `keydown` listener of the sidebar on `document`; `key` is `e.key`. -/
def sidebarKeydown (key : String) (s : SidebarState) : SidebarState :=
  if key = "Escape" && s.sidebarOpen then closeSidebar s else s

/-- The sidebar is closed: the flag is cleared, the drawer is without `open`,
the overlay is hidden and without `open`, the menu button is not `active`,
and body scrolling is restored. -/
def SidebarState.closed (s : SidebarState) : Bool :=
  !s.sidebarOpen &&
    !s.mobileNavSidebar.contains "open" &&
    s.navOverlay.contains "hidden" &&
    !s.navOverlay.contains "open" &&
    (match s.mobileMenuToggle with
      | some cl => !cl.contains "active"
      | none => true) &&
    s.bodyOverflow == ""

/-! ## 12. Info modal: closing (`script.js` lines 871-895) -/

/-- The function `closeModal`. -/
def closeModal (s : ModalState) : ModalState :=
  { s with
    modalClassList := s.modalClassList.remove "active"
    bodyOverflow := "" }

/-- The `click` listener of `#info-modal-close`. -/
def modalCloseClick (s : ModalState) : ModalState :=
  closeModal s

/-- The `click` listener of `#info-modal`; `targetIsModal` is `e.target === modal`,
false for a click on a descendant of the modal. -/
def modalClick (targetIsModal : Bool) (s : ModalState) : ModalState :=
  if targetIsModal then closeModal s else s

/-- The `keydown` listener of the modal on `document`; `key` is `e.key`. -/
def modalKeydown (key : String) (s : ModalState) : ModalState :=
  if key = "Escape" && s.modalClassList.contains "active" then closeModal s else s

/-! ## 7. Particles animation (`script.js` lines 319-410)

`Math.random()` is an input of the model: a constructor takes a function
`random` whose value at `i` is the result of its `i`-th call. -/

/-- An instance of the class `Particle`. -/
structure Particle where
  x : ℚ
  y : ℚ
  size : ℚ
  speedX : ℚ
  speedY : ℚ
  opacity : ℚ
  deriving DecidableEq, Repr

/-- The constructor of `Particle`, on a canvas of the given size. -/
def Particle.new (canvasWidth canvasHeight : ℚ) (random : Nat → ℚ) : Particle :=
  { x := random 0 * canvasWidth
    y := random 1 * canvasHeight
    size := random 2 * 2 + 0.5
    speedX := random 3 * 0.5 - 0.25
    speedY := random 4 * 0.5 - 0.25
    opacity := random 5 * 0.5 + 0.2 }

/-- The method `Particle.update`: the four `if` statements run in order, each on
the value the previous one left. -/
def Particle.update (canvasWidth canvasHeight : ℚ) (p : Particle) : Particle :=
  let x := p.x + p.speedX
  let y := p.y + p.speedY
  let x := if x > canvasWidth then 0 else x
  let x := if x < 0 then canvasWidth else x
  let y := if y > canvasHeight then 0 else y
  let y := if y < 0 then canvasHeight else y
  { p with x := x, y := y }

/-- The state of the particle animation: the size of `#particles-canvas` and the
array `particles`. -/
structure ParticleSystem where
  canvasWidth : Nat
  canvasHeight : Nat
  particles : List Particle
  deriving DecidableEq, Repr

/-- The constant `particleCount` for a window of the given inner width. -/
def particleCount (innerWidth : Nat) : Nat :=
  if innerWidth < 768 then 30 else 80

/-- The set-up of the particle animation at page load: the canvas takes the
window size and `particleCount` particles are created. -/
def particlesSetup (innerWidth innerHeight : Nat) (random : Nat → ℚ) : ParticleSystem :=
  { canvasWidth := innerWidth
    canvasHeight := innerHeight
    particles := (List.range (particleCount innerWidth)).map
      (fun i => Particle.new innerWidth innerHeight (fun j => random (6 * i + j))) }

/-- The `resize` listener of the particle animation. -/
def particlesResize (innerWidth innerHeight : Nat) (s : ParticleSystem) : ParticleSystem :=
  { s with canvasWidth := innerWidth, canvasHeight := innerHeight }

/-- A sequence of window resizes, each given by the new inner width and height. -/
def particlesResizes (s : ParticleSystem) (sizes : List (Nat × Nat)) : ParticleSystem :=
  sizes.foldl (fun s size => particlesResize size.1 size.2 s) s

/-! ## 11. Background effects: stars and orbs (`script.js` lines 527-739) -/

/-- The function `isMobileView` for a window of the given inner width. -/
def isMobileView (innerWidth : Nat) : Bool :=
  innerWidth ≤ 768

/-- A star colour `{ r, g, b }`. -/
structure StarColor where
  r : Nat
  g : Nat
  b : Nat
  deriving DecidableEq, Repr

/-- An instance of the class `Star`. -/
structure Star where
  x : ℚ
  y : ℚ
  size : ℚ
  brightness : ℚ
  twinkleSpeed : ℚ
  color : StarColor
  deriving DecidableEq, Repr

/-- The method `getStarColor`, given the result of its `Math.random()` call. -/
def getStarColor (rand : ℚ) : StarColor :=
  if rand > 0.95 then { r := 220, g := 230, b := 255 } else { r := 240, g := 240, b := 240 }

/-- The constructor of `Star`, on a canvas of the given size. -/
def Star.new (canvasWidth canvasHeight : ℚ) (random : Nat → ℚ) : Star :=
  { x := random 0 * canvasWidth
    y := random 1 * canvasHeight
    size := random 2 * 1.5 + 0.3
    brightness := random 3 * 0.4 + 0.2
    twinkleSpeed := random 4 * 0.03 + 0.01
    color := getStarColor (random 5) }

/-- The method `Star.update`. -/
def Star.update (star : Star) : Star :=
  let brightness := star.brightness + star.twinkleSpeed
  { star with
    brightness := brightness
    twinkleSpeed :=
      if brightness ≥ 0.6 ∨ brightness ≤ 0.2 then -star.twinkleSpeed else star.twinkleSpeed }

/-- The constant `Math.PI`: the double nearest to the number pi. -/
def mathPI : ℚ := 884279719003555 / 281474976710656

/-- An instance of the class `GradientOrb`; `currentSize` is `none` until the
first `update`. -/
structure GradientOrb where
  x : ℚ
  y : ℚ
  size : ℚ
  vx : ℚ
  vy : ℚ
  hue : ℚ
  opacity : ℚ
  pulseSpeed : ℚ
  pulsePhase : ℚ
  currentSize : Option ℚ
  deriving DecidableEq, Repr

/-- The constructor of `GradientOrb`, on a canvas of the given size. -/
def GradientOrb.new (canvasWidth canvasHeight : ℚ) (random : Nat → ℚ) : GradientOrb :=
  { x := random 0 * canvasWidth
    y := random 1 * canvasHeight
    size := random 2 * 150 + 100
    vx := (random 3 - 0.5) * 0.5
    vy := (random 4 - 0.5) * 0.5
    hue := random 5 * 60 + 170
    opacity := random 6 * 0.3 + 0.2
    pulseSpeed := random 7 * 0.02 + 0.01
    pulsePhase := random 8 * mathPI * 2
    currentSize := none }

/-- The entities of the background canvas: the size of `#stars-canvas` and the
arrays `stars` and `orbs`. -/
structure StarField where
  canvasWidth : Nat
  canvasHeight : Nat
  stars : List Star
  orbs : List GradientOrb
  deriving DecidableEq, Repr

/-- The count of stars for a window of the given inner width: `starCount` at
page load, `newCount` in the resize listener. -/
def starCount (innerWidth : Nat) : Nat :=
  if isMobileView innerWidth then 0 else 80

/-- The loop `for (...) stars.push(new Star())`: the `i`-th star uses the six
random numbers from position `6 * i` on. -/
def newStars (count : Nat) (canvasWidth canvasHeight : Nat) (random : Nat → ℚ) : List Star :=
  (List.range count).map
    (fun i => Star.new canvasWidth canvasHeight (fun j => random (6 * i + j)))

/-- The loop `for (let i = 0; i < 3; i++) orbs.push(new GradientOrb())`: the
`i`-th orb uses the nine random numbers from position `9 * i` on. -/
def newOrbs (canvasWidth canvasHeight : Nat) (random : Nat → ℚ) : List GradientOrb :=
  (List.range 3).map
    (fun i => GradientOrb.new canvasWidth canvasHeight (fun j => random (9 * i + j)))

/-- The entities created at page load: the canvas takes the window size,
`starCount` stars are created, and three orbs in a mobile view. -/
def starsSetup (innerWidth innerHeight : Nat) (random : Nat → ℚ) : StarField :=
  { canvasWidth := innerWidth
    canvasHeight := innerHeight
    stars := newStars (starCount innerWidth) innerWidth innerHeight random
    orbs :=
      if isMobileView innerWidth then
        newOrbs innerWidth innerHeight (fun j => random (6 * starCount innerWidth + j))
      else [] }

/-- The `resize` listener of the background canvas. -/
def starsResize (innerWidth innerHeight : Nat) (random : Nat → ℚ) (s : StarField) : StarField :=
  let newCount := if isMobileView innerWidth then 0 else 80
  { canvasWidth := innerWidth
    canvasHeight := innerHeight
    stars := newStars newCount innerWidth innerHeight random
    orbs :=
      if isMobileView innerWidth then
        newOrbs innerWidth innerHeight (fun j => random (6 * newCount + j))
      else s.orbs }

/-- An error that ends the execution of the script, with the line of the
statement that raises it. -/
inductive ScriptError where
  | nullDereference (line : Nat)
  | assignmentToConstant (line : Nat)
  deriving DecidableEq, Repr

/-- A `MutationObserver` of section 11: the one created at line 606, or the
replacement created at line 722. -/
inductive ThemeObserver where
  | stars
  | starsOrOrbs
  deriving DecidableEq, Repr

/-- The scheduling state of the background loops.  `starLoops` and `orbLoops`
hold one entry for each chain of `requestAnimationFrame` callbacks of
`animateStars` and `animateOrbs` that is pending, recording the dark flag at
the call that started the chain; `observers` are the mutation observers that
are observing the root element.  The entity updates and the drawing done by
a frame are not part of this state. -/
structure LoopState where
  theme : ThemeState
  innerWidth : Nat
  starLoops : List Bool
  orbLoops : List Bool
  observers : List ThemeObserver
  deriving DecidableEq, Repr

/-- A call of `animateStars` from outside the loop: the body ends with
`requestAnimationFrame(animateStars)`, which starts a chain. -/
def animateStars (s : LoopState) : LoopState :=
  { s with starLoops := s.starLoops ++ [s.theme.dark] }

/-- A call of `animateOrbs` from outside the loop. -/
def animateOrbs (s : LoopState) : LoopState :=
  { s with orbLoops := s.orbLoops ++ [s.theme.dark] }

/-- The callback of a mutation observer for one record with `attributeName`
equal to `class`. -/
def themeObserverCallback (s : LoopState) : ThemeObserver → LoopState
  | .stars => if s.theme.dark then animateStars s else s
  | .starsOrOrbs =>
    if s.theme.dark then
      if isMobileView s.innerWidth then animateOrbs s else animateStars s
    else s

/-- The statements of section 11 that start loops and connect observers, in
source order, up to the statement that ends the script: line 722 assigns to
`observer`, which line 606 declared with `const` in the same block. -/
def backgroundSetup (theme : ThemeState) (innerWidth : Nat) : LoopState × Option ScriptError :=
  let s : LoopState :=
    { theme := theme, innerWidth := innerWidth, starLoops := [], orbLoops := [], observers := [] }
  let s := if s.theme.dark then animateStars s else s
  let s := { s with observers := s.observers ++ [ThemeObserver.stars] }
  let s := if isMobileView innerWidth && s.theme.dark then animateOrbs s else s
  let s := { s with observers := s.observers.erase ThemeObserver.stars }
  (s, some (ScriptError.assignmentToConstant 722))

/-- What happens next to the background loops: a click on a theme toggle, or an
animation frame. -/
inductive LoopEvent where
  | toggle
  | frame
  deriving DecidableEq, Repr

/-- One step of the background loops.  A toggle runs `toggleTheme`, whose change
of the `class` attribute is reported to every connected observer.  A frame
runs every pending callback, and each calls `requestAnimationFrame` on itself
again without a test, so the pending chains are the same afterwards. -/
def loopStep (s : LoopState) : LoopEvent → LoopState
  | .toggle =>
    s.observers.foldl themeObserverCallback { s with theme := toggleTheme s.theme }
  | .frame => s

/-- The state after a sequence of events. -/
def loopRun (s : LoopState) (events : List LoopEvent) : LoopState :=
  events.foldl loopStep s

/-! ## Top-level execution of sections 1-11 (`script.js` lines 73-740) -/

/-- Which of the elements the script looks up exist in the page.  For a canvas
the flag also says that `getContext('2d')` returned a context. -/
structure DomElements where
  darkModeToggle : Bool
  sunIcon : Bool
  moonIcon : Bool
  contactForm : Bool
  formStatus : Bool
  mobileDarkModeToggle : Bool
  mobileSunIcon : Bool
  mobileMoonIcon : Bool
  mobileMenuToggle : Bool
  mobileNavSidebar : Bool
  mobileNavClose : Bool
  navOverlay : Bool
  mobileNavLinks : Bool
  particlesCanvas : Bool
  customCursor : Bool
  cursorFollower : Bool
  typingText : Bool
  starsCanvas : Bool
  deriving DecidableEq, Repr

/-- A member access on the result of an element lookup without a null check. -/
def dereference (present : Bool) (line : Nat) : Except ScriptError Unit :=
  if present then pure () else throw (ScriptError.nullDereference line)

/-- A use of the result of an element lookup behind `?.` or inside an `if` on
the element: nothing is raised when the element is absent. -/
def guarded (_present : Bool) : Except ScriptError Unit :=
  pure ()

/-- The top-level statements of sections 1-11 that use the result of an element
lookup, in source order; `isDark` is the flag `isDarkMode` of
`initializeTheme`.  An error ends the script: no later statement runs. -/
def runSections (dom : DomElements) (isDark : Bool) : Except ScriptError Unit := do
  dereference dom.darkModeToggle 112
  if isDark then
    dereference dom.moonIcon 84
    dereference dom.sunIcon 85
  else
    dereference dom.sunIcon 90
    dereference dom.moonIcon 91
  dereference dom.contactForm 213
  guarded dom.darkModeToggle
  guarded dom.mobileDarkModeToggle
  guarded dom.mobileSunIcon
  guarded dom.mobileMoonIcon
  guarded dom.mobileMenuToggle
  guarded dom.mobileNavClose
  guarded dom.navOverlay
  guarded dom.mobileNavLinks
  guarded dom.particlesCanvas
  guarded (dom.customCursor && dom.cursorFollower)
  guarded dom.typingText
  if dom.starsCanvas then
    throw (ScriptError.assignmentToConstant 722)
  pure ()

/-- The page in which every element the script looks up exists. -/
def fullPage : DomElements :=
  { darkModeToggle := true, sunIcon := true, moonIcon := true, contactForm := true,
    formStatus := true, mobileDarkModeToggle := true, mobileSunIcon := true,
    mobileMoonIcon := true, mobileMenuToggle := true, mobileNavSidebar := true,
    mobileNavClose := true, navOverlay := true, mobileNavLinks := true,
    particlesCanvas := true, customCursor := true, cursorFollower := true,
    typingText := true, starsCanvas := true }

/-- The twinkle invariant for a speed of magnitude `speed`: a star moving up
is above `0.2 - speed` and below `0.6`, a star moving down is above `0.2` and
below `0.6 + speed`. -/
def Star.Twinkling (speed : ℚ) (star : Star) : Prop :=
  (star.twinkleSpeed = speed ∧ 0.2 - speed < star.brightness ∧ star.brightness < 0.6) ∨
    (star.twinkleSpeed = -speed ∧ 0.2 < star.brightness ∧ star.brightness < 0.6 + speed)

/-- Every pending loop was started while the dark flag was set. -/
def LoopState.startedDark (s : LoopState) : Bool :=
  (s.starLoops ++ s.orbLoops).all (fun dark => dark)

/-! ## 11b. Gradient orb motion (`script.js` lines 657-674)

`Math.sin` is an input of the model. -/

/-- The method `GradientOrb.update`, on a canvas of the given size. -/
def GradientOrb.update (sin : ℚ → ℚ) (canvasWidth canvasHeight : ℚ) (orb : GradientOrb) :
    GradientOrb :=
  let x := orb.x + orb.vx
  let y := orb.y + orb.vy
  let vx := if x < -orb.size ∨ x > canvasWidth + orb.size then orb.vx * -1 else orb.vx
  let vy := if y < -orb.size ∨ y > canvasHeight + orb.size then orb.vy * -1 else orb.vy
  let pulsePhase := orb.pulsePhase + orb.pulseSpeed
  let pulseFactor := sin pulsePhase * 0.2 + 1
  { orb with
    x := x
    y := y
    vx := vx
    vy := vy
    pulsePhase := pulsePhase
    currentSize := some (orb.size * pulseFactor) }

/-! ## 7b. Connecting the particles (`script.js` lines 366-388) -/

/-- The nested loops `for (i = 0; i < n; i++) for (j = i + 1; j < n; j++)`,
collecting what the body produces for each `i` and `j`, in order. -/
def forPairs {β : Type} (n : Nat) (body : Nat → Nat → List β) : List β :=
  ((List.range n).map
    (fun i => ((List.range' (i + 1) (n - (i + 1))).map (fun j => body i j)).flatten)).flatten

/-- The pairs of indices the loops of `connectParticles` visit, in order. -/
def pairChecks (n : Nat) : List (Nat × Nat) :=
  forPairs n (fun i j => [(i, j)])

/-- The constant `maxDistance` of `connectParticles`. -/
def maxDistance : ℚ := 120

/-- The value of `dx * dx + dy * dy` for two particles, each operation rounded
as the machine rounds it. -/
def squaredDistance (p q : Particle) : ℚ :=
  let dx := roundDouble (p.x - q.x)
  let dy := roundDouble (p.y - q.y)
  roundDouble (roundDouble (dx * dx) + roundDouble (dy * dy))

/-- The test `distance < maxDistance` for the particles at `i` and `j`, with
`distance = Math.sqrt(dx * dx + dy * dy)`. -/
def withinReach (particles : List Particle) (i j : Nat) : Bool :=
  match particles.get? i, particles.get? j with
  | some p, some q => decide (sqrtDouble (squaredDistance p q) < maxDistance)
  | _, _ => false

/-- The function `connectParticles`: the pairs of indices between which a line
is stroked, in order. -/
def connectParticles (particles : List Particle) : List (Nat × Nat) :=
  forPairs particles.length (fun i j => if withinReach particles i j then [(i, j)] else [])

/-! ## 10. Typing animation (`script.js` lines 482-522) -/

/-- The array `texts`. -/
def texts : List String :=
  [ "MERN Stack",
    "Flutter Development",
    "Android Development",
    "AI Integration",
    "Full-Stack Solutions" ]

/-- The call `text.substring(0, stop)`; a negative `stop` counts as `0` and one
beyond the length as the length. -/
def substringTo (text : String) (stop : ℤ) : String :=
  String.mk (text.data.take stop.toNat)

/-- The variables of the typing animation and the text of `#typing-text`. -/
structure TypingState where
  textIndex : Nat
  charIndex : ℤ
  isDeleting : Bool
  typingSpeed : Nat
  textContent : String
  deriving DecidableEq, Repr

/-- The variables before the first call of `type`; the text of the element is
what the page contains. -/
def TypingState.initial (textContent : String) : TypingState :=
  { textIndex := 0, charIndex := 0, isDeleting := false, typingSpeed := 100,
    textContent := textContent }

/-- The function `type`, up to its `setTimeout(type, typingSpeed)`. -/
def type (s : TypingState) : TypingState :=
  let currentText := texts.getD s.textIndex ""
  let s :=
    if s.isDeleting then
      { s with
        textContent := substringTo currentText (s.charIndex - 1)
        charIndex := s.charIndex - 1
        typingSpeed := 50 }
    else
      { s with
        textContent := substringTo currentText (s.charIndex + 1)
        charIndex := s.charIndex + 1
        typingSpeed := 100 }
  if !s.isDeleting && s.charIndex == (currentText.length : ℤ) then
    { s with isDeleting := true, typingSpeed := 2000 }
  else if s.isDeleting && s.charIndex == 0 then
    { s with
      isDeleting := false
      textIndex := (s.textIndex + 1) % texts.length
      typingSpeed := 500 }
  else
    s

/-- The part of the typing state the next call of `type` depends on. -/
def TypingState.position (s : TypingState) : Nat × ℤ × Bool :=
  (s.textIndex, s.charIndex, s.isDeleting)

/-- The invariant of the typing animation: the text index is in range, and the
character index is below the length of the current text while typing and
above zero while deleting. -/
def TypingState.WellFormed (s : TypingState) : Prop :=
  s.textIndex < 5 ∧
    ((s.isDeleting = false ∧ 0 ≤ s.charIndex ∧
        s.charIndex < ((texts.getD s.textIndex "").length : ℤ)) ∨
      (s.isDeleting = true ∧ 0 < s.charIndex ∧
        s.charIndex ≤ ((texts.getD s.textIndex "").length : ℤ)))

/-! ## Body scroll lock of the sidebar and the modal -/

/-- The sidebar and the modal on one page.  The field `bodyOverflow` of each
part is the single property `document.body.style.overflow`, so a handler of
one part also sets the field of the other. -/
structure PageState where
  sidebar : SidebarState
  modal : ModalState
  deriving DecidableEq, Repr

/-- A call of one of the four handlers that set the body overflow. -/
inductive ScrollHandler where
  | openSidebar
  | closeSidebar
  | openModal (projectName : String)
  | closeModal
  deriving DecidableEq, Repr

/-- The handler sets the body overflow to `hidden`. -/
def ScrollHandler.locks : ScrollHandler → Bool
  | .openSidebar => true
  | .closeSidebar => false
  | .openModal _ => true
  | .closeModal => false

/-- Runs a sidebar handler on the page. -/
def PageState.withSidebar (p : PageState) (sidebar : SidebarState) : PageState :=
  { sidebar := sidebar, modal := { p.modal with bodyOverflow := sidebar.bodyOverflow } }

/-- Runs a modal handler on the page. -/
def PageState.withModal (p : PageState) (modal : ModalState) : PageState :=
  { sidebar := { p.sidebar with bodyOverflow := modal.bodyOverflow }, modal := modal }

/-- One handler call on the page. -/
def runHandler (p : PageState) : ScrollHandler → PageState
  | .openSidebar => p.withSidebar (openSidebar p.sidebar)
  | .closeSidebar => p.withSidebar (closeSidebar p.sidebar)
  | .openModal projectName => p.withModal (openModal projectName p.modal)
  | .closeModal => p.withModal (closeModal p.modal)

/-- A sequence of handler calls. -/
def runHandlers (p : PageState) (handlers : List ScrollHandler) : PageState :=
  handlers.foldl runHandler p

/-- Body scrolling is locked: the overflow is `hidden`. -/
def PageState.scrollLocked (p : PageState) : Bool :=
  p.sidebar.bodyOverflow == "hidden"

/-- The modal is active. -/
def PageState.modalActive (p : PageState) : Bool :=
  p.modal.modalClassList.contains "active"

/-- A page at load: the sidebar closed (`let sidebarOpen = false`), the overlay
hidden, the modal not active, the body overflow unset. -/
def pageAtLoad : PageState :=
  { sidebar :=
      { sidebarOpen := false, mobileNavSidebar := [], navOverlay := ["hidden"],
        mobileMenuToggle := some [], bodyOverflow := "" }
    modal := { modalClassList := [], modalTitle := "", modalBody := "", bodyOverflow := "" } }

/-! ## 5. Mobile dark mode toggle (`script.js` lines 244-264) -/

/-- The theme state together with the class lists of `#mobile-sun-icon` and
`#mobile-moon-icon`, for the icons that exist. -/
structure MobileThemeState where
  theme : ThemeState
  mobileSunIcon : Option DOMTokenList
  mobileMoonIcon : Option DOMTokenList
  deriving DecidableEq, Repr

/-- The function `updateMobileThemeIcons`. -/
def updateMobileThemeIcons (s : MobileThemeState) : MobileThemeState :=
  if s.theme.dark then
    { s with
      mobileMoonIcon := s.mobileMoonIcon.map (fun cl => cl.remove "hidden")
      mobileSunIcon := s.mobileSunIcon.map (fun cl => cl.add "hidden") }
  else
    { s with
      mobileSunIcon := s.mobileSunIcon.map (fun cl => cl.remove "hidden")
      mobileMoonIcon := s.mobileMoonIcon.map (fun cl => cl.add "hidden") }

/-- The `click` listener of `#dark-mode-toggle`: `toggleTheme`. -/
def desktopToggleClick (s : MobileThemeState) : MobileThemeState :=
  { s with theme := toggleTheme s.theme }

/-- The `click` listener of `#mobile-dark-mode-toggle`. -/
def mobileToggleClick (s : MobileThemeState) : MobileThemeState :=
  updateMobileThemeIcons { s with theme := toggleTheme s.theme }

/-- The mobile icons agree with the dark flag: the mobile sun icon is hidden
and the mobile moon icon visible exactly when the flag is set. -/
def MobileThemeState.mobileIconsAgree (s : MobileThemeState) : Bool :=
  (match s.mobileSunIcon with
    | some cl => cl.contains "hidden" == s.theme.dark
    | none => true) &&
  (match s.mobileMoonIcon with
    | some cl => cl.contains "hidden" == !s.theme.dark
    | none => true)

/-- The page after `initializeTheme()` and the call `updateMobileThemeIcons()`
of line 264, for a first visit with a light OS preference. -/
def mobileThemeAtLoad : MobileThemeState :=
  updateMobileThemeIcons
    { theme := initializeTheme false freshThemeState
      mobileSunIcon := some []
      mobileMoonIcon := some [] }

/-! ## Event listener registration (`script.js` lines 112 and 240) -/

/-- The functions the script registers as listeners on `#dark-mode-toggle`. -/
inductive Callback where
  | toggleTheme
  deriving DecidableEq, Repr

/-- An entry of an event listener list: the event type, the callback and the
capture flag. -/
structure EventListener where
  type : String
  callback : Callback
  capture : Bool
  deriving DecidableEq, Repr

/-- The call `target.addEventListener(type, callback)`: nothing is appended when
the list holds an entry with the same type, callback and capture flag. -/
def addEventListener (listeners : List EventListener) (type : String) (callback : Callback) :
    List EventListener :=
  let listener : EventListener := { type := type, callback := callback, capture := false }
  if listeners.elem listener then listeners else listeners ++ [listener]

/-- The listener list of `#dark-mode-toggle` after line 112 and line 240. -/
def toggleButtonListeners : List EventListener :=
  addEventListener (addEventListener [] "click" Callback.toggleTheme) "click"
    Callback.toggleTheme

/-- Runs a callback on the theme state. -/
def Callback.run : Callback → ThemeState → ThemeState
  | .toggleTheme => Portfolio.toggleTheme

/-- The dispatch of an event of the given type: every listener of that type
runs once, in registration order. -/
def dispatchEvent (listeners : List EventListener) (type : String) (s : ThemeState) :
    ThemeState :=
  (listeners.filter (fun listener => listener.type == type)).foldl
    (fun s listener => listener.callback.run s) s

/-! ## Throttle and debounce (`script.js` lines 5-28) -/

/-- The state of a function wrapped by `throttle`: the variable `inThrottle`
(`undefined` counts as false), the delays of the pending timeouts, and the
arguments of the calls made to the wrapped function, in order. -/
structure ThrottleState (α : Type) where
  inThrottle : Bool
  timers : List Nat
  invocations : List α
  deriving DecidableEq, Repr

/-- The function `throttle(func, limit)` returns, called with `args`. -/
def throttled {α : Type} (limit : Nat) (s : ThrottleState α) (args : α) : ThrottleState α :=
  if !s.inThrottle then
    { inThrottle := true
      timers := s.timers ++ [limit]
      invocations := s.invocations ++ [args] }
  else
    s

/-- What happens next to a throttled function: a call, or the run of the
pending timeout callback at position `index`. -/
inductive ThrottleEvent (α : Type) where
  | call (args : α)
  | timeout (index : Nat)
  deriving DecidableEq, Repr

/-- One step of a throttled function; the timeout callback is
`() => inThrottle = false`. -/
def throttleStep {α : Type} (limit : Nat) (s : ThrottleState α) :
    ThrottleEvent α → Option (ThrottleState α)
  | .call args => some (throttled limit s args)
  | .timeout index =>
    match s.timers.drop index with
    | [] => none
    | _ :: later => some { s with inThrottle := false, timers := s.timers.take index ++ later }

/-- The state after a sequence of events. -/
def throttleRun {α : Type} (limit : Nat) (s : ThrottleState α) :
    List (ThrottleEvent α) → Option (ThrottleState α)
  | [] => some s
  | event :: events =>
    match throttleStep limit s event with
    | some s' => throttleRun limit s' events
    | none => none

/-- The state of a function wrapped by `debounce`: the pending timer of the
variable `timeout`, as the time it is due and the arguments its callback
`later` passes on, and the calls made to the wrapped function, each with the
time of the call.  Times are in milliseconds. -/
structure DebounceState (α : Type) where
  timeout : Option (Nat × α)
  invocations : List (Nat × α)
  deriving DecidableEq, Repr

/-- The passing of time up to `now`: a pending timer that is due runs `later`,
which calls the wrapped function. -/
def DebounceState.advanceTo {α : Type} (s : DebounceState α) (now : Nat) : DebounceState α :=
  match s.timeout with
  | some (due, args) =>
    if due ≤ now then { timeout := none, invocations := s.invocations ++ [(due, args)] } else s
  | none => s

/-- The function `debounce(func, wait)` returns, called with `args` at time
`now`: `clearTimeout(timeout)` cancels the pending timer and
`setTimeout(later, wait)` starts a new one.  A timer due at `now` or earlier
has run before the call. -/
def debounced {α : Type} (wait : Nat) (s : DebounceState α) (now : Nat) (args : α) :
    DebounceState α :=
  { s.advanceTo now with timeout := some (now + wait, args) }

/-- A sequence of calls, each with its time. -/
def debounceRun {α : Type} (wait : Nat) (s : DebounceState α) (calls : List (Nat × α)) :
    DebounceState α :=
  calls.foldl (fun s call => debounced wait s call.1 call.2) s

/-! # Theorems -/

/-! ## Token lists and maps -/

theorem DOMTokenList.contains_add_self (cl : DOMTokenList) (c : String) :
    (cl.add c).contains c = true := by
  unfold DOMTokenList.add DOMTokenList.contains
  by_cases h : c ∈ cl <;> simp [h]

theorem DOMTokenList.contains_remove_self (cl : DOMTokenList) (c : String) :
    (cl.remove c).contains c = false := by
  unfold DOMTokenList.remove DOMTokenList.contains
  simp

theorem StringMap.get_set (m : StringMap) (k v k' : String) :
    StringMap.get (StringMap.set m k v) k' = if k = k' then some v else StringMap.get m k' := by
  induction m with
  | nil => simp [StringMap.set, StringMap.get]
  | cons p rest ih =>
    obtain ⟨a, b⟩ := p
    by_cases hak : a = k
    · subst hak
      by_cases hk : a = k' <;> simp [StringMap.set, StringMap.get, hk]
    · by_cases hk : a = k'
      · subst hk
        simp [StringMap.set, StringMap.get, hak, Ne.symm hak]
      · simp [StringMap.set, StringMap.get, hak, hk, ih]

/-! ## Dark mode toggle -/

theorem paletteSet_dark (el : CSSStyleDeclaration) :
    paletteSet darkPalette (updateCubeThemeVars true el) = true := by
  simp [paletteSet, darkPalette, updateCubeThemeVars, CSSStyleDeclaration.getPropertyValue,
    CSSStyleDeclaration.setProperty, StringMap.get_set]

theorem paletteSet_light (el : CSSStyleDeclaration) :
    paletteSet lightPalette (updateCubeThemeVars false el) = true := by
  simp [paletteSet, lightPalette, updateCubeThemeVars, CSSStyleDeclaration.getPropertyValue,
    CSSStyleDeclaration.setProperty, StringMap.get_set]

theorem toggleTheme_dark (s : ThemeState) : (toggleTheme s).dark = !s.dark := by
  unfold toggleTheme ThemeState.dark
  by_cases h : s.rootClassList.contains "dark" = true
  · simp [h, DOMTokenList.contains_remove_self]
  · simp [h, DOMTokenList.contains_add_self]

theorem toggleTheme_persisted (s : ThemeState) :
    (toggleTheme s).persisted = some (if s.dark then "light" else "dark") := by
  unfold toggleTheme ThemeState.dark ThemeState.persisted
  by_cases h : s.rootClassList.contains "dark" = true <;>
    simp [h, Storage.getItem, Storage.setItem, StringMap.get_set]

theorem toggleTheme_sunHidden (s : ThemeState) : (toggleTheme s).sunHidden = !s.dark := by
  unfold toggleTheme ThemeState.dark ThemeState.sunHidden
  by_cases h : s.rootClassList.contains "dark" = true
  · simp [h, DOMTokenList.contains_remove_self]
  · simp [h, DOMTokenList.contains_add_self]

theorem toggleTheme_moonHidden (s : ThemeState) : (toggleTheme s).moonHidden = s.dark := by
  unfold toggleTheme ThemeState.dark ThemeState.moonHidden
  by_cases h : s.rootClassList.contains "dark" = true
  · simp [h, DOMTokenList.contains_add_self]
  · simp [h, DOMTokenList.contains_remove_self]

theorem toggleTheme_rootStyle (s : ThemeState) :
    (toggleTheme s).rootStyle = updateCubeThemeVars (!s.dark) s.rootStyle := by
  unfold toggleTheme ThemeState.dark
  by_cases h : s.rootClassList.contains "dark" = true <;> simp [h]

theorem initializeTheme_dark (prefersDark : Bool) (s : ThemeState) :
    (initializeTheme prefersDark s).dark = isDarkMode prefersDark s.localStorage := by
  unfold initializeTheme ThemeState.dark
  by_cases h : isDarkMode prefersDark s.localStorage = true
  · simp [h, DOMTokenList.contains_add_self]
  · simp [h, DOMTokenList.contains_remove_self]

theorem initializeTheme_sunHidden (prefersDark : Bool) (s : ThemeState) :
    (initializeTheme prefersDark s).sunHidden = isDarkMode prefersDark s.localStorage := by
  unfold initializeTheme ThemeState.sunHidden
  by_cases h : isDarkMode prefersDark s.localStorage = true
  · simp [h, DOMTokenList.contains_add_self]
  · simp [h, DOMTokenList.contains_remove_self]

theorem initializeTheme_moonHidden (prefersDark : Bool) (s : ThemeState) :
    (initializeTheme prefersDark s).moonHidden = !isDarkMode prefersDark s.localStorage := by
  unfold initializeTheme ThemeState.moonHidden
  by_cases h : isDarkMode prefersDark s.localStorage = true
  · simp [h, DOMTokenList.contains_remove_self]
  · simp [h, DOMTokenList.contains_add_self]

theorem initializeTheme_rootStyle (prefersDark : Bool) (s : ThemeState) :
    (initializeTheme prefersDark s).rootStyle
      = updateCubeThemeVars (isDarkMode prefersDark s.localStorage) s.rootStyle := by
  unfold initializeTheme
  by_cases h : isDarkMode prefersDark s.localStorage = true <;> simp [h]

/-- Claim C1 as stated fails: on a first visit with a light OS preference no
`theme` value is stored, and after two toggles the value `light` is stored. -/
theorem toggleTheme_twice_not_identity :
    ¬ ∀ s : ThemeState,
      (toggleTheme (toggleTheme s)).persisted = s.persisted ∧
      (toggleTheme (toggleTheme s)).sunHidden = s.sunHidden ∧
      (toggleTheme (toggleTheme s)).moonHidden = s.moonHidden := by
  intro h
  have h0 := (h (initializeTheme false freshThemeState)).1
  revert h0
  decide

/-- Claim C1, amended: in every theme state two toggles restore the dark flag,
and each of the persisted `theme` value, the sun icon visibility and the moon
icon visibility is equal to what it was before the first toggle exactly when
it agreed with the dark flag then (`dark`, sun hidden, moon visible for a set
flag; `light`, sun visible, moon hidden for a cleared flag). -/
theorem toggleTheme_twice (s : ThemeState) :
    (toggleTheme (toggleTheme s)).dark = s.dark ∧
      ((toggleTheme (toggleTheme s)).persisted = s.persisted ↔
        s.persisted = some (if s.dark then "dark" else "light")) ∧
      ((toggleTheme (toggleTheme s)).sunHidden = s.sunHidden ↔ s.sunHidden = s.dark) ∧
      ((toggleTheme (toggleTheme s)).moonHidden = s.moonHidden ↔ s.moonHidden = !s.dark) := by
  have hd : (toggleTheme (toggleTheme s)).dark = s.dark := by
    rw [toggleTheme_dark, toggleTheme_dark, Bool.not_not]
  have hp : (toggleTheme (toggleTheme s)).persisted
      = some (if s.dark then "dark" else "light") := by
    rw [toggleTheme_persisted, toggleTheme_dark]
    cases s.dark <;> rfl
  have hsun : (toggleTheme (toggleTheme s)).sunHidden = s.dark := by
    rw [toggleTheme_sunHidden, toggleTheme_dark, Bool.not_not]
  have hmoon : (toggleTheme (toggleTheme s)).moonHidden = !s.dark := by
    rw [toggleTheme_moonHidden, toggleTheme_dark]
  refine ⟨hd, ?_, ?_, ?_⟩
  · rw [hp]; exact eq_comm
  · rw [hsun]; exact eq_comm
  · rw [hmoon]; exact eq_comm

/-- Claim C2: in every state `toggleTheme` flips the dark flag of the root
element and stores under `theme` the value matching the new flag: `dark` when
the flag is now set, `light` when it is now cleared. -/
theorem toggleTheme_flips_flag (s : ThemeState) :
    (toggleTheme s).dark = (!s.dark) ∧
      (toggleTheme s).persisted
        = some (if (toggleTheme s).dark then "dark" else "light") := by
  refine ⟨toggleTheme_dark s, ?_⟩
  rw [toggleTheme_persisted, toggleTheme_dark]
  cases s.dark <;> rfl

/-- Claim C3: `initializeTheme` sets the dark flag exactly when the stored
`theme` value is `dark`, or no `theme` value is stored and the OS prefers a
dark colour scheme; when a `theme` value is stored the OS preference does not
change the resulting state. -/
theorem initializeTheme_resolves (prefersDark : Bool) (s : ThemeState) :
    ((initializeTheme prefersDark s).dark = true ↔
        (s.persisted = some "dark" ∨ (s.persisted = none ∧ prefersDark = true))) ∧
      (s.persisted.isSome = true →
        initializeTheme prefersDark s = initializeTheme (!prefersDark) s) := by
  constructor
  · rw [initializeTheme_dark]
    unfold isDarkMode ThemeState.persisted Storage.hasKey Storage.getItem
    cases hget : StringMap.get s.localStorage "theme" <;> simp
  · intro hsome
    have hmode : isDarkMode prefersDark s.localStorage
        = isDarkMode (!prefersDark) s.localStorage := by
      unfold isDarkMode Storage.hasKey
      unfold ThemeState.persisted Storage.getItem at hsome
      simp [hsome]
    unfold initializeTheme
    rw [hmode]

/-- Claim C3 at a stored value `light`: the state is the same under both OS
preferences. -/
theorem initializeTheme_resolves_witness :
    ({ freshThemeState with localStorage := [("theme", "light")] } : ThemeState).persisted.isSome
        = true ∧
      initializeTheme true { freshThemeState with localStorage := [("theme", "light")] }
        = initializeTheme false { freshThemeState with localStorage := [("theme", "light")] } :=
  ⟨by decide,
    (initializeTheme_resolves true
      { freshThemeState with localStorage := [("theme", "light")] }).2 (by decide)⟩

/-- Claim C4: after `initializeTheme` and after every `toggleTheme` the desktop
icons and the cube colour variables agree with the dark flag (flag set: moon
visible, sun hidden, dark palette; flag cleared: sun visible, moon hidden,
light palette), so exactly one of the two icons is hidden. -/
theorem theme_agrees_after (prefersDark : Bool) (s : ThemeState) :
    (initializeTheme prefersDark s).agrees = true ∧
      (toggleTheme s).agrees = true ∧
      (initializeTheme prefersDark s).sunHidden ≠ (initializeTheme prefersDark s).moonHidden ∧
      (toggleTheme s).sunHidden ≠ (toggleTheme s).moonHidden := by
  refine ⟨?_, ?_, ?_, ?_⟩
  · unfold ThemeState.agrees
    rw [initializeTheme_dark, initializeTheme_sunHidden, initializeTheme_moonHidden,
      initializeTheme_rootStyle]
    cases isDarkMode prefersDark s.localStorage <;> simp [paletteSet_dark, paletteSet_light]
  · unfold ThemeState.agrees
    rw [toggleTheme_dark, toggleTheme_sunHidden, toggleTheme_moonHidden,
      toggleTheme_rootStyle]
    cases s.dark <;> simp [paletteSet_dark, paletteSet_light]
  · rw [initializeTheme_sunHidden, initializeTheme_moonHidden]
    cases isDarkMode prefersDark s.localStorage <;> simp
  · rw [toggleTheme_sunHidden, toggleTheme_moonHidden]
    cases s.dark <;> simp

/-- Claim C5: `toggleTheme` changes `localStorage` by one `setItem` on the key
`theme` with the value `light` or `dark`, so every other key keeps its value,
and `initializeTheme` leaves `localStorage` unchanged. -/
theorem theme_storage_writes (prefersDark : Bool) (s : ThemeState) :
    ((toggleTheme s).localStorage = s.localStorage.setItem "theme" "light" ∨
        (toggleTheme s).localStorage = s.localStorage.setItem "theme" "dark") ∧
      (∀ key : String, (toggleTheme s).localStorage.getItem key =
        if key = "theme" then some (if s.dark then "light" else "dark")
        else s.localStorage.getItem key) ∧
      (initializeTheme prefersDark s).localStorage = s.localStorage := by
  refine ⟨?_, ?_, ?_⟩
  · unfold toggleTheme
    by_cases h : s.rootClassList.contains "dark" = true <;> simp [h]
  · intro key
    unfold toggleTheme ThemeState.dark
    have hkey : ("theme" = key) = (key = "theme") := propext ⟨Eq.symm, Eq.symm⟩
    by_cases h : s.rootClassList.contains "dark" = true <;>
      simp [h, hkey, Storage.getItem, Storage.setItem, StringMap.get_set]
  · unfold initializeTheme
    by_cases h : isDarkMode prefersDark s.localStorage = true <;> simp [h]

/-! ## Scroll reveal -/

theorem mem_unobserve (observed : List Nat) (target t : Nat) :
    t ∈ unobserve observed target ↔ t ∈ observed ∧ t ≠ target := by
  simp [unobserve]

theorem revealEntry_unobserves (s : RevealState) (entry : IntersectionObserverEntry)
    (h : entry.isIntersecting = true) : entry.target ∉ (revealEntry s entry).observed := by
  simp [revealEntry, h, mem_unobserve]

theorem intersectingCount_cons (entry : IntersectionObserverEntry)
    (rest : List IntersectionObserverEntry) (target : Nat) :
    intersectingCount (entry :: rest) target =
      (if entry.isIntersecting = true ∧ entry.target = target then 1 else 0) +
        intersectingCount rest target := by
  unfold intersectingCount
  by_cases h : entry.isIntersecting = true ∧ entry.target = target
  · have hb : (entry.isIntersecting && entry.target == target) = true := by
      simp [h.1, h.2]
    simp only [List.filter_cons, hb, if_true, if_pos h, List.length_cons]
    omega
  · have hb : (entry.isIntersecting && entry.target == target) = false := by
      rw [Bool.eq_false_iff]
      simpa using h
    simp only [List.filter_cons, hb, if_neg h]
    simp

/-- One entry adds one pending reveal for its target when it is intersecting. -/
theorem scheduled_revealEntry (s : RevealState) (entry : IntersectionObserverEntry)
    (target : Nat) :
    (revealEntry s entry).scheduled.count target =
      s.scheduled.count target +
        (if entry.isIntersecting = true ∧ entry.target = target then 1 else 0) := by
  unfold revealEntry
  by_cases hi : entry.isIntersecting = true
  · simp only [hi, if_true, RevealState.scheduled, List.map_append, List.map_cons, List.map_nil,
      List.count_append, List.count_cons, List.count_nil, true_and]
    by_cases ht : entry.target = target
    · simp [ht]
      omega
    · have hne : (entry.target == target) = false := by simpa using ht
      simp [ht, hne]
  · simp [hi]

/-- A batch adds one pending reveal per intersecting entry. -/
theorem scheduled_revealCallback (entries : List IntersectionObserverEntry) (target : Nat) :
    ∀ s : RevealState,
      (revealCallback s entries).scheduled.count target =
        s.scheduled.count target + intersectingCount entries target := by
  induction entries with
  | nil => intro s; simp [revealCallback, intersectingCount]
  | cons entry rest ih =>
    intro s
    have h := ih (revealEntry s entry)
    simp only [revealCallback, List.foldl_cons] at h ⊢
    rw [h, scheduled_revealEntry, intersectingCount_cons]
    omega

theorem observed_revealEntry (s : RevealState) (entry : IntersectionObserverEntry)
    (target : Nat) :
    target ∈ (revealEntry s entry).observed ↔
      target ∈ s.observed ∧ ¬ (entry.isIntersecting = true ∧ entry.target = target) := by
  unfold revealEntry
  by_cases hi : entry.isIntersecting = true
  · simp only [hi, if_true, mem_unobserve, true_and]
    constructor
    · rintro ⟨h1, h2⟩; exact ⟨h1, fun h => h2 h.symm⟩
    · rintro ⟨h1, h2⟩; exact ⟨h1, fun h => h2 h.symm⟩
  · simp [hi]

/-- After a batch the observed targets are those that were observed and that
no entry of the batch reported as intersecting. -/
theorem observed_revealCallback (entries : List IntersectionObserverEntry) (target : Nat) :
    ∀ s : RevealState,
      (target ∈ (revealCallback s entries).observed ↔
        target ∈ s.observed ∧ intersectingCount entries target = 0) := by
  induction entries with
  | nil => intro s; simp [revealCallback, intersectingCount]
  | cons entry rest ih =>
    intro s
    have h := ih (revealEntry s entry)
    simp only [revealCallback, List.foldl_cons] at h ⊢
    rw [h, observed_revealEntry, intersectingCount_cons]
    by_cases hc : entry.isIntersecting = true ∧ entry.target = target
    · simp [hc]
    · simp [hc]

theorem intersectingCount_pos (entries : List IntersectionObserverEntry) (target : Nat)
    (h : 0 < intersectingCount entries target) :
    ∃ entry ∈ entries, entry.target = target := by
  unfold intersectingCount at h
  obtain ⟨entry, hmem⟩ := List.exists_mem_of_length_pos h
  rw [List.mem_filter] at hmem
  refine ⟨entry, hmem.1, ?_⟩
  have h2 := hmem.2
  simp only [Bool.and_eq_true, beq_iff_eq] at h2
  exact h2.2

/-- Running a pending timeout callback moves its target from the pending to
the executed reveals. -/
theorem scheduled_timeout (s s' : RevealState) (index : Nat)
    (hstep : revealStep s (.timeout index) = some s') (target : Nat) :
    s'.scheduled.count target = s.scheduled.count target ∧ s'.observed = s.observed := by
  simp only [revealStep] at hstep
  cases hdrop : s.timers.drop index with
  | nil => simp [hdrop] at hstep
  | cons timer later =>
    simp only [hdrop, Option.some.injEq] at hstep
    subst hstep
    have hsplit : s.timers = s.timers.take index ++ timer :: later := by
      rw [← hdrop, List.take_append_drop]
    refine ⟨?_, rfl⟩
    have hs : s.scheduled.count target =
        s.addCalls.count target + (((s.timers.take index).map RevealTimer.target).count target +
          ((timer :: later).map RevealTimer.target).count target) := by
      have hmap : s.timers.map RevealTimer.target =
          (s.timers.take index).map RevealTimer.target ++
            (timer :: later).map RevealTimer.target := by
        rw [← List.map_append, ← hsplit]
      simp only [RevealState.scheduled, List.count_append, hmap]
    rw [hs]
    simp only [revealTimeout, RevealState.scheduled, List.map_append, List.map_cons,
      List.count_append, List.count_cons, List.count_nil]
    omega

/-- The invariant of the scroll-reveal feature, for one target and the batches
delivered so far: an observed target has no executed or pending reveal and
no batch has reported it as intersecting; a target that no batch has
reported as intersecting has no reveal; and the reveals of a target are as
many as the intersecting entries for it in any batch that has such
entries. -/
theorem reveal_invariant (target : Nat) (events : List RevealEvent) :
    ∀ (s s' : RevealState) (batches : List (List IntersectionObserverEntry)),
      (target ∈ s.observed →
        s.scheduled.count target = 0 ∧ ∀ batch ∈ batches, intersectingCount batch target = 0) →
      ((∀ batch ∈ batches, intersectingCount batch target = 0) →
        s.scheduled.count target = 0) →
      (∀ batch ∈ batches, 0 < intersectingCount batch target →
        s.scheduled.count target = intersectingCount batch target) →
      revealRun s events = some s' →
      (target ∈ s'.observed → s'.scheduled.count target = 0) ∧
        ((∀ batch ∈ batches ++ deliveries events, intersectingCount batch target = 0) →
          s'.scheduled.count target = 0) ∧
        (∀ batch ∈ batches ++ deliveries events, 0 < intersectingCount batch target →
          s'.scheduled.count target = intersectingCount batch target) := by
  induction events with
  | nil =>
    intro s s' batches hobs hnone hsome hrun
    simp only [revealRun, Option.some.injEq] at hrun
    subst hrun
    simp only [deliveries, List.append_nil]
    exact ⟨fun h => (hobs h).1, hnone, hsome⟩
  | cons event rest ih =>
    intro s s' batches hobs hnone hsome hrun
    simp only [revealRun] at hrun
    cases hstep : revealStep s event with
    | none => simp [hstep] at hrun
    | some mid =>
      simp only [hstep] at hrun
      cases event with
      | notify entries =>
        simp only [revealStep] at hstep
        by_cases hd : deliverable s entries = true
        · simp only [hd, if_true, Option.some.injEq] at hstep
          subst hstep
          have hcount := scheduled_revealCallback entries target s
          have hobserved := observed_revealCallback entries target s
          have hresult := ih (revealCallback s entries) s' (batches ++ [entries]) ?_ ?_ ?_ hrun
          · simpa [deliveries, List.append_assoc] using hresult
          · -- an observed target
            intro h
            obtain ⟨hin, hzero⟩ := hobserved.mp h
            obtain ⟨hcount0, hbatches⟩ := hobs hin
            refine ⟨by rw [hcount, hcount0, hzero], ?_⟩
            intro batch hbatch
            rcases List.mem_append.mp hbatch with hb | hb
            · exact hbatches batch hb
            · rw [List.mem_singleton] at hb
              rw [hb]
              exact hzero
          · -- a target no batch has reported as intersecting
            intro hall
            have hzero := hall entries (by simp)
            have hold := hnone (fun batch hb => hall batch (List.mem_append_left _ hb))
            rw [hcount, hold, hzero]
          · -- a batch that reports the target as intersecting
            intro batch hbatch hposb
            by_cases hz : intersectingCount entries target = 0
            · rcases List.mem_append.mp hbatch with hb | hb
              · rw [hcount, hz, Nat.add_zero]
                exact hsome batch hb hposb
              · rw [List.mem_singleton] at hb
                rw [hb, hz] at hposb
                exact absurd hposb (lt_irrefl 0)
            · obtain ⟨entry, hmem, htarget⟩ :=
                intersectingCount_pos entries target (Nat.pos_of_ne_zero hz)
              have hin : target ∈ s.observed := by
                simp only [deliverable, List.all_eq_true] at hd
                have := hd entry hmem
                rw [htarget] at this
                simpa using this
              obtain ⟨hcount0, hbatches⟩ := hobs hin
              rcases List.mem_append.mp hbatch with hb | hb
              · have := hbatches batch hb
                omega
              · rw [List.mem_singleton] at hb
                rw [hb, hcount, hcount0, Nat.zero_add]
        · simp [hd] at hstep
      | timeout index =>
        obtain ⟨hcount, hobserved⟩ := scheduled_timeout s mid index hstep target
        have := ih mid s' batches (by rw [hobserved, hcount]; exact hobs)
          (by rw [hcount]; exact hnone) (by rw [hcount]; exact hsome) hrun
        simpa [deliveries] using this

theorem mem_deliveries (events : List RevealEvent) (batch : List IntersectionObserverEntry) :
    batch ∈ deliveries events ↔ RevealEvent.notify batch ∈ events := by
  induction events with
  | nil => simp [deliveries]
  | cons event rest ih =>
    cases event with
    | notify entries => simp [deliveries, ih]
    | timeout index => simp [deliveries, ih]
/-- Claim C6 fails when one delivery holds two intersecting entries for the
same element, as when the element enters the viewport, leaves it and enters
it again before the callback runs: the callback schedules a reveal for each
of the two entries, so `classList.add('is-visible')` is called twice for the
element and the counter of the metric card is started twice. -/
theorem reveal_added_twice :
    revealRun
        (RevealState.pageLoad [{ classList := ["scroll-reveal", "metric-card"], dataDelay := none }])
        [.notify [⟨0, true⟩, ⟨0, false⟩, ⟨0, true⟩], .timeout 0, .timeout 0]
      = some
        { elements :=
            [{ classList := ["scroll-reveal", "metric-card", "is-visible"], dataDelay := none }]
          observed := []
          timers := []
          addCalls := [0, 0]
          counterCalls := [0, 0] } ∧
      ¬ ∀ (elements : List RevealElement) (events : List RevealEvent) (s : RevealState),
        revealRun (RevealState.pageLoad elements) events = some s →
        ∀ target : Nat, s.addCalls.count target ≤ 1 := by
  constructor
  · decide
  · intro h
    have h2 := h [{ classList := ["scroll-reveal", "metric-card"], dataDelay := none }]
      [.notify [⟨0, true⟩, ⟨0, false⟩, ⟨0, true⟩], .timeout 0, .timeout 0]
      { elements :=
          [{ classList := ["scroll-reveal", "metric-card", "is-visible"], dataDelay := none }]
        observed := []
        timers := []
        addCalls := [0, 0]
        counterCalls := [0, 0] }
      (by decide) 0
    revert h2
    decide

/-- Claim C6, amended: for every page and every sequence of events the browser
can produce (batches of entries for observed targets and runs of pending
timeout callbacks), an element with an executed or pending reveal is no
longer observed; an element that no batch reports as intersecting has no
reveal; for every batch that reports the element as intersecting, the
reveals of the element, executed and pending, are as many as the entries
of that batch that report it as intersecting; so
`classList.add('is-visible')` is called at most once for an element that
no batch reports as intersecting twice. -/
theorem reveal_once_per_intersecting_entry (elements : List RevealElement)
    (events : List RevealEvent) (s : RevealState)
    (hrun : revealRun (RevealState.pageLoad elements) events = some s) (target : Nat) :
    ¬ (target ∈ s.observed ∧
        (target ∈ s.addCalls ∨ target ∈ s.timers.map RevealTimer.target)) ∧
      ((∀ batch, RevealEvent.notify batch ∈ events → intersectingCount batch target = 0) →
        s.addCalls.count target = 0 ∧ (s.timers.map RevealTimer.target).count target = 0) ∧
      (∀ batch, RevealEvent.notify batch ∈ events → 0 < intersectingCount batch target →
        s.addCalls.count target + (s.timers.map RevealTimer.target).count target
          = intersectingCount batch target) ∧
      ((∀ batch, RevealEvent.notify batch ∈ events → intersectingCount batch target ≤ 1) →
        s.addCalls.count target ≤ 1) := by
  have hinv := reveal_invariant target events (RevealState.pageLoad elements) s []
    (by intro _; simp [RevealState.pageLoad, RevealState.scheduled])
    (by intro _; simp [RevealState.pageLoad, RevealState.scheduled])
    (by intro batch hbatch; simp at hbatch)
    hrun
  obtain ⟨hobs, hnone, hsome⟩ := hinv
  simp only [RevealState.scheduled, List.count_append, List.nil_append, mem_deliveries]
    at hobs hnone hsome
  refine ⟨?_, ?_, hsome, ?_⟩
  · rintro ⟨hin, hmem⟩
    have hzero := hobs hin
    rcases hmem with h | h
    · have := List.count_pos_iff.mpr h
      omega
    · have := List.count_pos_iff.mpr h
      omega
  · intro hall
    have := hnone hall
    omega
  · intro hone
    by_cases hall : ∀ batch, RevealEvent.notify batch ∈ events →
        intersectingCount batch target = 0
    · have := hnone hall
      omega
    · push_neg at hall
      obtain ⟨batch, hmem, hne⟩ := hall
      have h1 := hsome batch hmem (Nat.pos_of_ne_zero hne)
      have h2 := hone batch hmem
      omega

/-- Claim C6, amended, on a page with two elements: the first batch reports
the second element intersecting twice, the next batch the first element
once, then the three timeouts run; the second element is revealed twice. -/
theorem reveal_once_per_intersecting_entry_witness :
    revealRun
        (RevealState.pageLoad
          [{ classList := ["scroll-reveal"], dataDelay := none },
           { classList := ["scroll-reveal", "metric-card"], dataDelay := some 100 }])
        [.notify [⟨0, false⟩, ⟨1, true⟩, ⟨1, false⟩, ⟨1, true⟩], .notify [⟨0, true⟩],
          .timeout 2, .timeout 0, .timeout 0]
      = some
        { elements :=
            [{ classList := ["scroll-reveal", "is-visible"], dataDelay := none },
             { classList := ["scroll-reveal", "metric-card", "is-visible"],
               dataDelay := some 100 }]
          observed := []
          timers := []
          addCalls := [0, 1, 1]
          counterCalls := [1, 1] } ∧
      ([0, 1, 1] : List Nat).count 1 + (([] : List RevealTimer).map RevealTimer.target).count 1
        = intersectingCount [⟨0, false⟩, ⟨1, true⟩, ⟨1, false⟩, ⟨1, true⟩] 1 :=
  ⟨by decide,
    (reveal_once_per_intersecting_entry
      [{ classList := ["scroll-reveal"], dataDelay := none },
       { classList := ["scroll-reveal", "metric-card"], dataDelay := some 100 }]
      [.notify [⟨0, false⟩, ⟨1, true⟩, ⟨1, false⟩, ⟨1, true⟩], .notify [⟨0, true⟩],
        .timeout 2, .timeout 0, .timeout 0]
      { elements :=
          [{ classList := ["scroll-reveal", "is-visible"], dataDelay := none },
           { classList := ["scroll-reveal", "metric-card", "is-visible"],
             dataDelay := some 100 }]
        observed := []
        timers := []
        addCalls := [0, 1, 1]
        counterCalls := [1, 1] }
      (by decide) 1).2.2.1 [⟨0, false⟩, ⟨1, true⟩, ⟨1, false⟩, ⟨1, true⟩] (by decide)
      (by decide)⟩

/-! ## Double arithmetic -/

theorem roundHalfEven_sub_le (q : ℚ) : |(roundHalfEven q : ℚ) - q| ≤ 1 / 2 := by
  have h1 := Int.floor_le q
  have h2 := Int.lt_floor_add_one q
  unfold roundHalfEven
  simp only
  split_ifs with ha hb hc
  · rw [abs_le]; constructor <;> linarith
  · rw [abs_le]; push_cast; constructor <;> linarith
  · rw [abs_le]; constructor <;> linarith
  · rw [abs_le]; push_cast; constructor <;> linarith

theorem roundHalfEven_intCast (z : ℤ) : roundHalfEven (z : ℚ) = z := by
  unfold roundHalfEven
  simp

theorem ulp_pos (x : ℚ) : 0 < ulp x := by
  unfold ulp
  positivity

/-- Rounding moves a number by at most half the spacing. -/
theorem roundDouble_sub_le (x : ℚ) : |roundDouble x - x| ≤ ulp x / 2 := by
  have hpos := ulp_pos x
  have h := roundHalfEven_sub_le (x / ulp x)
  have heq : roundDouble x - x = ((roundHalfEven (x / ulp x) : ℚ) - x / ulp x) * ulp x := by
    unfold roundDouble
    field_simp
  rw [heq, abs_mul, abs_of_pos hpos]
  calc |(roundHalfEven (x / ulp x) : ℚ) - x / ulp x| * ulp x ≤ 1 / 2 * ulp x :=
        mul_le_mul_of_nonneg_right h hpos.le
    _ = ulp x / 2 := by ring

theorem log_bounds (x : ℚ) (hx : 0 < x) :
    (2 : ℚ) ^ Int.log 2 x ≤ x ∧ x < (2 : ℚ) ^ (Int.log 2 x + 1) := by
  have h1 : ((2 : ℕ) : ℚ) ^ Int.log 2 x ≤ x := Int.zpow_log_le_self (by norm_num) hx
  have h2 : x < ((2 : ℕ) : ℚ) ^ (Int.log 2 x + 1) := Int.lt_zpow_succ_log_self (by norm_num) x
  exact ⟨by exact_mod_cast h1, by exact_mod_cast h2⟩

/-- The exponent of a number between `2 ^ e` and `2 ^ (e + 1)`. -/
theorem log_eq_of_bounds (x : ℚ) (e : ℤ) (hlo : (2 : ℚ) ^ e ≤ x) (hhi : x < 2 ^ (e + 1)) :
    Int.log 2 x = e := by
  have hpos : 0 < x := lt_of_lt_of_le (by positivity) hlo
  have h1 : e ≤ Int.log 2 x :=
    (Int.zpow_le_iff_le_log (by norm_num) hpos).mp (by exact_mod_cast hlo)
  have h2 : Int.log 2 x < e + 1 :=
    (Int.lt_zpow_iff_log_lt (by norm_num) hpos).mp (by exact_mod_cast hhi)
  omega

theorem ulp_eq (x : ℚ) (e : ℤ) (he : -1022 ≤ e) (hlo : (2 : ℚ) ^ e ≤ |x|)
    (hhi : |x| < 2 ^ (e + 1)) : ulp x = 2 ^ (e - 52) := by
  unfold ulp
  rw [log_eq_of_bounds |x| e hlo hhi, max_eq_left he]

/-- Above the subnormal range the spacing is at most `2 ^ (-52)` times the number. -/
theorem ulp_le (x : ℚ) (hx : (2 : ℚ) ^ (-1022 : ℤ) ≤ |x|) : ulp x ≤ |x| / 2 ^ 52 := by
  have hpos : 0 < |x| := lt_of_lt_of_le (by positivity) hx
  have hlog : (-1022 : ℤ) ≤ Int.log 2 |x| :=
    (Int.zpow_le_iff_le_log (by norm_num) hpos).mp (by exact_mod_cast hx)
  have hle := (log_bounds |x| hpos).1
  unfold ulp
  rw [max_eq_left hlog, zpow_sub₀ (by norm_num : (2 : ℚ) ≠ 0)]
  have : (2 : ℚ) ^ (52 : ℤ) = 2 ^ 52 := by norm_cast
  rw [this]
  exact div_le_div_of_nonneg_right hle (by positivity)

/-- The relative error of rounding above the subnormal range. -/
theorem roundDouble_error (x : ℚ) (hx : (2 : ℚ) ^ (-1022 : ℤ) ≤ |x|) :
    |roundDouble x - x| ≤ |x| / 2 ^ 53 := by
  have h1 := roundDouble_sub_le x
  have h2 := ulp_le x hx
  calc |roundDouble x - x| ≤ ulp x / 2 := h1
    _ ≤ |x| / 2 ^ 52 / 2 := by linarith
    _ = |x| / 2 ^ 53 := by ring

/-- A multiple of the spacing is a double. -/
theorem roundDouble_eq_self (x : ℚ) (z : ℤ) (h : x / ulp x = z) : roundDouble x = x := by
  unfold roundDouble
  rw [h, roundHalfEven_intCast]
  have hpos := ulp_pos x
  rw [← h]
  field_simp

/-- Evaluation of `roundDouble` from the exponent and the rounded quotient. -/
theorem roundDouble_eval (x : ℚ) (e : ℤ) (m : ℤ) (he : -1022 ≤ e) (hlo : (2 : ℚ) ^ e ≤ |x|)
    (hhi : |x| < 2 ^ (e + 1)) (hm : roundHalfEven (x / 2 ^ (e - 52)) = m) :
    roundDouble x = m * 2 ^ (e - 52) := by
  unfold roundDouble
  rw [ulp_eq x e he hlo hhi, hm]

theorem roundDouble_zero : roundDouble 0 = 0 := by
  unfold roundDouble
  simp [roundHalfEven]

/-- The exponent of a non-zero integer is not negative. -/
theorem log_intCast_nonneg (n : ℤ) (hn : n ≠ 0) : 0 ≤ Int.log 2 |(n : ℚ)| := by
  have h1 : (1 : ℚ) ≤ |(n : ℚ)| := by
    have : (1 : ℤ) ≤ |n| := Int.one_le_abs hn
    exact_mod_cast this
  have hpos : (0 : ℚ) < |(n : ℚ)| := by linarith
  exact (Int.zpow_le_iff_le_log (by norm_num) hpos).mp (by simpa using h1)

/-- An integer of magnitude below `2 ^ 53` is a double. -/
theorem roundDouble_intCast (n : ℤ) (hn : |n| < 2 ^ 53) : roundDouble (n : ℚ) = n := by
  by_cases h0 : n = 0
  · subst h0; simpa using roundDouble_zero
  · have hpos : (0 : ℚ) < |(n : ℚ)| := by
      have : (1 : ℤ) ≤ |n| := Int.one_le_abs h0
      have : (1 : ℚ) ≤ |(n : ℚ)| := by exact_mod_cast this
      linarith
    have hlog := log_intCast_nonneg n h0
    have hlt : Int.log 2 |(n : ℚ)| < 53 := by
      apply (Int.lt_zpow_iff_log_lt (by norm_num) hpos).mp
      have h53 : ((2 : ℕ) : ℚ) ^ (53 : ℤ) = 2 ^ 53 := by norm_num
      rw [h53]
      exact_mod_cast hn
    obtain ⟨k, hk⟩ : ∃ k : ℕ, Int.log 2 |(n : ℚ)| - 52 = -(k : ℤ) :=
      ⟨(52 - Int.log 2 |(n : ℚ)|).toNat, by omega⟩
    apply roundDouble_eq_self (n : ℚ) (n * 2 ^ k)
    unfold ulp
    rw [max_eq_left (by omega), hk, zpow_neg, zpow_natCast]
    push_cast
    field_simp

theorem roundDouble_pow53 : roundDouble 9007199254740992 = 9007199254740992 := by
  rw [roundDouble_eval 9007199254740992 53 (2 ^ 52) (by norm_num) (by norm_num) (by norm_num) ?_]
  · norm_num
  · have : (9007199254740992 : ℚ) / 2 ^ ((53 : ℤ) - 52) = ((2 ^ 52 : ℤ) : ℚ) := by norm_num
    rw [this, roundHalfEven_intCast]

theorem roundDouble_neg_pow53 : roundDouble (-9007199254740992) = -9007199254740992 := by
  rw [roundDouble_eval (-9007199254740992) 53 (-2 ^ 52) (by norm_num) (by norm_num)
    (by norm_num) ?_]
  · norm_num
  · have : (-9007199254740992 : ℚ) / 2 ^ ((53 : ℤ) - 52) = ((-2 ^ 52 : ℤ) : ℚ) := by norm_num
    rw [this, roundHalfEven_intCast]

/-- An integer of magnitude at most `2 ^ 53` is a double. -/
theorem roundDouble_intCast_le (n : ℤ) (hn : |n| ≤ 2 ^ 53) : roundDouble (n : ℚ) = n := by
  rcases lt_or_eq_of_le hn with hlt | heq
  · exact roundDouble_intCast n hlt
  · rcases abs_eq (by norm_num : (0 : ℤ) ≤ 2 ^ 53) |>.mp heq with h | h
    · subst h
      simpa using roundDouble_pow53
    · subst h
      simpa using roundDouble_neg_pow53

/-- The double nearest to `2 ^ 53 + 1` is `2 ^ 53`: the tie goes to the even significand. -/
theorem roundDouble_pow53_succ : roundDouble 9007199254740993 = 9007199254740992 := by
  rw [roundDouble_eval 9007199254740993 53 (2 ^ 52) (by norm_num) (by norm_num) (by norm_num) ?_]
  · norm_num
  · unfold roundHalfEven
    have hq : (9007199254740993 : ℚ) / 2 ^ ((53 : ℤ) - 52) = (2 ^ 52 : ℤ) + 1 / 2 := by norm_num
    have hfloor : ⌊((2 ^ 52 : ℤ) : ℚ) + 1 / 2⌋ = 2 ^ 52 := by
      rw [Int.floor_eq_iff]
      constructor <;> norm_num
    rw [hq]
    simp only [hfloor]
    norm_num

theorem parseInt_of_le (n : ℤ) (hn : |n| ≤ 2 ^ 53) : parseInt n = n := by
  unfold parseInt
  rw [roundDouble_intCast_le n hn, Int.floor_intCast]

theorem parseInt_pow53_succ : parseInt 9007199254740993 = 9007199254740992 := by
  unfold parseInt
  have h : ((9007199254740993 : ℤ) : ℚ) = 9007199254740993 := by norm_num
  rw [h, roundDouble_pow53_succ]
  have h2 : (9007199254740992 : ℚ) = ((9007199254740992 : ℤ) : ℚ) := by norm_num
  rw [h2, Int.floor_intCast]

/-- The double nearest to an integer is an integer: `parseInt` loses nothing
by its floor. -/
theorem parseInt_cast (n : ℤ) : ((parseInt n : ℤ) : ℚ) = roundDouble n := by
  unfold parseInt
  by_cases hlt : |n| < 2 ^ 53
  · rw [roundDouble_intCast n hlt, Int.floor_intCast]
  · have h0 : n ≠ 0 := by
      rintro rfl
      simp at hlt
    have hpos : (0 : ℚ) < |(n : ℚ)| := by
      have : (1 : ℤ) ≤ |n| := Int.one_le_abs h0
      have : (1 : ℚ) ≤ |(n : ℚ)| := by exact_mod_cast this
      linarith
    have hlog : 53 ≤ Int.log 2 |(n : ℚ)| := by
      apply (Int.zpow_le_iff_le_log (by norm_num) hpos).mp
      have h53 : ((2 : ℕ) : ℚ) ^ (53 : ℤ) = 2 ^ 53 := by norm_num
      rw [h53]
      have : (2 : ℤ) ^ 53 ≤ |n| := not_lt.mp hlt
      exact_mod_cast this
    obtain ⟨k, hk⟩ : ∃ k : ℕ, Int.log 2 |(n : ℚ)| - 52 = (k : ℤ) :=
      ⟨(Int.log 2 |(n : ℚ)| - 52).toNat, by omega⟩
    have hr : roundDouble (n : ℚ) =
        ((roundHalfEven ((n : ℚ) / ulp n) * 2 ^ k : ℤ) : ℚ) := by
      unfold roundDouble
      have hu : ulp (n : ℚ) = 2 ^ k := by
        unfold ulp
        rw [max_eq_left (by omega), hk, zpow_natCast]
      rw [hu]
      push_cast
      ring
    rw [hr, Int.floor_intCast]

theorem small_le_normal : (2 : ℚ) ^ (-1022 : ℤ) ≤ 1 / 128 := by
  have h : (2 : ℚ) ^ (-1022 : ℤ) ≤ 2 ^ (-7 : ℤ) :=
    zpow_le_zpow_right₀ (by norm_num) (by norm_num)
  have h7 : (2 : ℚ) ^ (-7 : ℤ) = 1 / 128 := by norm_num
  linarith

/-- Rounding a number of at least `1 / 128` changes it by at most its `2 ^ 53`-th part. -/
theorem roundDouble_near (x : ℚ) (hx : 1 / 128 ≤ x) :
    x - x / 2 ^ 53 ≤ roundDouble x ∧ roundDouble x ≤ x + x / 2 ^ 53 := by
  have hpos : 0 < x := by linarith
  have h := roundDouble_error x (by rw [abs_of_pos hpos]; exact le_trans small_le_normal hx)
  rw [abs_of_pos hpos, abs_le] at h
  constructor <;> linarith

theorem roundHalfEven_nonneg (q : ℚ) (hq : 0 ≤ q) : 0 ≤ roundHalfEven q := by
  have h := Int.floor_nonneg.mpr hq
  unfold roundHalfEven
  simp only
  split_ifs <;> omega

theorem roundDouble_nonneg (x : ℚ) (hx : 0 ≤ x) : 0 ≤ roundDouble x := by
  unfold roundDouble
  have h1 : (0 : ℚ) ≤ roundHalfEven (x / ulp x) := by
    exact_mod_cast roundHalfEven_nonneg _ (div_nonneg hx (ulp_pos x).le)
  exact mul_nonneg h1 (ulp_pos x).le

/-! ## Counter animation -/

theorem increment_eq (target : ℤ) : (target : ℚ) / (duration / 16) = target / 125 := by
  unfold duration; norm_num

theorem updateCounter_succ (target : ℤ) (increment : ℚ) (frames : Nat) (current : ℚ) :
    updateCounter target increment (frames + 1) current =
      if current + increment < target then
        (updateCounter target increment frames (current + increment)).map
          (fun shown => CounterText.running ⌊current + increment⌋ :: shown)
      else some [CounterText.final target] := rfl

/-- Fewer than `125` increments of `target / 125` stay below a positive target. -/
theorem below_target (target : ℤ) (htarget : 0 < target) (k : Nat) (hk : k + 1 < 125) :
    (k : ℚ) * ((target : ℚ) / 125) + target / 125 < target := by
  have hpos : (0 : ℚ) < target := by exact_mod_cast htarget
  have hk1 : ((k : ℚ) + 1) < 125 := by exact_mod_cast hk
  have hsum : (k : ℚ) * ((target : ℚ) / 125) + target / 125
      = ((k : ℚ) + 1) / 125 * target := by ring
  rw [hsum]
  have h1 : ((k : ℚ) + 1) / 125 < 1 := by
    rw [div_lt_one (by norm_num)]; exact hk1
  calc ((k : ℚ) + 1) / 125 * target < 1 * target :=
        mul_lt_mul_of_pos_right h1 hpos
    _ = target := one_mul _

/-- From the `k`-th update on, a positive target needs `125 - k` more updates. -/
theorem updateCounter_positive (target : ℤ) (htarget : 0 < target) (extra : Nat) :
    ∀ m k : Nat, k + m = 124 →
      updateCounter target (target / 125) (extra + (m + 1)) (k * (target / 125)) =
        some ((List.range' (k + 1) m).map
          (fun j => CounterText.running ⌊(j : ℚ) * target / 125⌋) ++
          [CounterText.final target]) := by
  intro m
  induction m with
  | zero =>
    intro k hk
    have hk' : k = 124 := by omega
    subst hk'
    rw [show extra + (0 + 1) = extra + 1 from rfl, updateCounter_succ]
    have : ¬ (((124 : ℕ) : ℚ) * ((target : ℚ) / 125) + target / 125 < target) := by
      have : ((124 : ℕ) : ℚ) * ((target : ℚ) / 125) + target / 125 = target := by
        push_cast; ring
      rw [this]
      exact lt_irrefl _
    rw [if_neg this]
    rfl
  | succ m ih =>
    intro k hk
    rw [show extra + (m + 1 + 1) = (extra + (m + 1)) + 1 from rfl, updateCounter_succ]
    have hcur : (k : ℚ) * ((target : ℚ) / 125) + target / 125
        = ((k + 1 : ℕ) : ℚ) * (target / 125) := by
      push_cast; ring
    have hlt := below_target target htarget k (by omega)
    rw [if_pos hlt, hcur, ih (k + 1) (by omega)]
    simp only [Option.map_some', List.range'_succ, List.map_cons, List.cons_append]
    congr 3
    push_cast
    ring_nf

theorem updateCounter_too_few (target : ℤ) (htarget : 0 < target) :
    ∀ m k : Nat, k + m ≤ 124 →
      updateCounter target (target / 125) m (k * (target / 125)) = none := by
  intro m
  induction m with
  | zero => intro k _; rfl
  | succ m ih =>
    intro k hk
    rw [updateCounter_succ]
    have hcur : (k : ℚ) * ((target : ℚ) / 125) + target / 125
        = ((k + 1 : ℕ) : ℚ) * (target / 125) := by
      push_cast; ring
    have hlt := below_target target htarget k (by omega)
    rw [if_pos hlt, hcur, ih (k + 1) (by omega)]
    rfl

theorem updateCounter_nonpositive (target : ℤ) (htarget : target ≤ 0) (extra : Nat) :
    updateCounter target (target / 125) (extra + 1) 0 = some [CounterText.final target] := by
  rw [updateCounter_succ]
  have hle : (target : ℚ) ≤ 0 := by exact_mod_cast htarget
  have : ¬ ((0 : ℚ) + (target : ℚ) / 125 < target) := by
    rw [not_lt, zero_add]
    linarith
  rw [if_neg this]

/-- Claim C8: the increment is `target / 125`; with exact arithmetic, for a
positive target the `k`-th update displays `floor (k * target / 125)` for
`k = 1..124`, the 125th update ends the loop with the target and the `+`
suffix, and 124 updates do not end it; for a target of zero or below the
first update ends the loop.  So 125 updates end the loop for every target. -/
theorem metric_counter_steps (target : ℤ) (extra : Nat) :
    (target : ℚ) / (duration / 16) = target / 125 ∧
      (0 < target →
        animateMetricCounter (125 + extra) (some target) =
            some ((List.range' 1 124).map
              (fun k => CounterText.running ⌊(k : ℚ) * target / 125⌋) ++
              [CounterText.final target]) ∧
          animateMetricCounter 124 (some target) = none) ∧
      (target ≤ 0 →
        animateMetricCounter (1 + extra) (some target) = some [CounterText.final target]) := by
  refine ⟨increment_eq target, ?_, ?_⟩
  · intro htarget
    constructor
    · have h := updateCounter_positive target htarget extra 124 0 (by omega)
      simp only [animateMetricCounter, increment_eq]
      rw [show 125 + extra = extra + (124 + 1) by omega]
      simpa using h
    · have h := updateCounter_too_few target htarget 124 0 (by omega)
      simp only [animateMetricCounter, increment_eq]
      simpa using h
  · intro htarget
    simp only [animateMetricCounter, increment_eq]
    rw [show 1 + extra = extra + 1 by omega]
    exact updateCounter_nonpositive target htarget extra

/-- Claim C8 at the targets `250` and `-4`. -/
theorem metric_counter_steps_witness :
    animateMetricCounter 125 (some 250) =
        some ((List.range' 1 124).map
          (fun k => CounterText.running ⌊(k : ℚ) * (250 : ℤ) / 125⌋) ++
          [CounterText.final 250]) ∧
      animateMetricCounter 124 (some 250) = none ∧
      animateMetricCounter 1 (some (-4)) = some [CounterText.final (-4)] :=
  ⟨((metric_counter_steps 250 0).2.1 (by decide)).1,
    ((metric_counter_steps 250 0).2.1 (by decide)).2,
    (metric_counter_steps (-4) 0).2.2 (by decide)⟩

/-! ## Counter animation in double arithmetic -/

theorem updateCounterDouble_succ (target : ℤ) (increment : ℚ) (frames : Nat) (current : ℚ) :
    updateCounterDouble target increment (frames + 1) current =
      if roundDouble (current + increment) < target then
        (updateCounterDouble target increment frames (roundDouble (current + increment))).map
          (fun shown => CounterText.running ⌊roundDouble (current + increment)⌋ :: shown)
      else some [CounterText.final target] := rfl

/-- The quotient `duration / 16` is the double `125`. -/
theorem roundDouble_frames : roundDouble (duration / 16) = 125 := by
  have h : duration / 16 = ((125 : ℤ) : ℚ) := by unfold duration; norm_num
  rw [h, roundDouble_intCast 125 (by norm_num)]
  norm_num

/-- The increment of a positive target. -/
theorem increment_near (target : ℤ) (htarget : 0 < target) :
    (target : ℚ) / 125 - target / 125 / 2 ^ 53 ≤ roundDouble ((target : ℚ) / 125) ∧
      roundDouble ((target : ℚ) / 125) ≤ (target : ℚ) / 125 + target / 125 / 2 ^ 53 := by
  have h1 : (1 : ℚ) ≤ target := by exact_mod_cast htarget
  apply roundDouble_near
  linarith

/-- Below a positive target each update raises `current` by at least `target / 126`. -/
theorem update_raises (target : ℤ) (htarget : 0 < target) (current : ℚ) (h0 : 0 ≤ current)
    (hlt : current < target) :
    current + target / 126 ≤ roundDouble (current + roundDouble ((target : ℚ) / 125)) := by
  have h1 : (1 : ℚ) ≤ target := by exact_mod_cast htarget
  obtain ⟨hlo, hhi⟩ := increment_near target htarget
  have hx : 1 / 128 ≤ current + roundDouble ((target : ℚ) / 125) := by
    have : (target : ℚ) / 125 / 2 ^ 53 ≤ target / 125 / 2 := by
      apply div_le_div_of_nonneg_left <;> norm_num
      positivity
    linarith
  obtain ⟨hr, _⟩ := roundDouble_near _ hx
  have e1 : (target : ℚ) / 125 / 2 ^ 53 = target * (1 / (125 * 2 ^ 53)) := by ring
  have e2 : (current + roundDouble ((target : ℚ) / 125)) / 2 ^ 53
      = current * (1 / 2 ^ 53) + roundDouble ((target : ℚ) / 125) * (1 / 2 ^ 53) := by ring
  rw [e2] at hr
  rw [e1] at hlo hhi
  have hc : current * (1 / 2 ^ 53) ≤ target * (1 / 2 ^ 53) :=
    mul_le_mul_of_nonneg_right hlt.le (by positivity)
  have hi : roundDouble ((target : ℚ) / 125) * (1 / 2 ^ 53)
      ≤ ((target : ℚ) / 125 + target * (1 / (125 * 2 ^ 53))) * (1 / 2 ^ 53) :=
    mul_le_mul_of_nonneg_right hhi (by positivity)
  have hnum : (target : ℚ) / 126 ≤ target / 125 - target * (1 / (125 * 2 ^ 53))
      - target * (1 / 2 ^ 53)
      - ((target : ℚ) / 125 + target * (1 / (125 * 2 ^ 53))) * (1 / 2 ^ 53) := by
    have : (0 : ℚ) ≤ target * (1 / 125 - 1 / (125 * 2 ^ 53) - 1 / 2 ^ 53
        - (1 / 125 + 1 / (125 * 2 ^ 53)) * (1 / 2 ^ 53) - 1 / 126) :=
      mul_nonneg (by linarith) (by norm_num)
    linarith
  linarith

/-- A run from a `current` of at least `k * target / 126` below a positive
target ends within `126 - k` updates; its displays are in order, none is
below `floor current`, and the last is the target. -/
theorem updateCounterDouble_positive (target : ℤ) (htarget : 0 < target) (extra : Nat) :
    ∀ (m k : Nat) (current : ℚ), k + m = 126 → (k : ℚ) * target / 126 ≤ current →
      0 ≤ current → current < target →
      ∃ shown : List CounterText,
        updateCounterDouble target (roundDouble ((target : ℚ) / 125)) (extra + m) current
            = some shown ∧
          (shown.map CounterText.value).Sorted (· ≤ ·) ∧
          (∀ v ∈ shown.map CounterText.value, ⌊current⌋ ≤ v) ∧
          shown.getLast? = some (CounterText.final target) := by
  intro m
  induction m with
  | zero =>
    intro k current hk hlow _ hlt
    have hk' : k = 126 := by omega
    subst hk'
    have : (target : ℚ) ≤ current := by
      have e : ((126 : ℕ) : ℚ) * target / 126 = target := by push_cast; ring
      linarith
    linarith
  | succ m ih =>
    intro k current hk hlow h0 hlt
    have hup := update_raises target htarget current h0 hlt
    have htpos : (0 : ℚ) < target := by exact_mod_cast htarget
    have hfloor : ⌊current⌋ ≤ ⌊roundDouble (current + roundDouble ((target : ℚ) / 125))⌋ :=
      Int.floor_mono (by have : (0 : ℚ) ≤ target / 126 := by positivity
                         linarith)
    rw [show extra + (m + 1) = (extra + m) + 1 from rfl, updateCounterDouble_succ]
    by_cases hnext : roundDouble (current + roundDouble ((target : ℚ) / 125)) < target
    · rw [if_pos hnext]
      have hlow' : ((k + 1 : ℕ) : ℚ) * target / 126
          ≤ roundDouble (current + roundDouble ((target : ℚ) / 125)) := by
        push_cast
        have e : ((k : ℚ) + 1) * target / 126 = (k : ℚ) * target / 126 + target / 126 := by ring
        linarith
      have h0' : 0 ≤ roundDouble (current + roundDouble ((target : ℚ) / 125)) := by
        have : (0 : ℚ) ≤ target / 126 := by positivity
        linarith
      obtain ⟨rest, hrest, hsorted, hbound, hlast⟩ :=
        ih (k + 1) _ (by omega) hlow' h0' hnext
      refine ⟨CounterText.running ⌊roundDouble (current + roundDouble ((target : ℚ) / 125))⌋
        :: rest, ?_, ?_, ?_, ?_⟩
      · rw [hrest]; rfl
      · simp only [List.map_cons, List.sorted_cons, CounterText.value]
        exact ⟨hbound, hsorted⟩
      · intro v hv
        simp only [List.map_cons, List.mem_cons, CounterText.value] at hv
        rcases hv with h1 | h1
        · omega
        · have := hbound v h1
          omega
      · cases rest with
        | nil => simp at hlast
        | cons r rs => simpa [List.getLast?_cons_cons] using hlast
    · rw [if_neg hnext]
      refine ⟨[CounterText.final target], rfl, by simp [CounterText.value], ?_, rfl⟩
      intro v hv
      simp only [List.map_cons, List.map_nil, List.mem_singleton, CounterText.value] at hv
      have : ⌊current⌋ < target := by
        rw [Int.floor_lt]; exact hlt
      omega

/-- For a target of zero or below the first update ends the loop. -/
theorem updateCounterDouble_nonpositive (target : ℤ) (htarget : target ≤ 0) (extra : Nat) :
    updateCounterDouble target (roundDouble ((target : ℚ) / 125)) (extra + 1) 0
      = some [CounterText.final target] := by
  rw [updateCounterDouble_succ]
  have hnot : ¬ (roundDouble (0 + roundDouble ((target : ℚ) / 125)) < target) := by
    rw [not_lt, zero_add]
    rcases eq_or_lt_of_le htarget with h0 | hneg
    · subst h0
      simp [roundDouble_zero]
    · have h1 : (target : ℚ) ≤ -1 := by
        have : target ≤ -1 := by omega
        exact_mod_cast this
      have hx : (2 : ℚ) ^ (-1022 : ℤ) ≤ |(target : ℚ) / 125| := by
        rw [abs_of_neg (by linarith)]
        exact le_trans small_le_normal (by linarith)
      have he := roundDouble_error _ hx
      rw [abs_of_neg (by linarith : (target : ℚ) / 125 < 0), abs_le] at he
      have hinc : roundDouble ((target : ℚ) / 125) ≤ -1 / 128 := by
        have : -((target : ℚ) / 125) / 2 ^ 53 ≤ -((target : ℚ) / 125) / 2 := by
          apply div_le_div_of_nonneg_left <;> norm_num
          linarith
        linarith
      have hx2 : (2 : ℚ) ^ (-1022 : ℤ) ≤ |roundDouble ((target : ℚ) / 125)| := by
        rw [abs_of_neg (by linarith)]
        exact le_trans small_le_normal (by linarith)
      have he2 := roundDouble_error _ hx2
      rw [abs_of_neg (by linarith : roundDouble ((target : ℚ) / 125) < 0), abs_le] at he2
      have e1 : -((target : ℚ) / 125) / 2 ^ 53 = -(target : ℚ) * (1 / (125 * 2 ^ 53)) := by ring
      have e2 : -roundDouble ((target : ℚ) / 125) / 2 ^ 53
          = -roundDouble ((target : ℚ) / 125) * (1 / 2 ^ 53) := by ring
      rw [e1] at he
      rw [e2] at he2
      have hi : -roundDouble ((target : ℚ) / 125) * (1 / 2 ^ 53)
          ≤ (-((target : ℚ) / 125) + -(target : ℚ) * (1 / (125 * 2 ^ 53))) * (1 / 2 ^ 53) := by
        apply mul_le_mul_of_nonneg_right _ (by positivity)
        linarith
      have hnum : (0 : ℚ) ≤ -(target : ℚ) * (1 - 1 / 125 - 1 / (125 * 2 ^ 53)
          - (1 / 125 + 1 / (125 * 2 ^ 53)) * (1 / 2 ^ 53)) :=
        mul_nonneg (by linarith) (by norm_num)
      linarith
  rw [if_neg hnot]

/-- A run of `animateMetricCounterDouble` on the parsed target `target`: it ends
within 126 updates, its displays are in order and the last is the target. -/
theorem updateCounterDouble_run (target : ℤ) (extra : Nat) :
    ∃ shown : List CounterText,
      updateCounterDouble target (roundDouble ((target : ℚ) / roundDouble (duration / 16)))
          (126 + extra) 0 = some shown ∧
        (shown.map CounterText.value).Sorted (· ≤ ·) ∧
        shown.getLast? = some (CounterText.final target) := by
  rw [roundDouble_frames]
  by_cases htarget : 0 < target
  · obtain ⟨shown, hrun, hsorted, _, hlast⟩ :=
      updateCounterDouble_positive target htarget extra 126 0 0 (by omega) (by simp)
        (le_refl _) (by exact_mod_cast htarget)
    refine ⟨shown, ?_, hsorted, hlast⟩
    rw [show 126 + extra = extra + 126 by omega]
    exact hrun
  · have hle : target ≤ 0 := by omega
    refine ⟨[CounterText.final target], ?_, by simp [CounterText.value], rfl⟩
    rw [show 126 + extra = (125 + extra) + 1 by omega]
    exact updateCounterDouble_nonpositive target hle (125 + extra)
/-- Claim C7 fails at the data-target `9007199254740993`, which is
`2 ^ 53 + 1`: `parseInt` returns the nearest double `9007199254740992`, and
the last display is `9007199254740992+`, not the written target followed by
`+`. -/
theorem metric_counter_large_target :
    parseInt 9007199254740993 = 9007199254740992 ∧
      (∃ shown : List CounterText,
        animateMetricCounterDouble 126 (some 9007199254740993) = some shown ∧
          shown.getLast? = some (CounterText.final 9007199254740992) ∧
          shown.getLast?.map CounterText.text = some "9007199254740992+") ∧
      ¬ ∀ (dataTarget : ℤ) (frames : Nat) (shown : List CounterText),
        animateMetricCounterDouble frames (some dataTarget) = some shown →
        shown.getLast?.map CounterText.text = some (toString dataTarget ++ "+") := by
  obtain ⟨shown, hrun, _, hlast⟩ := updateCounterDouble_run 9007199254740992 0
  have hrun2 : animateMetricCounterDouble 126 (some 9007199254740993) = some shown := by
    simp only [animateMetricCounterDouble, parseInt_pow53_succ]
    exact hrun
  have htext : shown.getLast?.map CounterText.text = some "9007199254740992+" := by
    rw [hlast]
    rfl
  refine ⟨parseInt_pow53_succ, ⟨shown, hrun2, hlast, htext⟩, ?_⟩
  intro h
  have h2 := h 9007199254740993 126 shown hrun2
  rw [htext] at h2
  revert h2
  decide

/-- Claim C7, amended: in double arithmetic, for every integer data-target of
magnitude at most `2 ^ 53` the run of `animateMetricCounter` ends within 126
updates, the displayed values are in non-decreasing order, and the last
display is the target followed by `+`. -/
theorem metric_counter_double (target : ℤ) (htarget : |target| ≤ 2 ^ 53) (extra : Nat) :
    ∃ shown : List CounterText,
      animateMetricCounterDouble (126 + extra) (some target) = some shown ∧
        (shown.map CounterText.value).Sorted (· ≤ ·) ∧
        shown.getLast? = some (CounterText.final target) ∧
        shown.getLast?.map CounterText.text = some (toString target ++ "+") := by
  obtain ⟨shown, hrun, hsorted, hlast⟩ := updateCounterDouble_run target extra
  refine ⟨shown, ?_, hsorted, hlast, ?_⟩
  · simp only [animateMetricCounterDouble, parseInt_of_le target htarget]
    exact hrun
  · rw [hlast]
    rfl

/-- Claim C7, amended, at the data-target `50`. -/
theorem metric_counter_double_witness :
    |(50 : ℤ)| ≤ 2 ^ 53 ∧
      ∃ shown : List CounterText,
        animateMetricCounterDouble (126 + 0) (some 50) = some shown ∧
          (shown.map CounterText.value).Sorted (· ≤ ·) ∧
          shown.getLast? = some (CounterText.final 50) ∧
          shown.getLast?.map CounterText.text = some (toString (50 : ℤ) ++ "+") :=
  ⟨by decide, metric_counter_double 50 (by decide) 0⟩

/-! ## Info modal -/

/-- Claim C9: for every name that is a key of the project table, `openModal`
sets the modal title to the stored title of that entry and the modal body to
its stored content. -/
theorem openModal_known (projectName : String) (entry : ProjectEntry) (s : ModalState)
    (hkey : ownProperty projectInfo projectName = some entry) :
    (openModal projectName s).modalTitle = entry.title ∧
      (openModal projectName s).modalBody = entry.content := by
  simp [openModal, modalInfo, projectInfoGet, hkey, textContentOf, innerHTMLOf]

/-- The keys of the project table. -/
theorem projectInfo_keys :
    projectInfo.map Prod.fst = ["TaxMate", "Automata Engine", "File Compressor"] := rfl

/-- Claim C9 at the key `Automata Engine`. -/
theorem openModal_known_witness :
    (openModal "Automata Engine" ⟨[], "", "", ""⟩).modalTitle = "Automata Engine" ∧
      (openModal "Automata Engine" ⟨[], "", "", ""⟩).modalBody = automataEngineContent :=
  openModal_known "Automata Engine"
    { title := "Automata Engine", content := automataEngineContent } ⟨[], "", "", ""⟩ rfl

/-- A name that is neither a key of the project table nor a property name of
`Object.prototype` gets the generic placeholder. -/
theorem openModal_unknown (projectName : String) (s : ModalState)
    (hown : ownProperty projectInfo projectName = none)
    (hproto : projectName ∉ objectPrototypeKeys) :
    (openModal projectName s).modalTitle = projectName ∧
      (openModal projectName s).modalBody = placeholderContent projectName := by
  simp [openModal, modalInfo, projectInfoGet, hown, hproto, textContentOf, innerHTMLOf,
    placeholderContent]

/-- Claim C10 fails at the name `constructor`: it is not a key of the project
table, yet `projectInfo['constructor']` is the inherited constructor function,
so the fallback is not taken; the title becomes empty and the body the text
`undefined` instead of the placeholder. -/
theorem openModal_inherited_name (s : ModalState) :
    ownProperty projectInfo "constructor" = none ∧
      (openModal "constructor" s).modalTitle = "" ∧
      (openModal "constructor" s).modalBody = "undefined" ∧
      (openModal "constructor" s).modalTitle ≠ "constructor" ∧
      (openModal "constructor" s).modalBody ≠ placeholderContent "constructor" := by
  have hown : ownProperty projectInfo "constructor" = none := by decide
  have hproto : "constructor" ∈ objectPrototypeKeys := by decide
  have htitle : (openModal "constructor" s).modalTitle = "" := by
    simp [openModal, modalInfo, projectInfoGet, hown, hproto, textContentOf]
  have hbody : (openModal "constructor" s).modalBody = "undefined" := by
    simp [openModal, modalInfo, projectInfoGet, hown, hproto, innerHTMLOf]
  refine ⟨hown, htitle, hbody, ?_, ?_⟩
  · rw [htitle]; decide
  · rw [hbody]; decide

/-! ## More on token lists -/

theorem DOMTokenList.contains_add_of_ne (cl : DOMTokenList) (c d : String) (h : d ≠ c) :
    (cl.add c).contains d = cl.contains d := by
  unfold DOMTokenList.add DOMTokenList.contains
  by_cases hc : c ∈ cl <;> simp [hc, h]

theorem DOMTokenList.contains_remove_of_ne (cl : DOMTokenList) (c d : String) (h : d ≠ c) :
    (cl.remove c).contains d = cl.contains d := by
  unfold DOMTokenList.remove DOMTokenList.contains
  simp [h]

/-! ## Contact form -/

theorem submitContact_reportsNoError (s : ContactState) :
    (submitContact s).reportsNoError = true := by
  simp [ContactState.reportsNoError, submitContact, DOMTokenList.contains_add_of_ne,
    DOMTokenList.contains_remove_of_ne, DOMTokenList.contains_remove_self]

theorem contactSent_reportsNoError (s : ContactState) (h : s.reportsNoError = true) :
    (contactSent s).reportsNoError = true := by
  simp only [ContactState.reportsNoError, Bool.and_eq_true, Bool.not_eq_true'] at h
  simp [ContactState.reportsNoError, contactSent, DOMTokenList.contains_add_of_ne,
    DOMTokenList.contains_remove_of_ne, h.2]

theorem contactHide_reportsNoError (s : ContactState) (h : s.reportsNoError = true) :
    (contactHide s).reportsNoError = true := by
  simp only [ContactState.reportsNoError, Bool.and_eq_true, Bool.not_eq_true'] at h
  simp only [ContactState.reportsNoError, contactHide, Bool.and_eq_true, Bool.not_eq_true']
  refine ⟨h.1, ?_⟩
  rw [DOMTokenList.contains_add_of_ne _ _ _ (by decide)]
  exact h.2

theorem contactStep_reportsNoError (s s' : ContactState) (event : ContactEvent)
    (h : s.reportsNoError = true) (hstep : contactStep s event = some s') :
    s'.reportsNoError = true := by
  cases event with
  | edit index value =>
    simp only [contactStep, Option.some.injEq] at hstep
    subst hstep
    exact h
  | submit =>
    simp only [contactStep, Option.some.injEq] at hstep
    subst hstep
    exact submitContact_reportsNoError s
  | timeout index =>
    simp only [contactStep] at hstep
    cases hdrop : s.timers.drop index with
    | nil => simp [hdrop] at hstep
    | cons timer later =>
      obtain ⟨delay, kind⟩ := timer
      cases kind with
      | sent =>
        simp only [hdrop, Option.some.injEq] at hstep
        subst hstep
        exact contactSent_reportsNoError _ h
      | hide =>
        simp only [hdrop, Option.some.injEq] at hstep
        subst hstep
        exact contactHide_reportsNoError _ h

theorem contactRun_reportsNoError (events : List ContactEvent) :
    ∀ s s' : ContactState, s.reportsNoError = true → contactRun s events = some s' →
      s'.reportsNoError = true := by
  induction events with
  | nil =>
    intro s s' h hrun
    simp only [contactRun, Option.some.injEq] at hrun
    exact hrun ▸ h
  | cons event rest ih =>
    intro s s' h hrun
    simp only [contactRun] at hrun
    cases hstep : contactStep s event with
    | none => simp [hstep] at hrun
    | some mid =>
      simp only [hstep] at hrun
      exact ih mid s' (contactStep_reportsNoError s mid event h hstep) hrun

theorem resetForm_all_default (fields : List FormField) :
    (resetForm fields).all (fun field => field.value == field.defaultValue) = true := by
  simp [resetForm]

/-- Claim C17: for every state of the form, whatever its fields contain, the
submit handler shows `Sending message...`, unhides the status and schedules
the 1500 ms callback; that callback shows the success message with the class
`text-green-500`, resets every field and schedules the hiding; and in every
state reached after a submission, through any edits, further submissions and
timer callbacks, the status text is one of these two messages and the status
does not carry the error class `text-red-500`. -/
theorem contact_always_succeeds (s : ContactState) (events : List ContactEvent)
    (s' : ContactState) (hrun : contactRun (submitContact s) events = some s') :
    (submitContact s).statusText = "Sending message..." ∧
      (submitContact s).statusClassList.contains "hidden" = false ∧
      (submitContact s).timers = s.timers ++ [(1500, ContactTimer.sent)] ∧
      (contactSent s).statusText = "Message sent successfully! Thank you for reaching out." ∧
      (contactSent s).statusClassList.contains "text-green-500" = true ∧
      (contactSent s).fields.all (fun field => field.value == field.defaultValue) = true ∧
      (contactSent s).timers = s.timers ++ [(5000, ContactTimer.hide)] ∧
      s'.reportsNoError = true := by
  refine ⟨rfl, ?_, rfl, rfl, ?_, ?_, rfl, ?_⟩
  · simp [submitContact, DOMTokenList.contains_add_of_ne, DOMTokenList.contains_remove_of_ne,
      DOMTokenList.contains_remove_self]
  · simp [contactSent, DOMTokenList.contains_add_self]
  · exact resetForm_all_default s.fields
  · exact contactRun_reportsNoError events _ s' (submitContact_reportsNoError s) hrun

/-- Claim C17 on a form with an error-coloured status: a submission, an edit
while it is pending, then the 1500 ms callback. -/
theorem contact_always_succeeds_witness :
    contactRun
        (submitContact
          { fields := [{ name := "email", value := "not an address", defaultValue := "" }]
            statusClassList := ["hidden", "text-red-500"]
            statusText := ""
            timers := [] })
        [.edit 0 "", .timeout 0]
      = some
        { fields := [{ name := "email", value := "", defaultValue := "" }]
          statusClassList := ["text-green-500"]
          statusText := "Message sent successfully! Thank you for reaching out."
          timers := [(5000, ContactTimer.hide)] } ∧
      ContactState.reportsNoError
        { fields := [{ name := "email", value := "", defaultValue := "" }]
          statusClassList := ["text-green-500"]
          statusText := "Message sent successfully! Thank you for reaching out."
          timers := [(5000, ContactTimer.hide)] } = true :=
  ⟨by decide,
    (contact_always_succeeds
      { fields := [{ name := "email", value := "not an address", defaultValue := "" }]
        statusClassList := ["hidden", "text-red-500"]
        statusText := ""
        timers := [] }
      [.edit 0 "", .timeout 0]
      { fields := [{ name := "email", value := "", defaultValue := "" }]
        statusClassList := ["text-green-500"]
        statusText := "Message sent successfully! Thank you for reaching out."
        timers := [(5000, ContactTimer.hide)] }
      (by decide)).2.2.2.2.2.2.2⟩

/-! ## Mobile sidebar -/

theorem closeSidebar_closed (s : SidebarState) : (closeSidebar s).closed = true := by
  cases hbtn : s.mobileMenuToggle <;>
    simp [SidebarState.closed, closeSidebar, hbtn, DOMTokenList.contains_remove_self,
      DOMTokenList.contains_remove_of_ne, DOMTokenList.contains_add_self]

/-- Claim C11: from every state in which the sidebar is open, the overlay
click, the close button and the Escape key lead to the same state, the one
`closeSidebar` produces: `sidebarOpen` false, the drawer without `open`, the
overlay hidden and without `open`, the menu button not `active`, and the body
overflow reset to the empty string. -/
theorem sidebar_close_paths_agree (s : SidebarState) (hopen : s.sidebarOpen = true) :
    navOverlayClick s = closeSidebar s ∧
      navCloseClick s = closeSidebar s ∧
      sidebarKeydown "Escape" s = closeSidebar s ∧
      (closeSidebar s).closed = true := by
  refine ⟨rfl, rfl, ?_, closeSidebar_closed s⟩
  simp [sidebarKeydown, hopen]

/-- Claim C11 on an open sidebar with a menu button. -/
theorem sidebar_close_paths_agree_witness :
    sidebarKeydown "Escape"
        { sidebarOpen := true
          mobileNavSidebar := ["drawer", "open"]
          navOverlay := ["overlay", "open"]
          mobileMenuToggle := some ["active"]
          bodyOverflow := "hidden" }
      = { sidebarOpen := false
          mobileNavSidebar := ["drawer"]
          navOverlay := ["overlay", "hidden"]
          mobileMenuToggle := some []
          bodyOverflow := "" } :=
  ((sidebar_close_paths_agree
    { sidebarOpen := true
      mobileNavSidebar := ["drawer", "open"]
      navOverlay := ["overlay", "open"]
      mobileMenuToggle := some ["active"]
      bodyOverflow := "hidden" } rfl).2.2.1).trans (by decide)

/-! ## Info modal: closing -/

/-- Claim C12: after `openModal`, the close button, a click on the modal
overlay itself and the Escape key each run `closeModal`, which removes the
class `active`, resets the body overflow and leaves the title and the body
content as `openModal` set them; a click on a descendant of the modal changes
nothing, and neither does Escape while the modal is not active. -/
theorem modal_close_paths (projectName : String) (s s' : ModalState) :
    modalCloseClick (openModal projectName s) = closeModal (openModal projectName s) ∧
      modalClick true (openModal projectName s) = closeModal (openModal projectName s) ∧
      modalKeydown "Escape" (openModal projectName s)
        = closeModal (openModal projectName s) ∧
      (closeModal (openModal projectName s)).modalClassList.contains "active" = false ∧
      (closeModal (openModal projectName s)).bodyOverflow = "" ∧
      (closeModal (openModal projectName s)).modalTitle
        = (openModal projectName s).modalTitle ∧
      (closeModal (openModal projectName s)).modalBody
        = (openModal projectName s).modalBody ∧
      modalClick false s' = s' ∧
      (s'.modalClassList.contains "active" = false → modalKeydown "Escape" s' = s') := by
  refine ⟨rfl, rfl, ?_, ?_, rfl, rfl, rfl, rfl, ?_⟩
  · simp [modalKeydown, openModal, DOMTokenList.contains_add_self]
  · simp [closeModal, DOMTokenList.contains_remove_self]
  · intro h
    simp [modalKeydown, h]

/-- Claim C12 on a closed modal: Escape changes nothing. -/
theorem modal_close_paths_witness :
    modalKeydown "Escape"
        { modalClassList := ["modal"], modalTitle := "t", modalBody := "b", bodyOverflow := "" }
      = { modalClassList := ["modal"], modalTitle := "t", modalBody := "b", bodyOverflow := "" } :=
  (modal_close_paths "TaxMate"
    { modalClassList := ["modal"], modalTitle := "t", modalBody := "b", bodyOverflow := "" }
    { modalClassList := ["modal"], modalTitle := "t", modalBody := "b", bodyOverflow := "" }).2.2.2.2.2.2.2.2
    (by decide)

/-! ## Particles -/

theorem particlesSetup_length (innerWidth innerHeight : Nat) (random : Nat → ℚ) :
    (particlesSetup innerWidth innerHeight random).particles.length
      = particleCount innerWidth := by
  simp [particlesSetup]

theorem particlesResizes_particles (sizes : List (Nat × Nat)) :
    ∀ s : ParticleSystem, (particlesResizes s sizes).particles = s.particles := by
  induction sizes with
  | nil => intro s; rfl
  | cons size rest ih =>
    intro s
    simp only [particlesResizes, List.foldl_cons] at ih ⊢
    rw [ih]
    rfl

/-- Claim C13 as stated fails: a page loaded 1024 wide has 80 particles and
keeps them when the window is resized to a width of 500, where the target
is 30. -/
theorem particles_resize_keeps_count :
    ¬ ∀ (loadWidth loadHeight : Nat) (random : Nat → ℚ) (innerWidth innerHeight : Nat),
      (particlesResize innerWidth innerHeight
        (particlesSetup loadWidth loadHeight random)).particles.length
        = particleCount innerWidth := by
  intro h
  have h0 := h 1024 768 (fun _ => 0) 500 768
  simp [particlesResize, particlesSetup, particleCount] at h0

/-- Claim C13, amended: after any sequence of window resizes the particles are
the ones created at page load, so their number is the target for the inner
width at load (30 below 768, otherwise 80), and the canvas has the size of
the last resize; the number equals the target for a new width exactly when
that width is on the same side of 768 as the width at load. -/
theorem particles_count_fixed_at_load (loadWidth loadHeight : Nat) (random : Nat → ℚ)
    (sizes : List (Nat × Nat)) (innerWidth innerHeight : Nat) :
    (particlesResizes (particlesSetup loadWidth loadHeight random)
        (sizes ++ [(innerWidth, innerHeight)])).particles.length
        = (if loadWidth < 768 then 30 else 80) ∧
      (particlesResizes (particlesSetup loadWidth loadHeight random)
        (sizes ++ [(innerWidth, innerHeight)])).canvasWidth = innerWidth ∧
      (particlesResizes (particlesSetup loadWidth loadHeight random)
        (sizes ++ [(innerWidth, innerHeight)])).canvasHeight = innerHeight ∧
      ((particlesResizes (particlesSetup loadWidth loadHeight random)
          (sizes ++ [(innerWidth, innerHeight)])).particles.length = particleCount innerWidth ↔
        (loadWidth < 768 ↔ innerWidth < 768)) := by
  have hlen : (particlesResizes (particlesSetup loadWidth loadHeight random)
      (sizes ++ [(innerWidth, innerHeight)])).particles.length
        = (if loadWidth < 768 then 30 else 80) := by
    rw [particlesResizes_particles, particlesSetup_length]
    rfl
  refine ⟨hlen, ?_, ?_, ?_⟩
  · simp [particlesResizes, particlesResize]
  · simp [particlesResizes, particlesResize]
  · rw [hlen]
    unfold particleCount
    by_cases h1 : loadWidth < 768 <;> by_cases h2 : innerWidth < 768 <;> simp [h1, h2]

/-- Claim C19: for every particle and every canvas of non-negative width and
height, the position after `Particle.update` satisfies `0 <= x <= width` and
`0 <= y <= height`. -/
theorem particle_update_in_bounds (p : Particle) (canvasWidth canvasHeight : ℚ)
    (hwidth : 0 ≤ canvasWidth) (hheight : 0 ≤ canvasHeight) :
    0 ≤ (p.update canvasWidth canvasHeight).x ∧
      (p.update canvasWidth canvasHeight).x ≤ canvasWidth ∧
      0 ≤ (p.update canvasWidth canvasHeight).y ∧
      (p.update canvasWidth canvasHeight).y ≤ canvasHeight := by
  simp only [Particle.update]
  refine ⟨?_, ?_, ?_, ?_⟩
  · by_cases h1 : p.x + p.speedX > canvasWidth
    · simp [h1]
    · by_cases h2 : p.x + p.speedX < 0
      · simp [h1, h2, hwidth]
      · simp only [h1, h2, if_false]; exact not_lt.mp h2
  · by_cases h1 : p.x + p.speedX > canvasWidth
    · simp [h1, hwidth]
    · by_cases h2 : p.x + p.speedX < 0
      · simp [h1, h2]
      · simp only [h1, h2, if_false]; exact not_lt.mp h1
  · by_cases h1 : p.y + p.speedY > canvasHeight
    · simp [h1]
    · by_cases h2 : p.y + p.speedY < 0
      · simp [h1, h2, hheight]
      · simp only [h1, h2, if_false]; exact not_lt.mp h2
  · by_cases h1 : p.y + p.speedY > canvasHeight
    · simp [h1, hheight]
    · by_cases h2 : p.y + p.speedY < 0
      · simp [h1, h2]
      · simp only [h1, h2, if_false]; exact not_lt.mp h1

/-- Claim C19 for a particle that leaves a 100 by 50 canvas on the right and at
the top. -/
theorem particle_update_in_bounds_witness :
    (0 : ℚ) ≤ 100 ∧ (0 : ℚ) ≤ 50 ∧
      0 ≤ (Particle.update 100 50 ⟨100, 0, 1, 1 / 4, -1 / 4, 1⟩).x ∧
      (Particle.update 100 50 ⟨100, 0, 1, 1 / 4, -1 / 4, 1⟩).x ≤ 100 ∧
      0 ≤ (Particle.update 100 50 ⟨100, 0, 1, 1 / 4, -1 / 4, 1⟩).y ∧
      (Particle.update 100 50 ⟨100, 0, 1, 1 / 4, -1 / 4, 1⟩).y ≤ 50 :=
  ⟨by norm_num, by norm_num,
    particle_update_in_bounds ⟨100, 0, 1, 1 / 4, -1 / 4, 1⟩ 100 50 (by norm_num) (by norm_num)⟩

/-! ## Stars and orbs -/

theorem newStars_length (count canvasWidth canvasHeight : Nat) (random : Nat → ℚ) :
    (newStars count canvasWidth canvasHeight random).length = count := by
  simp [newStars]

theorem newOrbs_length (canvasWidth canvasHeight : Nat) (random : Nat → ℚ) :
    (newOrbs canvasWidth canvasHeight random).length = 3 := by
  simp [newOrbs]

/-- Claim C14: after a window resize, whatever the stars were before, the
number of stars is the target for the new inner width: 0 when it is at most
768, otherwise 80. -/
theorem stars_count_after_resize (s : StarField) (innerWidth innerHeight : Nat)
    (random : Nat → ℚ) :
    (starsResize innerWidth innerHeight random s).stars.length
        = (if innerWidth ≤ 768 then 0 else 80) ∧
      (starsResize innerWidth innerHeight random s).stars.length = starCount innerWidth := by
  by_cases h : innerWidth ≤ 768 <;>
    simp [starsResize, newStars_length, starCount, isMobileView, h]

/-- Claim C15 as stated fails: a page loaded 500 wide has three orbs and keeps
them when the window is resized to a width of 1200, where the target is 0. -/
theorem orbs_resize_keeps_orbs :
    ¬ ∀ (loadWidth loadHeight : Nat) (random : Nat → ℚ) (innerWidth innerHeight : Nat),
      (starsResize innerWidth innerHeight random
        (starsSetup loadWidth loadHeight random)).orbs.length
        = (if innerWidth ≤ 768 then 3 else 0) := by
  intro h
  have h0 := h 500 800 (fun _ => 0) 1200 800
  simp [starsResize, starsSetup, isMobileView, newOrbs_length] at h0

/-- Claim C15, amended: at page load the number of orbs is 3 for an inner width
of at most 768 and 0 otherwise; a resize to an inner width of at most 768
replaces the orbs by three new ones, and a resize to a larger width leaves
the orbs as they were. -/
theorem orbs_count_after_resize (s : StarField) (loadWidth loadHeight : Nat)
    (innerWidth innerHeight : Nat) (random : Nat → ℚ) :
    (starsSetup loadWidth loadHeight random).orbs.length
        = (if loadWidth ≤ 768 then 3 else 0) ∧
      (starsResize innerWidth innerHeight random s).orbs.length
        = (if innerWidth ≤ 768 then 3 else s.orbs.length) ∧
      (starsResize innerWidth innerHeight random s).orbs
        = (if innerWidth ≤ 768 then
            newOrbs innerWidth innerHeight (fun j => random (6 * 0 + j))
          else s.orbs) := by
  refine ⟨?_, ?_, ?_⟩
  · by_cases h : loadWidth ≤ 768 <;> simp [starsSetup, isMobileView, h, newOrbs_length]
  · by_cases h : innerWidth ≤ 768 <;> simp [starsResize, isMobileView, h, newOrbs_length]
  · by_cases h : innerWidth ≤ 768 <;> simp [starsResize, isMobileView, h]

theorem twinkling_new (canvasWidth canvasHeight : ℚ) (random : Nat → ℚ)
    (hrandom : ∀ i, 0 ≤ random i ∧ random i < 1) :
    (Star.new canvasWidth canvasHeight random).Twinkling
        (Star.new canvasWidth canvasHeight random).twinkleSpeed ∧
      (1 / 100 : ℚ) ≤ (Star.new canvasWidth canvasHeight random).twinkleSpeed ∧
      (Star.new canvasWidth canvasHeight random).twinkleSpeed < 4 / 100 := by
  have h3 := hrandom 3
  have h4 := hrandom 4
  have hb : (Star.new canvasWidth canvasHeight random).brightness = random 3 * 0.4 + 0.2 := rfl
  have hs : (Star.new canvasWidth canvasHeight random).twinkleSpeed
      = random 4 * 0.03 + 0.01 := rfl
  unfold Star.Twinkling
  rw [hb, hs]
  refine ⟨Or.inl ⟨rfl, ?_, ?_⟩, ?_, ?_⟩ <;> norm_num <;> linarith

theorem twinkling_update (speed : ℚ) (hspeed : 0 < speed) (star : Star)
    (h : star.Twinkling speed) : star.update.Twinkling speed := by
  have hb : star.update.brightness = star.brightness + star.twinkleSpeed := rfl
  have hs : star.update.twinkleSpeed =
      if star.brightness + star.twinkleSpeed ≥ 0.6 ∨ star.brightness + star.twinkleSpeed ≤ 0.2
      then -star.twinkleSpeed else star.twinkleSpeed := rfl
  unfold Star.Twinkling at h ⊢
  rw [hb, hs]
  rcases h with ⟨hv, hlow, hhigh⟩ | ⟨hv, hlow, hhigh⟩
  · rw [hv]
    by_cases hflip : star.brightness + speed ≥ 0.6 ∨ star.brightness + speed ≤ 0.2
    · rw [if_pos hflip]
      right
      rcases hflip with hf | hf
      · refine ⟨rfl, ?_, ?_⟩ <;> norm_num at * <;> linarith
      · exfalso; norm_num at *; linarith
    · rw [if_neg hflip]
      left
      rw [not_or] at hflip
      refine ⟨rfl, ?_, ?_⟩ <;> norm_num at * <;> linarith
  · rw [hv]
    by_cases hflip : star.brightness + -speed ≥ 0.6 ∨ star.brightness + -speed ≤ 0.2
    · rw [if_pos hflip]
      left
      rcases hflip with hf | hf
      · exfalso; norm_num at *; linarith
      · refine ⟨neg_neg _, ?_, ?_⟩ <;> norm_num at * <;> linarith
    · rw [if_neg hflip]
      right
      rw [not_or] at hflip
      refine ⟨rfl, ?_, ?_⟩ <;> norm_num at * <;> linarith

theorem twinkling_iterate (speed : ℚ) (hspeed : 0 < speed) (steps : Nat) :
    ∀ star : Star, star.Twinkling speed → (Star.update^[steps] star).Twinkling speed := by
  induction steps with
  | zero => intro star h; exact h
  | succ steps ih =>
    intro star h
    rw [Function.iterate_succ_apply]
    exact ih _ (twinkling_update speed hspeed star h)

/-- Claim C20 as stated fails: a star created with brightness `0.59` and twinkle
speed `0.03` has brightness `0.62` after one update. -/
theorem star_brightness_overshoots :
    ¬ ∀ (canvasWidth canvasHeight : ℚ) (random : Nat → ℚ),
      (∀ i, 0 ≤ random i ∧ random i < 1) → ∀ steps : Nat,
        0.2 ≤ (Star.update^[steps] (Star.new canvasWidth canvasHeight random)).brightness ∧
          (Star.update^[steps] (Star.new canvasWidth canvasHeight random)).brightness
            ≤ 0.6 := by
  intro h
  have h0 := (h 100 100 (fun i => if i = 3 then 39 / 40 else if i = 4 then 2 / 3 else 0)
    (by intro i; dsimp only; split_ifs <;> norm_num) 1).2
  simp [Star.new, Star.update] at h0
  norm_num at h0

/-- Claim C20, amended: with exact arithmetic, for every star created by the
constructor and every number of update steps, the twinkle speed keeps its
magnitude and only changes sign, and the brightness stays strictly between
`0.2 - speed` and `0.6 + speed`, where `speed` is that magnitude; it can pass
`0.6` or `0.2` by less than one step before the direction is reversed. -/
theorem star_brightness_range (canvasWidth canvasHeight : ℚ) (random : Nat → ℚ)
    (hrandom : ∀ i, 0 ≤ random i ∧ random i < 1) (steps : Nat) :
    ((Star.update^[steps] (Star.new canvasWidth canvasHeight random)).twinkleSpeed
          = (Star.new canvasWidth canvasHeight random).twinkleSpeed ∨
        (Star.update^[steps] (Star.new canvasWidth canvasHeight random)).twinkleSpeed
          = -(Star.new canvasWidth canvasHeight random).twinkleSpeed) ∧
      0.2 - (Star.new canvasWidth canvasHeight random).twinkleSpeed
        < (Star.update^[steps] (Star.new canvasWidth canvasHeight random)).brightness ∧
      (Star.update^[steps] (Star.new canvasWidth canvasHeight random)).brightness
        < 0.6 + (Star.new canvasWidth canvasHeight random).twinkleSpeed := by
  obtain ⟨hnew, hlow, _⟩ := twinkling_new canvasWidth canvasHeight random hrandom
  have hpos : 0 < (Star.new canvasWidth canvasHeight random).twinkleSpeed := by linarith
  have h := twinkling_iterate _ hpos steps _ hnew
  simp only [Star.Twinkling] at h
  rcases h with ⟨hv, h1, h2⟩ | ⟨hv, h1, h2⟩
  · exact ⟨Or.inl hv, h1, by linarith⟩
  · refine ⟨Or.inr hv, ?_, h2⟩
    norm_num at *
    linarith

/-- Claim C20, amended, for the star created from the random numbers `1 / 2`:
brightness `0.4`, twinkle speed `0.025`, after 100 updates. -/
theorem star_brightness_range_witness :
    0.2 - (Star.new 100 100 (fun _ => 1 / 2)).twinkleSpeed
        < (Star.update^[100] (Star.new 100 100 (fun _ => 1 / 2))).brightness ∧
      (Star.update^[100] (Star.new 100 100 (fun _ => 1 / 2))).brightness
        < 0.6 + (Star.new 100 100 (fun _ => 1 / 2)).twinkleSpeed :=
  (star_brightness_range 100 100 (fun _ => 1 / 2) (fun _ => by norm_num) 100).2

/-! ## Background loops -/

theorem themeObserverCallback_startedDark (s : LoopState) (observer : ThemeObserver)
    (h : s.startedDark = true) : (themeObserverCallback s observer).startedDark = true := by
  cases observer with
  | stars =>
    by_cases hd : s.theme.dark = true
    · simp only [LoopState.startedDark, List.all_append, Bool.and_eq_true] at h
      simp [themeObserverCallback, hd, animateStars, LoopState.startedDark, h.1, h.2]
    · simpa [themeObserverCallback, hd] using h
  | starsOrOrbs =>
    by_cases hd : s.theme.dark = true
    · simp only [LoopState.startedDark, List.all_append, Bool.and_eq_true] at h
      by_cases hm : isMobileView s.innerWidth = true
      · simp [themeObserverCallback, hd, hm, animateOrbs, LoopState.startedDark, h.1, h.2]
      · simp [themeObserverCallback, hd, hm, animateStars, LoopState.startedDark, h.1, h.2]
    · simpa [themeObserverCallback, hd] using h

theorem themeObserverCallback_prefix (s : LoopState) (observer : ThemeObserver) :
    s.starLoops <+: (themeObserverCallback s observer).starLoops ∧
      s.orbLoops <+: (themeObserverCallback s observer).orbLoops := by
  cases observer with
  | stars =>
    by_cases hd : s.theme.dark = true <;> simp [themeObserverCallback, hd, animateStars]
  | starsOrOrbs =>
    by_cases hd : s.theme.dark = true <;> by_cases hm : isMobileView s.innerWidth = true <;>
      simp [themeObserverCallback, hd, hm, animateStars, animateOrbs]

theorem notify_startedDark (observers : List ThemeObserver) :
    ∀ s : LoopState, s.startedDark = true →
      (observers.foldl themeObserverCallback s).startedDark = true := by
  induction observers with
  | nil => intro s h; exact h
  | cons observer rest ih =>
    intro s h
    exact ih _ (themeObserverCallback_startedDark s observer h)

theorem notify_prefix (observers : List ThemeObserver) :
    ∀ s : LoopState, s.starLoops <+: (observers.foldl themeObserverCallback s).starLoops ∧
      s.orbLoops <+: (observers.foldl themeObserverCallback s).orbLoops := by
  induction observers with
  | nil => intro s; exact ⟨List.prefix_refl _, List.prefix_refl _⟩
  | cons observer rest ih =>
    intro s
    obtain ⟨h1, h2⟩ := themeObserverCallback_prefix s observer
    obtain ⟨h3, h4⟩ := ih (themeObserverCallback s observer)
    exact ⟨h1.trans h3, h2.trans h4⟩

theorem loopStep_startedDark (s : LoopState) (event : LoopEvent) (h : s.startedDark = true) :
    (loopStep s event).startedDark = true := by
  cases event with
  | toggle => exact notify_startedDark _ _ h
  | frame => exact h

theorem loopStep_prefix (s : LoopState) (event : LoopEvent) :
    s.starLoops <+: (loopStep s event).starLoops ∧
      s.orbLoops <+: (loopStep s event).orbLoops := by
  cases event with
  | toggle => exact notify_prefix s.observers { s with theme := toggleTheme s.theme }
  | frame => exact ⟨List.prefix_refl _, List.prefix_refl _⟩

theorem loopRun_startedDark (events : List LoopEvent) :
    ∀ s : LoopState, s.startedDark = true → (loopRun s events).startedDark = true := by
  induction events with
  | nil => intro s h; exact h
  | cons event rest ih => intro s h; exact ih _ (loopStep_startedDark s event h)

theorem loopRun_prefix (events : List LoopEvent) :
    ∀ s : LoopState, s.starLoops <+: (loopRun s events).starLoops ∧
      s.orbLoops <+: (loopRun s events).orbLoops := by
  induction events with
  | nil => intro s; exact ⟨List.prefix_refl _, List.prefix_refl _⟩
  | cons event rest ih =>
    intro s
    obtain ⟨h1, h2⟩ := loopStep_prefix s event
    obtain ⟨h3, h4⟩ := ih (loopStep s event)
    exact ⟨h1.trans h3, h2.trans h4⟩

theorem backgroundSetup_loops (theme : ThemeState) (innerWidth : Nat) :
    (backgroundSetup theme innerWidth).1.starLoops = (if theme.dark then [true] else []) ∧
      (backgroundSetup theme innerWidth).1.orbLoops
        = (if isMobileView innerWidth && theme.dark then [true] else []) ∧
      (backgroundSetup theme innerWidth).1.observers = [] := by
  by_cases hd : theme.dark = true <;> by_cases hm : isMobileView innerWidth = true <;>
    simp [backgroundSetup, animateStars, animateOrbs, hd, hm]

/-- Claim C18 as stated fails: on a page loaded wide and dark the star loop is
started; after a theme toggle and a frame it is still pending while the root
element is without the class `dark`. -/
theorem loop_runs_in_light_theme :
    ¬ ∀ (theme : ThemeState) (innerWidth : Nat) (events : List LoopEvent),
      ((loopRun (backgroundSetup theme innerWidth).1 events).starLoops ≠ [] ∨
          (loopRun (backgroundSetup theme innerWidth).1 events).orbLoops ≠ []) →
        (loopRun (backgroundSetup theme innerWidth).1 events).theme.dark = true := by
  intro h
  have h0 := h (initializeTheme true freshThemeState) 1024 [.toggle, .frame] (by decide)
  revert h0
  decide

/-- Claim C18, amended: in every state reachable from page load through theme
toggles and frame callbacks, every star or orb loop that is rescheduling
itself was started while the root element had the class `dark`; at load the
star loop is started exactly when the flag is set and the orb loop exactly
when in addition the inner width is at most 768; and a loop started at load
is still rescheduling itself in every later state, whatever the flag is. -/
theorem loops_started_in_dark (theme : ThemeState) (innerWidth : Nat)
    (events : List LoopEvent) :
    (loopRun (backgroundSetup theme innerWidth).1 events).startedDark = true ∧
      (backgroundSetup theme innerWidth).1.starLoops = (if theme.dark then [true] else []) ∧
      (backgroundSetup theme innerWidth).1.orbLoops
        = (if isMobileView innerWidth && theme.dark then [true] else []) ∧
      (backgroundSetup theme innerWidth).1.starLoops
        <+: (loopRun (backgroundSetup theme innerWidth).1 events).starLoops ∧
      (backgroundSetup theme innerWidth).1.orbLoops
        <+: (loopRun (backgroundSetup theme innerWidth).1 events).orbLoops := by
  obtain ⟨hstars, horbs, _⟩ := backgroundSetup_loops theme innerWidth
  obtain ⟨hp1, hp2⟩ := loopRun_prefix events (backgroundSetup theme innerWidth).1
  refine ⟨?_, hstars, horbs, hp1, hp2⟩
  apply loopRun_startedDark
  simp only [LoopState.startedDark, hstars, horbs]
  by_cases hd : theme.dark = true <;> by_cases hm : isMobileView innerWidth = true <;>
    simp [hd, hm]

/-! ## Top-level execution -/

/-- Sections 1-11 run to their end exactly when the desktop toggle, both desktop
icons and the contact form exist and the stars canvas does not. -/
theorem runSections_ok_iff (dom : DomElements) (isDark : Bool) :
    runSections dom isDark = Except.ok () ↔
      (dom.darkModeToggle = true ∧ dom.sunIcon = true ∧ dom.moonIcon = true ∧
        dom.contactForm = true ∧ dom.starsCanvas = false) := by
  cases isDark <;>
    cases h1 : dom.darkModeToggle <;> cases h2 : dom.sunIcon <;> cases h3 : dom.moonIcon <;>
    cases h4 : dom.contactForm <;> cases h5 : dom.starsCanvas <;>
    simp [runSections, dereference, guarded, h1, h2, h3, h4, h5, bind, Except.bind, pure,
      Except.pure, throw, throwThe, MonadExceptOf.throw]

/-- Claim C16 fails on the page in which every looked-up element exists: the
script ends with an error at line 722, the assignment to the constant
`observer`.  It also fails when the desktop toggle or the contact form is
absent: lines 112 and 213 use the result of the lookup without a null check. -/
theorem script_raises_error (isDark : Bool) (theme : ThemeState) (innerWidth : Nat) :
    runSections fullPage isDark = Except.error (ScriptError.assignmentToConstant 722) ∧
      (backgroundSetup theme innerWidth).2 = some (ScriptError.assignmentToConstant 722) ∧
      runSections { fullPage with darkModeToggle := false } isDark
        = Except.error (ScriptError.nullDereference 112) ∧
      runSections { fullPage with contactForm := false } isDark
        = Except.error (ScriptError.nullDereference 213) := by
  cases isDark <;> exact ⟨rfl, rfl, rfl, rfl⟩

/-! ## Gradient orb motion -/

/-- Claim C21 as stated fails: an orb of size 100 that moves from `x = 0` to
`x = -1/4` is below 0 yet keeps its horizontal velocity. -/
theorem orb_keeps_velocity_past_edge :
    ¬ ∀ (sin : ℚ → ℚ) (canvasWidth canvasHeight : ℚ) (orb : GradientOrb),
      (orb.update sin canvasWidth canvasHeight).vx
          = (if orb.x + orb.vx < 0 ∨ orb.x + orb.vx > canvasWidth then -orb.vx else orb.vx) ∧
        (orb.update sin canvasWidth canvasHeight).vy
          = (if orb.y + orb.vy < 0 ∨ orb.y + orb.vy > canvasHeight then -orb.vy
              else orb.vy) := by
  intro h
  have h0 := (h (fun _ => 0) 500 800 (GradientOrb.new 500 800 (fun _ => 0))).1
  simp [GradientOrb.update, GradientOrb.new] at h0
  norm_num at h0

/-- Claim C21, amended: `GradientOrb.update` negates the horizontal velocity
exactly when the advanced `x` is below `-size` or above the canvas width plus
`size`, and the vertical velocity exactly when the advanced `y` is below
`-size` or above the canvas height plus `size`; so a velocity changes exactly
when it is not zero and the orb has left the canvas by more than its size. -/
theorem orb_velocity_flip (sin : ℚ → ℚ) (canvasWidth canvasHeight : ℚ) (orb : GradientOrb) :
    (orb.update sin canvasWidth canvasHeight).x = orb.x + orb.vx ∧
      (orb.update sin canvasWidth canvasHeight).y = orb.y + orb.vy ∧
      (orb.update sin canvasWidth canvasHeight).vx
        = (if orb.x + orb.vx < -orb.size ∨ orb.x + orb.vx > canvasWidth + orb.size
            then -orb.vx else orb.vx) ∧
      (orb.update sin canvasWidth canvasHeight).vy
        = (if orb.y + orb.vy < -orb.size ∨ orb.y + orb.vy > canvasHeight + orb.size
            then -orb.vy else orb.vy) ∧
      ((orb.update sin canvasWidth canvasHeight).vx ≠ orb.vx ↔
        (orb.vx ≠ 0 ∧
          (orb.x + orb.vx < -orb.size ∨ orb.x + orb.vx > canvasWidth + orb.size))) ∧
      ((orb.update sin canvasWidth canvasHeight).vy ≠ orb.vy ↔
        (orb.vy ≠ 0 ∧
          (orb.y + orb.vy < -orb.size ∨ orb.y + orb.vy > canvasHeight + orb.size))) := by
  have hvx : (orb.update sin canvasWidth canvasHeight).vx
      = (if orb.x + orb.vx < -orb.size ∨ orb.x + orb.vx > canvasWidth + orb.size
          then -orb.vx else orb.vx) := by
    simp only [GradientOrb.update, mul_neg, mul_one]
  have hvy : (orb.update sin canvasWidth canvasHeight).vy
      = (if orb.y + orb.vy < -orb.size ∨ orb.y + orb.vy > canvasHeight + orb.size
          then -orb.vy else orb.vy) := by
    simp only [GradientOrb.update, mul_neg, mul_one]
  have hneg : ∀ v : ℚ, -v ≠ v ↔ v ≠ 0 := by
    intro v
    constructor
    · intro h h0; apply h; rw [h0]; norm_num
    · intro h h0; apply h; linarith
  refine ⟨rfl, rfl, hvx, hvy, ?_, ?_⟩
  · rw [hvx]
    by_cases hc : orb.x + orb.vx < -orb.size ∨ orb.x + orb.vx > canvasWidth + orb.size
    · rw [if_pos hc, hneg]
      exact ⟨fun h => ⟨h, hc⟩, fun h => h.1⟩
    · rw [if_neg hc]
      exact ⟨fun h => absurd rfl h, fun h => absurd h.2 hc⟩
  · rw [hvy]
    by_cases hc : orb.y + orb.vy < -orb.size ∨ orb.y + orb.vy > canvasHeight + orb.size
    · rw [if_pos hc, hneg]
      exact ⟨fun h => ⟨h, hc⟩, fun h => h.1⟩
    · rw [if_neg hc]
      exact ⟨fun h => absurd rfl h, fun h => absurd h.2 hc⟩

/-! ## Typing animation -/

theorem type_congr (s t : TypingState) (h : s.position = t.position) : type s = type t := by
  obtain ⟨si, sc, sd, ss, st⟩ := s
  obtain ⟨ti, tc, td, ts, tt⟩ := t
  simp only [TypingState.position, Prod.mk.injEq] at h
  obtain ⟨h1, h2, h3⟩ := h
  subst h1; subst h2; subst h3
  cases sd <;> rfl

theorem iterate_type_congr (n : Nat) (s t : TypingState) (h : s.position = t.position) :
    (type^[n] s).position = (type^[n] t).position := by
  cases n with
  | zero => exact h
  | succ n => rw [Function.iterate_succ_apply, Function.iterate_succ_apply, type_congr s t h]

set_option maxRecDepth 100000 in
theorem type_cycle_concrete :
    type^[19] ⟨0, 1, false, 100, "M"⟩ = ⟨1, 0, false, 500, ""⟩ ∧
      type^[37] ⟨1, 1, false, 100, "F"⟩ = ⟨2, 0, false, 500, ""⟩ ∧
      type^[37] ⟨2, 1, false, 100, "A"⟩ = ⟨3, 0, false, 500, ""⟩ ∧
      type^[27] ⟨3, 1, false, 100, "A"⟩ = ⟨4, 0, false, 500, ""⟩ ∧
      type^[39] ⟨4, 1, false, 100, "F"⟩ = ⟨0, 0, false, 500, ""⟩ := by
  decide

set_option maxRecDepth 100000 in
theorem type_period_concrete :
    type^[163] ⟨0, 1, false, 100, "M"⟩ = ⟨0, 0, false, 500, ""⟩ ∧
      type^[163] ⟨1, 1, false, 100, "F"⟩ = ⟨1, 0, false, 500, ""⟩ ∧
      type^[163] ⟨2, 1, false, 100, "A"⟩ = ⟨2, 0, false, 500, ""⟩ ∧
      type^[163] ⟨3, 1, false, 100, "A"⟩ = ⟨3, 0, false, 500, ""⟩ ∧
      type^[163] ⟨4, 1, false, 100, "F"⟩ = ⟨4, 0, false, 500, ""⟩ := by
  decide

set_option maxRecDepth 100000 in
theorem type_stays_on_text :
    (∀ k < 20, (type^[k] ⟨0, 0, false, 100, ""⟩).textIndex = 0) ∧
      (∀ k < 38, (type^[k] ⟨1, 0, false, 100, ""⟩).textIndex = 1) ∧
      (∀ k < 38, (type^[k] ⟨2, 0, false, 100, ""⟩).textIndex = 2) ∧
      (∀ k < 28, (type^[k] ⟨3, 0, false, 100, ""⟩).textIndex = 3) ∧
      (∀ k < 40, (type^[k] ⟨4, 0, false, 100, ""⟩).textIndex = 4) := by
  decide

theorem type_first (speed : Nat) (text : String) :
    type ⟨0, 0, false, speed, text⟩ = ⟨0, 1, false, 100, "M"⟩ ∧
      type ⟨1, 0, false, speed, text⟩ = ⟨1, 1, false, 100, "F"⟩ ∧
      type ⟨2, 0, false, speed, text⟩ = ⟨2, 1, false, 100, "A"⟩ ∧
      type ⟨3, 0, false, speed, text⟩ = ⟨3, 1, false, 100, "A"⟩ ∧
      type ⟨4, 0, false, speed, text⟩ = ⟨4, 1, false, 100, "F"⟩ :=
  ⟨rfl, rfl, rfl, rfl, rfl⟩

theorem texts_lengths :
    texts.map String.length = [10, 19, 19, 14, 20] := by
  decide

theorem type_cycle_full (i : Nat) (hi : i < 5) (speed : Nat) (text : String) :
    type^[2 * (texts.getD i "").length] ⟨i, 0, false, speed, text⟩
        = ⟨(i + 1) % 5, 0, false, 500, ""⟩ ∧
      type^[164] ⟨i, 0, false, speed, text⟩ = ⟨i, 0, false, 500, ""⟩ := by
  obtain ⟨c0, c1, c2, c3, c4⟩ := type_cycle_concrete
  obtain ⟨p0, p1, p2, p3, p4⟩ := type_period_concrete
  obtain ⟨f0, f1, f2, f3, f4⟩ := type_first speed text
  interval_cases i
  · constructor
    · rw [show 2 * (texts.getD 0 "").length = 19 + 1 by decide]
      rw [Function.iterate_succ_apply, f0]
      exact c0
    · rw [show 164 = 163 + 1 by rfl]
      rw [Function.iterate_succ_apply, f0]
      exact p0
  · constructor
    · rw [show 2 * (texts.getD 1 "").length = 37 + 1 by decide]
      rw [Function.iterate_succ_apply, f1]
      exact c1
    · rw [show 164 = 163 + 1 by rfl]
      rw [Function.iterate_succ_apply, f1]
      exact p1
  · constructor
    · rw [show 2 * (texts.getD 2 "").length = 37 + 1 by decide]
      rw [Function.iterate_succ_apply, f2]
      exact c2
    · rw [show 164 = 163 + 1 by rfl]
      rw [Function.iterate_succ_apply, f2]
      exact p2
  · constructor
    · rw [show 2 * (texts.getD 3 "").length = 27 + 1 by decide]
      rw [Function.iterate_succ_apply, f3]
      exact c3
    · rw [show 164 = 163 + 1 by rfl]
      rw [Function.iterate_succ_apply, f3]
      exact p3
  · constructor
    · rw [show 2 * (texts.getD 4 "").length = 39 + 1 by decide]
      rw [Function.iterate_succ_apply, f4]
      exact c4
    · rw [show 164 = 163 + 1 by rfl]
      rw [Function.iterate_succ_apply, f4]
      exact p4

theorem type_typing (s : TypingState) (hd : s.isDeleting = false) :
    type s =
      if s.charIndex + 1 = ((texts.getD s.textIndex "").length : ℤ) then
        { textIndex := s.textIndex, charIndex := s.charIndex + 1, isDeleting := true,
          typingSpeed := 2000,
          textContent := substringTo (texts.getD s.textIndex "") (s.charIndex + 1) }
      else
        { textIndex := s.textIndex, charIndex := s.charIndex + 1, isDeleting := false,
          typingSpeed := 100,
          textContent := substringTo (texts.getD s.textIndex "") (s.charIndex + 1) } := by
  obtain ⟨ti, c, d, sp, tc⟩ := s
  simp only at hd
  subst hd
  by_cases h : c + 1 = ((texts.getD ti "").length : ℤ)
  · simp [type, h]
  · simp [type, h]

theorem type_deleting (s : TypingState) (hd : s.isDeleting = true) :
    type s =
      if s.charIndex - 1 = 0 then
        { textIndex := (s.textIndex + 1) % 5, charIndex := s.charIndex - 1, isDeleting := false,
          typingSpeed := 500,
          textContent := substringTo (texts.getD s.textIndex "") (s.charIndex - 1) }
      else
        { textIndex := s.textIndex, charIndex := s.charIndex - 1, isDeleting := true,
          typingSpeed := 50,
          textContent := substringTo (texts.getD s.textIndex "") (s.charIndex - 1) } := by
  obtain ⟨ti, c, d, sp, tc⟩ := s
  simp only at hd
  subst hd
  by_cases h : c - 1 = 0
  · simp [type, h, texts]
  · simp [type, h]

theorem text_length_pos (i : Nat) (hi : i < 5) :
    (0 : ℤ) < ((texts.getD i "").length : ℤ) := by
  interval_cases i <;> decide

theorem substringTo_zero (text : String) : substringTo text 0 = "" := by
  simp [substringTo]

theorem type_wellFormed (s : TypingState) (h : s.WellFormed) :
    (type s).WellFormed ∧
      (type s).textContent
        = substringTo (texts.getD (type s).textIndex "") (type s).charIndex := by
  obtain ⟨hti, h⟩ := h
  rcases h with ⟨hd, h0, hL⟩ | ⟨hd, h0, hL⟩
  · rw [type_typing s hd]
    by_cases hend : s.charIndex + 1 = ((texts.getD s.textIndex "").length : ℤ)
    · rw [if_pos hend]
      refine ⟨⟨hti, Or.inr ⟨rfl, ?_, ?_⟩⟩, rfl⟩
      · show 0 < s.charIndex + 1
        omega
      · show s.charIndex + 1 ≤ ((texts.getD s.textIndex "").length : ℤ)
        omega
    · rw [if_neg hend]
      refine ⟨⟨hti, Or.inl ⟨rfl, ?_, ?_⟩⟩, rfl⟩
      · show 0 ≤ s.charIndex + 1
        omega
      · show s.charIndex + 1 < ((texts.getD s.textIndex "").length : ℤ)
        omega
  · rw [type_deleting s hd]
    by_cases hend : s.charIndex - 1 = 0
    · rw [if_pos hend]
      have hnext : (s.textIndex + 1) % 5 < 5 := Nat.mod_lt _ (by decide)
      refine ⟨⟨hnext, Or.inl ⟨rfl, ?_, ?_⟩⟩, ?_⟩
      · show 0 ≤ s.charIndex - 1
        omega
      · show s.charIndex - 1 < ((texts.getD ((s.textIndex + 1) % 5) "").length : ℤ)
        rw [hend]
        exact text_length_pos _ hnext
      · show substringTo _ (s.charIndex - 1) = substringTo _ (s.charIndex - 1)
        rw [hend, substringTo_zero, substringTo_zero]
    · rw [if_neg hend]
      refine ⟨⟨hti, Or.inr ⟨rfl, ?_, ?_⟩⟩, rfl⟩
      · show 0 < s.charIndex - 1
        omega
      · show s.charIndex - 1 ≤ ((texts.getD s.textIndex "").length : ℤ)
        omega

theorem iterate_type_wellFormed (n : Nat) :
    ∀ s : TypingState, s.WellFormed → (type^[n] s).WellFormed := by
  induction n with
  | zero => intro s h; exact h
  | succ n ih =>
    intro s h
    rw [Function.iterate_succ_apply]
    exact ih _ (type_wellFormed s h).1

theorem initial_wellFormed (textContent : String) :
    (TypingState.initial textContent).WellFormed := by
  refine ⟨?_, Or.inl ⟨rfl, ?_, ?_⟩⟩
  · show 0 < 5
    decide
  · show (0 : ℤ) ≤ 0
    decide
  · show (0 : ℤ) < ((texts.getD 0 "").length : ℤ)
    decide

/-- Claim C23: from the state with text index `i`, character index 0 and not
deleting, `2 * len(texts[i])` calls of `type` lead to text index
`(i + 1) mod 5`, character index 0 and not deleting, and no fewer calls leave
text `i`; the lengths of the five texts add up to 82, and the text index,
character index and deleting flag repeat with period 164 calls. -/
theorem typing_cycles_through_texts (i : Nat) (hi : i < 5) (speed : Nat) (text : String)
    (n : Nat) :
    type^[2 * (texts.getD i "").length] ⟨i, 0, false, speed, text⟩
        = ⟨(i + 1) % 5, 0, false, 500, ""⟩ ∧
      (∀ k, k < 2 * (texts.getD i "").length →
        (type^[k] ⟨i, 0, false, speed, text⟩).textIndex = i) ∧
      texts.map String.length = [10, 19, 19, 14, 20] ∧
      (type^[n + 164] ⟨i, 0, false, speed, text⟩).position
        = (type^[n] ⟨i, 0, false, speed, text⟩).position := by
  obtain ⟨hcycle, hperiod⟩ := type_cycle_full i hi speed text
  refine ⟨hcycle, ?_, texts_lengths, ?_⟩
  · intro k hk
    have hpos : (type^[k] ⟨i, 0, false, speed, text⟩).position
        = (type^[k] ⟨i, 0, false, 100, ""⟩).position :=
      iterate_type_congr k _ _ rfl
    have hidx : (type^[k] ⟨i, 0, false, speed, text⟩).textIndex
        = (type^[k] ⟨i, 0, false, 100, ""⟩).textIndex := congrArg Prod.fst hpos
    rw [hidx]
    obtain ⟨s0, s1, s2, s3, s4⟩ := type_stays_on_text
    interval_cases i
    · exact s0 k hk
    · exact s1 k hk
    · exact s2 k hk
    · exact s3 k hk
    · exact s4 k hk
  · rw [Function.iterate_add_apply, hperiod]
    exact iterate_type_congr n _ _ rfl

/-- Claim C23 from the initial state of the page: ten letters typed and deleted
in 20 calls. -/
theorem typing_cycles_through_texts_witness :
    type^[2 * (texts.getD 0 "").length] ⟨0, 0, false, 100, "placeholder"⟩
      = ⟨(0 + 1) % 5, 0, false, 500, ""⟩ :=
  (typing_cycles_through_texts 0 (by decide) 100 "placeholder" 0).1

/-- Claim C24: in every state reached by calls of `type` from the initial
state, the text index is below 5 and the character index is between 0 and
the length of the current text, and after every call the displayed text is
the prefix of the current text whose length is the character index. -/
theorem typing_invariant (textContent : String) (n : Nat) :
    (type^[n] (TypingState.initial textContent)).textIndex < 5 ∧
      0 ≤ (type^[n] (TypingState.initial textContent)).charIndex ∧
      (type^[n] (TypingState.initial textContent)).charIndex
        ≤ ((texts.getD (type^[n] (TypingState.initial textContent)).textIndex "").length : ℤ) ∧
      (type^[n + 1] (TypingState.initial textContent)).textContent
        = substringTo
            (texts.getD (type^[n + 1] (TypingState.initial textContent)).textIndex "")
            (type^[n + 1] (TypingState.initial textContent)).charIndex := by
  have hwf := iterate_type_wellFormed n _ (initial_wellFormed textContent)
  have htext := (type_wellFormed _ hwf).2
  rw [← Function.iterate_succ_apply' type n] at htext
  obtain ⟨hti, h⟩ := hwf
  refine ⟨hti, ?_, ?_, htext⟩
  · rcases h with ⟨_, h0, _⟩ | ⟨_, h0, _⟩ <;> omega
  · rcases h with ⟨_, _, hL⟩ | ⟨_, _, hL⟩ <;> omega

/-! ## Connecting the particles -/

theorem flatten_map_singleton {α β : Type} (f : α → β) (l : List α) :
    (l.map (fun a => [f a])).flatten = l.map f := by
  induction l with
  | nil => rfl
  | cons a rest ih => simp [ih]

theorem flatten_map_guard {α β : Type} (p : α → Bool) (f : α → β) (l : List α) :
    (l.map (fun a => if p a then [f a] else [])).flatten = (l.filter p).map f := by
  induction l with
  | nil => rfl
  | cons a rest ih =>
    by_cases h : p a = true <;> simp [h, ih]

theorem filter_flatten_lists {α : Type} (p : α → Bool) (L : List (List α)) :
    L.flatten.filter p = (L.map (List.filter p)).flatten := by
  induction L with
  | nil => rfl
  | cons l rest ih => simp [ih]

theorem pairChecks_rows (n : Nat) :
    pairChecks n = ((List.range n).map
      (fun i => (List.range' (i + 1) (n - (i + 1))).map (fun j => (i, j)))).flatten := by
  simp only [pairChecks, forPairs, flatten_map_singleton]

theorem mem_pairChecks (n i j : Nat) : (i, j) ∈ pairChecks n ↔ i < j ∧ j < n := by
  rw [pairChecks_rows]
  simp only [List.mem_flatten, List.mem_map, List.mem_range, List.mem_range'_1]
  constructor
  · rintro ⟨row, ⟨i', hi', rfl⟩, hmem⟩
    simp only [List.mem_map, List.mem_range'_1, Prod.mk.injEq] at hmem
    obtain ⟨j', ⟨h1, h2⟩, rfl, rfl⟩ := hmem
    omega
  · rintro ⟨hij, hjn⟩
    refine ⟨_, ⟨i, by omega, rfl⟩, ?_⟩
    exact List.mem_map.mpr ⟨j, List.mem_range'_1.mpr ⟨by omega, by omega⟩, rfl⟩

theorem sum_row_lengths (n : Nat) :
    ∀ k, k ≤ n →
      2 * ((List.range k).map (fun i => n - (i + 1))).sum + k * (k + 1) = 2 * k * n := by
  intro k
  induction k with
  | zero => intro _; simp
  | succ k ih =>
    intro hk
    have h := ih (by omega)
    simp only [List.range_succ, List.map_append, List.map_cons, List.map_nil, List.sum_append,
      List.sum_cons, List.sum_nil]
    have hsub : n - (k + 1) + (k + 1) = n := by omega
    nlinarith [hsub]

theorem pairChecks_length (n : Nat) : (pairChecks n).length = n * (n - 1) / 2 := by
  rw [pairChecks_rows, List.length_flatten]
  simp only [List.map_map, Function.comp_def, List.length_map, List.length_range']
  have h := sum_row_lengths n n (le_refl n)
  have hmul : n * (n - 1) = 2 * ((List.range n).map (fun i => n - (i + 1))).sum := by
    cases n with
    | zero => simp
    | succ m =>
      simp only [Nat.add_sub_cancel]
      nlinarith [h]
  rw [hmul]
  omega

theorem pairChecks_nodup (n : Nat) : (pairChecks n).Nodup := by
  rw [pairChecks_rows]
  unfold List.Nodup
  rw [List.pairwise_flatten]
  constructor
  · intro row hrow
    simp only [List.mem_map, List.mem_range] at hrow
    obtain ⟨i, _, rfl⟩ := hrow
    have : ((List.range' (i + 1) (n - (i + 1))).map (fun j => (i, j))).Nodup :=
      (List.nodup_range' _ _).map (fun a b h => by simpa using h)
    exact this
  · rw [List.pairwise_map]
    refine (List.pairwise_lt_range n).imp ?_
    intro a b hab x hx y hy
    simp only [List.mem_map] at hx hy
    obtain ⟨_, _, rfl⟩ := hx
    obtain ⟨_, _, rfl⟩ := hy
    intro h
    simp only [Prod.mk.injEq] at h
    omega

/-! ## Square roots and the reach of a particle in double arithmetic -/

/-- The result of `sqrtDouble` on a positive number: with `h` half the exponent
and `b` the integer part of the root in units of the spacing `2 ^ (h - 52)`,
the result is `b` or `b + 1` units, whichever is nearer to the root. -/
theorem sqrtDouble_spec (s : ℚ) (hs : 0 < s) :
    ∃ (h : ℤ) (b : ℕ),
      (2 : ℚ) ^ (h - 52) * 2 ^ 52 * ((2 : ℚ) ^ (h - 52) * 2 ^ 52) ≤ s ∧
        s < (2 : ℚ) ^ (h - 52) * 2 ^ 53 * ((2 : ℚ) ^ (h - 52) * 2 ^ 53) ∧
        2 ^ 52 ≤ b ∧ b < 2 ^ 53 ∧
        (b : ℚ) * b ≤ s / ((2 : ℚ) ^ (h - 52) * 2 ^ (h - 52)) ∧
        s / ((2 : ℚ) ^ (h - 52) * 2 ^ (h - 52)) < ((b : ℚ) + 1) * (b + 1) ∧
        ((s / ((2 : ℚ) ^ (h - 52) * 2 ^ (h - 52)) < (b : ℚ) * b + b + 1 / 4 ∧
            sqrtDouble s = b * 2 ^ (h - 52)) ∨
          ((b : ℚ) * b + b + 1 / 4 < s / ((2 : ℚ) ^ (h - 52) * 2 ^ (h - 52)) ∧
            sqrtDouble s = (b + 1) * 2 ^ (h - 52)) ∨
          (s / ((2 : ℚ) ^ (h - 52) * 2 ^ (h - 52)) = (b : ℚ) * b + b + 1 / 4 ∧
            ((b % 2 = 0 ∧ sqrtDouble s = b * 2 ^ (h - 52)) ∨
              (b % 2 = 1 ∧ sqrtDouble s = (b + 1) * 2 ^ (h - 52))))) := by
  obtain ⟨hlo, hhi⟩ := log_bounds s hs
  set e := Int.log 2 s with he
  set P : ℚ := (2 : ℚ) ^ (e / 2 - 52) with hP
  have hPpos : 0 < P := by positivity
  have h2 : 2 * (e / 2) ≤ e ∧ e ≤ 2 * (e / 2) + 1 := by omega
  have hpow : (2 : ℚ) ^ (e / 2) = P * 2 ^ 52 := by
    rw [hP, zpow_sub₀ (by norm_num : (2 : ℚ) ≠ 0)]
    have : (2 : ℚ) ^ (52 : ℤ) = 2 ^ 52 := by norm_cast
    rw [this]
    field_simp
  have hlow : P * 2 ^ 52 * (P * 2 ^ 52) ≤ s := by
    rw [← hpow, ← zpow_add₀ (by norm_num : (2 : ℚ) ≠ 0)]
    exact le_trans (zpow_le_zpow_right₀ (by norm_num) (by omega)) hlo
  have hhigh : s < P * 2 ^ 53 * (P * 2 ^ 53) := by
    have e1 : P * 2 ^ 53 * (P * 2 ^ 53) = (2 : ℚ) ^ (e / 2 + e / 2 + 2) := by
      rw [zpow_add₀ (by norm_num : (2 : ℚ) ≠ 0), zpow_add₀ (by norm_num : (2 : ℚ) ≠ 0), hpow]
      norm_num
      ring
    rw [e1]
    exact lt_of_lt_of_le hhi (zpow_le_zpow_right₀ (by norm_num) (by omega))
  set scaled : ℚ := s / (P * P) with hscaled
  have hPP : 0 < P * P := by positivity
  have hs1 : (2 : ℚ) ^ 104 ≤ scaled := by
    rw [hscaled, le_div_iff₀ hPP]
    calc (2 : ℚ) ^ 104 * (P * P) = P * 2 ^ 52 * (P * 2 ^ 52) := by ring
      _ ≤ s := hlow
  have hs2 : scaled < (2 : ℚ) ^ 106 := by
    rw [hscaled, div_lt_iff₀ hPP]
    calc s < P * 2 ^ 53 * (P * 2 ^ 53) := hhigh
      _ = (2 : ℚ) ^ 106 * (P * P) := by ring
  have hs0 : 0 ≤ scaled := le_trans (by positivity) hs1
  have hn1 : ((⌊scaled⌋₊ : ℕ) : ℚ) ≤ scaled := Nat.floor_le hs0
  have hn2 : scaled < ((⌊scaled⌋₊ : ℕ) : ℚ) + 1 := Nat.lt_floor_add_one scaled
  set b := Nat.sqrt ⌊scaled⌋₊ with hb
  have hb1 : b * b ≤ ⌊scaled⌋₊ := Nat.sqrt_le _
  have hb2 : ⌊scaled⌋₊ < (b + 1) * (b + 1) := Nat.lt_succ_sqrt _
  have hb1q : (b : ℚ) * b ≤ scaled := by
    have : ((b * b : ℕ) : ℚ) ≤ ((⌊scaled⌋₊ : ℕ) : ℚ) := by exact_mod_cast hb1
    push_cast at this
    linarith
  have hb2q : scaled < ((b : ℚ) + 1) * (b + 1) := by
    have : ((⌊scaled⌋₊ + 1 : ℕ) : ℚ) ≤ (((b + 1) * (b + 1) : ℕ) : ℚ) := by
      exact_mod_cast hb2
    push_cast at this
    linarith
  have hb52 : 2 ^ 52 ≤ b := by
    by_contra hcon
    have h1 : b + 1 ≤ 2 ^ 52 := by omega
    have h3 : (b + 1) * (b + 1) ≤ 2 ^ 52 * 2 ^ 52 := Nat.mul_le_mul h1 h1
    have h4 : (((b + 1) * (b + 1) : ℕ) : ℚ) ≤ ((2 ^ 52 * 2 ^ 52 : ℕ) : ℚ) := by
      exact_mod_cast h3
    push_cast at h4
    have h5 : (2 : ℚ) ^ 52 * 2 ^ 52 = 2 ^ 104 := by norm_num
    linarith
  have hb53 : b < 2 ^ 53 := by
    by_contra hcon
    have h1 : 2 ^ 53 ≤ b := by omega
    have h3 : 2 ^ 53 * 2 ^ 53 ≤ b * b := Nat.mul_le_mul h1 h1
    have h4 : ((2 ^ 53 * 2 ^ 53 : ℕ) : ℚ) ≤ ((b * b : ℕ) : ℚ) := by exact_mod_cast h3
    push_cast at h4
    have h5 : (2 : ℚ) ^ 53 * 2 ^ 53 = 2 ^ 106 := by norm_num
    linarith
  refine ⟨e / 2, b, hlow, hhigh, hb52, hb53, hb1q, hb2q, ?_⟩
  have hval : sqrtDouble s =
      if scaled < (b : ℚ) * b + b + 1 / 4 then (b : ℚ) * P
      else if (b : ℚ) * b + b + 1 / 4 < scaled then ((b : ℚ) + 1) * P
      else if b % 2 = 0 then (b : ℚ) * P
      else ((b : ℚ) + 1) * P := by
    unfold sqrtDouble
    rw [if_neg (not_le.mpr hs)]
  rw [hval]
  by_cases c1 : scaled < (b : ℚ) * b + b + 1 / 4
  · left
    exact ⟨c1, by rw [if_pos c1]⟩
  · right
    by_cases c2 : (b : ℚ) * b + b + 1 / 4 < scaled
    · left
      exact ⟨c2, by rw [if_neg c1, if_pos c2]⟩
    · right
      refine ⟨le_antisymm (not_lt.mp c2) (not_lt.mp c1), ?_⟩
      by_cases c3 : b % 2 = 0
      · left
        exact ⟨c3, by rw [if_neg c1, if_neg c2, if_pos c3]⟩
      · right
        exact ⟨by omega, by rw [if_neg c1, if_neg c2, if_neg c3]⟩
/-- The square root computed in double arithmetic is below `120` exactly for
the arguments below `(120 - 2 ^ (-47)) ^ 2`, the square of the middle
between `120` and the double before it. -/
theorem sqrtDouble_lt_maxDistance (s : ℚ) :
    sqrtDouble s < 120 ↔ s < (120 - 1 / 2 ^ 47) * (120 - 1 / 2 ^ 47) := by
  by_cases hs : s ≤ 0
  · have h1 : sqrtDouble s = 0 := by unfold sqrtDouble; rw [if_pos hs]
    rw [h1]
    constructor
    · intro _
      have : (0 : ℚ) < (120 - 1 / 2 ^ 47) * (120 - 1 / 2 ^ 47) := by norm_num
      linarith
    · intro _; norm_num
  · have hpos : 0 < s := not_le.mp hs
    obtain ⟨h, b, hlow, hhigh, hb52, hb53, hb1, hb2, hcases⟩ := sqrtDouble_spec s hpos
    have hb52q : (2 : ℚ) ^ 52 ≤ b := by exact_mod_cast hb52
    have hb53q : (b : ℚ) + 1 ≤ 2 ^ 53 := by
      have : b + 1 ≤ 2 ^ 53 := by omega
      exact_mod_cast this
    have hPpos : (0 : ℚ) < 2 ^ (h - 52) := by positivity
    have hr : (b : ℚ) * 2 ^ (h - 52) ≤ sqrtDouble s ∧
        sqrtDouble s ≤ ((b : ℚ) + 1) * 2 ^ (h - 52) := by
      rcases hcases with ⟨_, hv⟩ | ⟨_, hv⟩ | ⟨_, ⟨_, hv⟩ | ⟨_, hv⟩⟩ <;> rw [hv] <;>
        constructor <;> nlinarith
    rcases lt_trichotomy h 6 with hlt | heq | hgt
    · -- the root is below 64
      have hP : (2 : ℚ) ^ (h - 52) ≤ 1 / 2 ^ 47 := by
        have : (2 : ℚ) ^ (h - 52) ≤ 2 ^ (-47 : ℤ) :=
          zpow_le_zpow_right₀ (by norm_num) (by omega)
        have e : (2 : ℚ) ^ (-47 : ℤ) = 1 / 2 ^ 47 := by norm_num
        exact le_of_le_of_eq this e
      have h64 : (2 : ℚ) ^ (h - 52) * 2 ^ 53 ≤ 64 := by
        calc (2 : ℚ) ^ (h - 52) * 2 ^ 53 ≤ 1 / 2 ^ 47 * 2 ^ 53 :=
              mul_le_mul_of_nonneg_right hP (by positivity)
          _ = 64 := by norm_num
      have hroot : sqrtDouble s ≤ 64 := by
        calc sqrtDouble s ≤ ((b : ℚ) + 1) * 2 ^ (h - 52) := hr.2
          _ ≤ 2 ^ 53 * 2 ^ (h - 52) := mul_le_mul_of_nonneg_right hb53q hPpos.le
          _ = 2 ^ (h - 52) * 2 ^ 53 := by ring
          _ ≤ 64 := h64
      have hs64 : s < 64 * 64 := by
        calc s < (2 : ℚ) ^ (h - 52) * 2 ^ 53 * ((2 : ℚ) ^ (h - 52) * 2 ^ 53) := hhigh
          _ ≤ 64 * 64 := mul_le_mul h64 h64 (by positivity) (by norm_num)
      constructor
      · intro _
        have : (64 : ℚ) * 64 < (120 - 1 / 2 ^ 47) * (120 - 1 / 2 ^ 47) := by norm_num
        linarith
      · intro _; linarith
    · -- the root is between 64 and 128
      subst heq
      have hP : (2 : ℚ) ^ ((6 : ℤ) - 52) = 1 / 2 ^ 46 := by norm_num
      rw [hP] at hb1 hb2 hcases hr
      have hscaled : s / (1 / 2 ^ 46 * (1 / 2 ^ 46)) = s * 2 ^ 92 := by
        rw [div_eq_iff (by norm_num)]
        ring
      rw [hscaled] at hb1 hb2 hcases
      have hiff : s < (120 - 1 / 2 ^ 47) * (120 - 1 / 2 ^ 47) ↔
          s * 2 ^ 92 < 8444249301319680 * 8444249301319680 - 8444249301319680 + 1 / 4 := by
        have hC : (120 - 1 / 2 ^ 47) * (120 - 1 / 2 ^ 47) * (2 : ℚ) ^ 92
            = 8444249301319680 * 8444249301319680 - 8444249301319680 + 1 / 4 := by norm_num
        rw [← hC]
        constructor
        · intro hh
          exact mul_lt_mul_of_pos_right hh (by positivity)
        · intro hh
          exact lt_of_mul_lt_mul_right hh (by positivity)
      rw [hiff]
      constructor
      · -- a root below 120 comes from a small argument
        intro hroot
        by_contra hcon
        have hge : (8444249301319680 : ℚ) * 8444249301319680 - 8444249301319680 + 1 / 4
            ≤ s * 2 ^ 92 := not_lt.mp hcon
        have hbM : 8444249301319680 - 1 ≤ b := by
          by_contra hb
          have hb' : b + 1 ≤ 8444249301319680 - 1 := by omega
          have hbq : (b : ℚ) + 1 ≤ 8444249301319679 := by exact_mod_cast hb'
          have : ((b : ℚ) + 1) * (b + 1) ≤ 8444249301319679 * 8444249301319679 :=
            mul_le_mul hbq hbq (by positivity) (by norm_num)
          have e : (8444249301319679 : ℚ) * 8444249301319679
              < 8444249301319680 * 8444249301319680 - 8444249301319680 + 1 / 4 := by norm_num
          linarith
        rcases hcases with ⟨hc, hv⟩ | ⟨hc, hv⟩ | ⟨hc, ⟨hpar, hv⟩ | ⟨hpar, hv⟩⟩
        · -- rounded down
          rw [hv] at hroot
          have hbq : (b : ℚ) < 8444249301319680 := by
            have e : (120 : ℚ) = 8444249301319680 * (1 / 2 ^ 46) := by norm_num
            rw [e] at hroot
            exact lt_of_mul_lt_mul_right hroot (by positivity)
          have hbn : b < 8444249301319680 := by exact_mod_cast hbq
          have hbeq : b = 8444249301319679 := by omega
          subst hbeq
          norm_num at hc
          linarith
        · rw [hv] at hroot
          have hbq : (b : ℚ) + 1 < 8444249301319680 := by
            have e : (120 : ℚ) = 8444249301319680 * (1 / 2 ^ 46) := by norm_num
            rw [e] at hroot
            exact lt_of_mul_lt_mul_right hroot (by positivity)
          have hbn : b + 1 < 8444249301319680 := by exact_mod_cast hbq
          omega
        · rw [hv] at hroot
          have hbq : (b : ℚ) < 8444249301319680 := by
            have e : (120 : ℚ) = 8444249301319680 * (1 / 2 ^ 46) := by norm_num
            rw [e] at hroot
            exact lt_of_mul_lt_mul_right hroot (by positivity)
          have hbn : b < 8444249301319680 := by exact_mod_cast hbq
          omega
        · rw [hv] at hroot
          have hbq : (b : ℚ) + 1 < 8444249301319680 := by
            have e : (120 : ℚ) = 8444249301319680 * (1 / 2 ^ 46) := by norm_num
            rw [e] at hroot
            exact lt_of_mul_lt_mul_right hroot (by positivity)
          have hbn : b + 1 < 8444249301319680 := by exact_mod_cast hbq
          omega
      · -- a small argument gives a root below 120
        intro hsmall
        have hbM : b < 8444249301319680 := by
          by_contra hb
          have hb' : 8444249301319680 ≤ b := by omega
          have hbq : (8444249301319680 : ℚ) ≤ b := by exact_mod_cast hb'
          have : (8444249301319680 : ℚ) * 8444249301319680 ≤ (b : ℚ) * b :=
            mul_le_mul hbq hbq (by norm_num) (by positivity)
          linarith
        have hstep : ∀ m : ℕ, m + 1 ≤ 8444249301319680 - 1 + 1 → m < 8444249301319680 →
            (m : ℚ) * (1 / 2 ^ 46) < 120 := by
          intro m _ hm
          have hmq : (m : ℚ) < 8444249301319680 := by exact_mod_cast hm
          have e : (120 : ℚ) = 8444249301319680 * (1 / 2 ^ 46) := by norm_num
          rw [e]
          exact mul_lt_mul_of_pos_right hmq (by positivity)
        rcases hcases with ⟨hc, hv⟩ | ⟨hc, hv⟩ | ⟨hc, ⟨hpar, hv⟩ | ⟨hpar, hv⟩⟩
        · rw [hv]
          exact hstep b (by omega) hbM
        · rw [hv]
          have hne : b ≠ 8444249301319679 := by
            rintro rfl
            norm_num at hc
            linarith
          have := hstep (b + 1) (by omega) (by omega)
          push_cast at this
          exact this
        · rw [hv]
          exact hstep b (by omega) hbM
        · rw [hv]
          have hne : b ≠ 8444249301319679 := by
            rintro rfl
            norm_num at hc
            linarith
          have := hstep (b + 1) (by omega) (by omega)
          push_cast at this
          exact this
    · -- the root is at least 128
      have hP : 1 / 2 ^ 45 ≤ (2 : ℚ) ^ (h - 52) := by
        have : (2 : ℚ) ^ (-45 : ℤ) ≤ 2 ^ (h - 52) :=
          zpow_le_zpow_right₀ (by norm_num) (by omega)
        have e : (2 : ℚ) ^ (-45 : ℤ) = 1 / 2 ^ 45 := by norm_num
        exact le_of_eq_of_le e.symm this
      have h128 : 128 ≤ (2 : ℚ) ^ (h - 52) * 2 ^ 52 := by
        calc (128 : ℚ) = 1 / 2 ^ 45 * 2 ^ 52 := by norm_num
          _ ≤ (2 : ℚ) ^ (h - 52) * 2 ^ 52 := mul_le_mul_of_nonneg_right hP (by positivity)
      have hroot : 128 ≤ sqrtDouble s := by
        calc (128 : ℚ) ≤ (2 : ℚ) ^ (h - 52) * 2 ^ 52 := h128
          _ = 2 ^ 52 * 2 ^ (h - 52) := by ring
          _ ≤ (b : ℚ) * 2 ^ (h - 52) := mul_le_mul_of_nonneg_right hb52q hPpos.le
          _ ≤ sqrtDouble s := hr.1
      have hs128 : 128 * 128 ≤ s := by
        calc (128 : ℚ) * 128
            ≤ (2 : ℚ) ^ (h - 52) * 2 ^ 52 * ((2 : ℚ) ^ (h - 52) * 2 ^ 52) :=
              mul_le_mul h128 h128 (by norm_num) (by positivity)
          _ ≤ s := hlow
      constructor
      · intro hh; linarith
      · intro hh
        have : (120 - 1 / 2 ^ 47) * (120 - 1 / 2 ^ 47) < (128 : ℚ) * 128 := by norm_num
        linarith
/-- The spacing of the doubles below `2 ^ (k + 1)` is at most `2 ^ (k - 52)`. -/
theorem ulp_le_zpow (x : ℚ) (k : ℤ) (hk : 0 ≤ k) (hx : |x| < 2 ^ (k + 1)) :
    ulp x ≤ 2 ^ (k - 52) := by
  have hlog : Int.log 2 |x| ≤ k := by
    rcases eq_or_lt_of_le (abs_nonneg x) with h0 | hpos
    · rw [← h0, Int.log_zero_right]
      exact hk
    · have : Int.log 2 |x| < k + 1 :=
        (Int.lt_zpow_iff_log_lt (by norm_num) hpos).mp (by exact_mod_cast hx)
      omega
  unfold ulp
  exact zpow_le_zpow_right₀ (by norm_num) (by
    have : max (Int.log 2 |x|) (-1022) ≤ k := max_le hlog (by omega)
    omega)

/-- Rounding a number of magnitude below `16384` moves it by at most `2 ^ (-40)`. -/
theorem roundDouble_close (x : ℚ) (hx : |x| < 16384) : |roundDouble x - x| ≤ 1 / 2 ^ 40 := by
  have h1 := roundDouble_sub_le x
  have h2 : ulp x ≤ 2 ^ ((13 : ℤ) - 52) :=
    ulp_le_zpow x 13 (by norm_num) (by norm_num; exact hx)
  have e : (2 : ℚ) ^ ((13 : ℤ) - 52) = 1 / 2 ^ 39 := by norm_num
  rw [e] at h2
  have e2 : (1 : ℚ) / 2 ^ 39 / 2 = 1 / 2 ^ 40 := by norm_num
  linarith

/-- The computed square of a computed difference of magnitude at most `120`
exceeds the exact square by at most `2 ^ (-30)`. -/
theorem square_upper (a : ℚ) (ha : |a| ≤ 120) :
    roundDouble (roundDouble a * roundDouble a) ≤ a * a + 1 / 2 ^ 30 := by
  have h1 := roundDouble_close a (by linarith)
  rw [abs_le] at h1 ha
  obtain ⟨h1a, h1b⟩ := h1
  obtain ⟨ha1, ha2⟩ := ha
  have hsq : roundDouble a * roundDouble a ≤ a * a + 1 / 2 ^ 31 := by
    have hd : (1 : ℚ) / 2 ^ 40 = 1 / 1099511627776 := by norm_num
    rw [hd] at h1a h1b
    nlinarith [mul_nonneg (sub_nonneg.mpr h1b) (sub_nonneg.mpr h1b),
      mul_self_nonneg (roundDouble a - a)]
  have hnn : 0 ≤ roundDouble a * roundDouble a := mul_self_nonneg _
  have hbound : a * a ≤ 14400 := by nlinarith
  have hlt : |roundDouble a * roundDouble a| < 16384 := by
    rw [abs_of_nonneg hnn]
    have : (1 : ℚ) / 2 ^ 31 < 1 := by norm_num
    linarith
  have h2 := roundDouble_close _ hlt
  rw [abs_le] at h2
  have e : (1 : ℚ) / 2 ^ 31 + 1 / 2 ^ 40 ≤ 1 / 2 ^ 30 := by norm_num
  linarith

/-- The computed square of a computed difference is at least the exact square
less three parts in `2 ^ 53`, up to a term below the smallest double. -/
theorem square_lower (a : ℚ) :
    a * a * (1 - 1 / 2 ^ 51) - 1 / 2 ^ 1000 ≤ roundDouble (roundDouble a * roundDouble a) := by
  have hnn : 0 ≤ roundDouble (roundDouble a * roundDouble a) :=
    roundDouble_nonneg _ (mul_self_nonneg _)
  rcases lt_or_le |a| (1 / 2 ^ 500) with hsmall | hbig
  · have h0 := abs_nonneg a
    have hsq : a * a < 1 / 2 ^ 1000 := by
      have : a * a = |a| * |a| := (abs_mul_abs_self a).symm
      rw [this]
      have e : (1 : ℚ) / 2 ^ 1000 = 1 / 2 ^ 500 * (1 / 2 ^ 500) := by norm_num
      rw [e]
      exact mul_lt_mul'' hsmall hsmall h0 h0
    have h1 : a * a * (1 - 1 / 2 ^ 51) ≤ a * a := by
      have : 0 ≤ a * a := mul_self_nonneg a
      nlinarith
    linarith
  · have hnormal : (2 : ℚ) ^ (-1022 : ℤ) ≤ |a| := by
      have : (2 : ℚ) ^ (-1022 : ℤ) ≤ 2 ^ (-500 : ℤ) :=
        zpow_le_zpow_right₀ (by norm_num) (by norm_num)
      have e : (2 : ℚ) ^ (-500 : ℤ) = 1 / 2 ^ 500 := by norm_num
      exact le_trans (le_of_le_of_eq this e) hbig
    have h1 := roundDouble_error a hnormal
    have habs : |a| - |a| / 2 ^ 53 ≤ |roundDouble a| := by
      have := abs_sub_abs_le_abs_sub a (roundDouble a)
      rw [abs_sub_comm] at this
      linarith
    have hpos : 0 ≤ |a| - |a| / 2 ^ 53 := by
      have : |a| / 2 ^ 53 ≤ |a| := div_le_self (abs_nonneg a) (by norm_num)
      linarith
    have hsq : (|a| - |a| / 2 ^ 53) * (|a| - |a| / 2 ^ 53)
        ≤ roundDouble a * roundDouble a := by
      rw [← abs_mul_abs_self (roundDouble a)]
      exact mul_le_mul habs habs hpos (abs_nonneg _)
    have hfac : (|a| - |a| / 2 ^ 53) * (|a| - |a| / 2 ^ 53)
        = a * a * ((1 - 1 / 2 ^ 53) * (1 - 1 / 2 ^ 53)) := by
      rw [← abs_mul_abs_self a]
      ring
    rw [hfac] at hsq
    have haa : (1 : ℚ) / 2 ^ 1000 ≤ a * a := by
      rw [← abs_mul_abs_self a]
      have e : (1 : ℚ) / 2 ^ 1000 = 1 / 2 ^ 500 * (1 / 2 ^ 500) := by norm_num
      rw [e]
      exact mul_le_mul hbig hbig (by positivity) (abs_nonneg _)
    have hprod : (1 : ℚ) / 2 ^ 1001 ≤ roundDouble a * roundDouble a := by
      have e : (1 : ℚ) / 2 ^ 1001 ≤ 1 / 2 ^ 1000 * ((1 - 1 / 2 ^ 53) * (1 - 1 / 2 ^ 53)) := by
        norm_num
      have : (1 : ℚ) / 2 ^ 1000 * ((1 - 1 / 2 ^ 53) * (1 - 1 / 2 ^ 53))
          ≤ a * a * ((1 - 1 / 2 ^ 53) * (1 - 1 / 2 ^ 53)) :=
        mul_le_mul_of_nonneg_right haa (by norm_num)
      linarith
    have hnormal2 : (2 : ℚ) ^ (-1022 : ℤ) ≤ |roundDouble a * roundDouble a| := by
      rw [abs_of_nonneg (mul_self_nonneg _)]
      have : (2 : ℚ) ^ (-1022 : ℤ) ≤ 2 ^ (-1001 : ℤ) :=
        zpow_le_zpow_right₀ (by norm_num) (by norm_num)
      have e : (2 : ℚ) ^ (-1001 : ℤ) = 1 / 2 ^ 1001 := by norm_num
      exact le_trans (le_of_le_of_eq this e) hprod
    have h2 := roundDouble_error _ hnormal2
    rw [abs_of_nonneg (mul_self_nonneg (roundDouble a)), abs_le] at h2
    have h3 : roundDouble a * roundDouble a * (1 - 1 / 2 ^ 53)
        ≤ roundDouble (roundDouble a * roundDouble a) := by
      have : roundDouble a * roundDouble a * (1 - 1 / 2 ^ 53)
          = roundDouble a * roundDouble a - roundDouble a * roundDouble a / 2 ^ 53 := by ring
      linarith
    have h4 : a * a * ((1 - 1 / 2 ^ 53) * (1 - 1 / 2 ^ 53)) * (1 - 1 / 2 ^ 53)
        ≤ roundDouble a * roundDouble a * (1 - 1 / 2 ^ 53) :=
      mul_le_mul_of_nonneg_right hsq (by norm_num)
    have h5 : a * a * (1 - 1 / 2 ^ 51)
        ≤ a * a * ((1 - 1 / 2 ^ 53) * (1 - 1 / 2 ^ 53)) * (1 - 1 / 2 ^ 53) := by
      have e : a * a * ((1 - 1 / 2 ^ 53) * (1 - 1 / 2 ^ 53)) * (1 - 1 / 2 ^ 53)
          = a * a * ((1 - 1 / 2 ^ 53) * (1 - 1 / 2 ^ 53) * (1 - 1 / 2 ^ 53)) := by ring
      rw [e]
      exact mul_le_mul_of_nonneg_left (by norm_num) (mul_self_nonneg a)
    have : (0 : ℚ) ≤ 1 / 2 ^ 1000 := by positivity
    linarith

/-- A pair whose exact squared distance is at most `14400 - 2 ^ (-20)` has a
computed sum below `14400`. -/
theorem computed_sum_below (a b : ℚ) (h : a * a + b * b ≤ 14400 - 1 / 2 ^ 20) :
    roundDouble (roundDouble (roundDouble a * roundDouble a)
      + roundDouble (roundDouble b * roundDouble b)) < 14400 := by
  have haa := mul_self_nonneg a
  have hbb := mul_self_nonneg b
  have hpos : (0 : ℚ) < 1 / 2 ^ 20 := by positivity
  have ha : |a| ≤ 120 := by
    rw [abs_le]
    constructor <;> nlinarith
  have hb : |b| ≤ 120 := by
    rw [abs_le]
    constructor <;> nlinarith
  have h1 := square_upper a ha
  have h2 := square_upper b hb
  have hA := roundDouble_nonneg _ (mul_self_nonneg (roundDouble a))
  have hB := roundDouble_nonneg _ (mul_self_nonneg (roundDouble b))
  have hsum : |roundDouble (roundDouble a * roundDouble a)
      + roundDouble (roundDouble b * roundDouble b)| < 16384 := by
    rw [abs_of_nonneg (add_nonneg hA hB)]
    have : (1 : ℚ) / 2 ^ 30 < 1 := by norm_num
    linarith
  have h3 := roundDouble_close _ hsum
  rw [abs_le] at h3
  have e : (1 : ℚ) / 2 ^ 30 + 1 / 2 ^ 30 + 1 / 2 ^ 40 < 1 / 2 ^ 20 := by norm_num
  linarith

/-- A pair whose exact squared distance is at least `14400 + 2 ^ (-20)` has a
computed sum of at least `14400`. -/
theorem computed_sum_above (a b : ℚ) (h : 14400 + 1 / 2 ^ 20 ≤ a * a + b * b) :
    14400 ≤ roundDouble (roundDouble (roundDouble a * roundDouble a)
      + roundDouble (roundDouble b * roundDouble b)) := by
  have h1 := square_lower a
  have h2 := square_lower b
  have hlow : 14400 + 1 / 2 ^ 21
      ≤ roundDouble (roundDouble a * roundDouble a)
        + roundDouble (roundDouble b * roundDouble b) := by
    have e1 : (14400 + 1 / 2 ^ 20) * (1 - 1 / 2 ^ 51) ≤ (a * a + b * b) * (1 - 1 / 2 ^ 51) :=
      mul_le_mul_of_nonneg_right h (by norm_num)
    have e2 : (14400 : ℚ) + 1 / 2 ^ 21 + 2 * (1 / 2 ^ 1000)
        ≤ (14400 + 1 / 2 ^ 20) * (1 - 1 / 2 ^ 51) := by norm_num
    linarith
  have h3 := (roundDouble_near
    (roundDouble (roundDouble a * roundDouble a) + roundDouble (roundDouble b * roundDouble b))
    (by linarith)).1
  have hmono : (14400 + 1 / 2 ^ 21) * (1 - 1 / 2 ^ 53)
      ≤ (roundDouble (roundDouble a * roundDouble a)
        + roundDouble (roundDouble b * roundDouble b)) * (1 - 1 / 2 ^ 53) :=
    mul_le_mul_of_nonneg_right hlow (by norm_num)
  have e3 : (14400 : ℚ) ≤ (14400 + 1 / 2 ^ 21) * (1 - 1 / 2 ^ 53) := by norm_num
  have e4 : (roundDouble (roundDouble a * roundDouble a)
        + roundDouble (roundDouble b * roundDouble b)) * (1 - 1 / 2 ^ 53)
      = (roundDouble (roundDouble a * roundDouble a)
        + roundDouble (roundDouble b * roundDouble b))
        - (roundDouble (roundDouble a * roundDouble a)
        + roundDouble (roundDouble b * roundDouble b)) / 2 ^ 53 := by ring
  linarith
/-- The doubles below `14400` end at `14400 - 2 ^ (-39)`. -/
theorem roundDouble_lt_step (x : ℚ) (hx : 0 ≤ x) (h : roundDouble x < 14400) :
    roundDouble x ≤ 14400 - 1 / 2 ^ 39 := by
  rcases lt_or_le x 8192 with hsmall | hbig
  · have h1 := roundDouble_sub_le x
    have h2 : ulp x ≤ 1 / 2 ^ 40 := by
      have h3 := ulp_le_zpow x 12 (by norm_num) (by
        rw [abs_of_nonneg hx]
        norm_num
        exact hsmall)
      have e : (2 : ℚ) ^ ((12 : ℤ) - 52) = 1 / 2 ^ 40 := by norm_num
      exact le_of_le_of_eq h3 e
    rw [abs_le] at h1
    have e : (8192 : ℚ) + 1 / 2 ^ 40 / 2 ≤ 14400 - 1 / 2 ^ 39 := by norm_num
    linarith
  · rcases lt_or_le x 16384 with hmid | hlarge
    · have hpos : 0 < x := by linarith
      have hu : ulp x = 2 ^ ((13 : ℤ) - 52) :=
        ulp_eq x 13 (by norm_num) (by rw [abs_of_pos hpos]; norm_num; exact hbig)
          (by rw [abs_of_pos hpos]; norm_num; exact hmid)
      have hu' : ulp x = 1 / 2 ^ 39 := by rw [hu]; norm_num
      unfold roundDouble at h ⊢
      rw [hu'] at h ⊢
      have hm : (roundHalfEven (x / (1 / 2 ^ 39)) : ℚ) < 7916483719987200 := by
        have e : (14400 : ℚ) = 7916483719987200 * (1 / 2 ^ 39) := by norm_num
        rw [e] at h
        exact lt_of_mul_lt_mul_right h (by positivity)
      have hm' : roundHalfEven (x / (1 / 2 ^ 39)) ≤ 7916483719987200 - 1 := by
        have : roundHalfEven (x / (1 / 2 ^ 39)) < 7916483719987200 := by exact_mod_cast hm
        omega
      have hm'' : (roundHalfEven (x / (1 / 2 ^ 39)) : ℚ) ≤ 7916483719987200 - 1 := by
        exact_mod_cast hm'
      calc (roundHalfEven (x / (1 / 2 ^ 39)) : ℚ) * (1 / 2 ^ 39)
          ≤ (7916483719987200 - 1) * (1 / 2 ^ 39) :=
            mul_le_mul_of_nonneg_right hm'' (by positivity)
        _ = 14400 - 1 / 2 ^ 39 := by norm_num
    · have h1 := (roundDouble_near x (by linarith)).1
      have e : x / 2 ^ 53 ≤ x / 2 := by
        apply div_le_div_of_nonneg_left <;> norm_num
        linarith
      linarith

/-- For a computed sum, the computed square root is below `120` exactly when
the sum is below `14400`. -/
theorem sqrtDouble_round_lt (x : ℚ) (hx : 0 ≤ x) :
    sqrtDouble (roundDouble x) < 120 ↔ roundDouble x < 14400 := by
  rw [sqrtDouble_lt_maxDistance]
  constructor
  · intro h
    have e : (120 - 1 / 2 ^ 47) * (120 - 1 / 2 ^ 47) < (14400 : ℚ) := by norm_num
    linarith
  · intro h
    have h1 := roundDouble_lt_step x hx h
    have e : (14400 : ℚ) - 1 / 2 ^ 39 < (120 - 1 / 2 ^ 47) * (120 - 1 / 2 ^ 47) := by norm_num
    linarith

theorem connectParticles_eq_filter (particles : List Particle) :
    connectParticles particles
      = (pairChecks particles.length).filter
          (fun pair => withinReach particles pair.1 pair.2) := by
  rw [pairChecks_rows, filter_flatten_lists]
  simp only [connectParticles, forPairs, flatten_map_guard, List.map_map, Function.comp_def,
    List.filter_map]

theorem mem_connectParticles (particles : List Particle) (i j : Nat) :
    (i, j) ∈ connectParticles particles ↔
      i < j ∧ j < particles.length ∧ withinReach particles i j = true := by
  rw [connectParticles_eq_filter, List.mem_filter, mem_pairChecks]
  exact ⟨fun h => ⟨h.1.1, h.1.2, h.2⟩, fun h => ⟨⟨h.1, h.2.1⟩, h.2.2⟩⟩

/-- The test of `connectParticles` on two particles, in terms of the computed
sum of squares. -/
theorem withinReach_iff (particles : List Particle) (i j : Nat) (p q : Particle)
    (hp : particles.get? i = some p) (hq : particles.get? j = some q) :
    withinReach particles i j = true ↔
      roundDouble
        (roundDouble (roundDouble (p.x - q.x) * roundDouble (p.x - q.x)) +
          roundDouble (roundDouble (p.y - q.y) * roundDouble (p.y - q.y))) < 14400 := by
  simp only [withinReach, hp, hq, decide_eq_true_eq, maxDistance, squaredDistance]
  apply sqrtDouble_round_lt
  exact add_nonneg (roundDouble_nonneg _ (mul_self_nonneg _))
    (roundDouble_nonneg _ (mul_self_nonneg _))

theorem roundHalfEven_of_lt_half (q : ℚ) (f : ℤ) (h1 : (f : ℚ) ≤ q) (h2 : q < f + 1 / 2) :
    roundHalfEven q = f := by
  have hfloor : ⌊q⌋ = f := by
    rw [Int.floor_eq_iff]
    constructor <;> linarith
  unfold roundHalfEven
  simp only [hfloor]
  rw [if_pos (by linarith)]

theorem roundHalfEven_of_gt_half (q : ℚ) (f : ℤ) (h1 : (f : ℚ) + 1 / 2 < q) (h2 : q < f + 1) :
    roundHalfEven q = f + 1 := by
  have hfloor : ⌊q⌋ = f := by
    rw [Int.floor_eq_iff]
    constructor <;> linarith
  unfold roundHalfEven
  simp only [hfloor]
  rw [if_neg (by linarith), if_pos (by linarith)]

/-- Evaluation of `roundDouble` at a positive number. -/
theorem roundDouble_eval_pos (x : ℚ) (e : ℤ) (m : ℤ) (he : -1022 ≤ e) (hlo : (2 : ℚ) ^ e ≤ x)
    (hhi : x < 2 ^ (e + 1)) (hm : roundHalfEven (x / 2 ^ (e - 52)) = m) :
    roundDouble x = m * 2 ^ (e - 52) := by
  have hpos : 0 < x := lt_of_lt_of_le (by positivity) hlo
  exact roundDouble_eval x e m he (by rw [abs_of_pos hpos]; exact hlo)
    (by rw [abs_of_pos hpos]; exact hhi) hm

/-- The computed sum of squares of the particles at `(7 / 2 ^ 22, 120 - 2 ^ (-46))`
and `(0, 0)` is `14400`. -/
theorem squaredDistance_near_reach :
    squaredDistance ⟨7 / 2 ^ 22, 120 - 1 / 2 ^ 46, 1, 0, 0, 1⟩ ⟨0, 0, 1, 0, 0, 1⟩ = 14400 := by
  have hdx : roundDouble (7 / 2 ^ 22 - 0) = 7 / 2 ^ 22 := by
    rw [roundDouble_eval_pos (7 / 2 ^ 22 - 0) (-20) (7 * 2 ^ 50) (by norm_num) (by norm_num)
      (by norm_num) ?_]
    · norm_num
    · have : ((7 : ℚ) / 2 ^ 22 - 0) / 2 ^ ((-20 : ℤ) - 52) = ((7 * 2 ^ 50 : ℤ) : ℚ) := by
        norm_num
      rw [this, roundHalfEven_intCast]
  have hdy : roundDouble (120 - 1 / 2 ^ 46 - 0) = 120 - 1 / 2 ^ 46 := by
    rw [roundDouble_eval_pos (120 - 1 / 2 ^ 46 - 0) 6 (120 * 2 ^ 46 - 1) (by norm_num)
      (by norm_num) (by norm_num) ?_]
    · norm_num
    · have : ((120 : ℚ) - 1 / 2 ^ 46 - 0) / 2 ^ ((6 : ℤ) - 52)
          = ((120 * 2 ^ 46 - 1 : ℤ) : ℚ) := by norm_num
      rw [this, roundHalfEven_intCast]
  have hxx : roundDouble (7 / 2 ^ 22 * (7 / 2 ^ 22)) = 49 / 2 ^ 44 := by
    rw [roundDouble_eval_pos (7 / 2 ^ 22 * (7 / 2 ^ 22)) (-39) (49 * 2 ^ 47) (by norm_num)
      (by norm_num) (by norm_num) ?_]
    · norm_num
    · have : ((7 : ℚ) / 2 ^ 22 * (7 / 2 ^ 22)) / 2 ^ ((-39 : ℤ) - 52)
          = ((49 * 2 ^ 47 : ℤ) : ℚ) := by norm_num
      rw [this, roundHalfEven_intCast]
  have hyy : roundDouble ((120 - 1 / 2 ^ 46) * (120 - 1 / 2 ^ 46)) = 14400 - 2 / 2 ^ 39 := by
    rw [roundDouble_eval_pos ((120 - 1 / 2 ^ 46) * (120 - 1 / 2 ^ 46)) 13
      (14400 * 2 ^ 39 - 2) (by norm_num) (by norm_num) (by norm_num) ?_]
    · norm_num
    · have := roundHalfEven_of_lt_half
        (((120 : ℚ) - 1 / 2 ^ 46) * (120 - 1 / 2 ^ 46) / 2 ^ ((13 : ℤ) - 52))
        (14400 * 2 ^ 39 - 2) (by norm_num) (by norm_num)
      exact this
  have hsum : roundDouble (49 / 2 ^ 44 + (14400 - 2 / 2 ^ 39)) = 14400 := by
    rw [roundDouble_eval_pos (49 / 2 ^ 44 + (14400 - 2 / 2 ^ 39)) 13
      (14400 * 2 ^ 39 - 1 + 1) (by norm_num) (by norm_num) (by norm_num) ?_]
    · norm_num
    · have := roundHalfEven_of_gt_half
        (((49 : ℚ) / 2 ^ 44 + (14400 - 2 / 2 ^ 39)) / 2 ^ ((13 : ℤ) - 52))
        (14400 * 2 ^ 39 - 1) (by norm_num) (by norm_num)
      exact this
  simp only [squaredDistance]
  rw [hdx, hdy, hxx, hyy, hsum]

/-- The computed square root of `14400` is `120`. -/
theorem sqrtDouble_maxDistance : sqrtDouble 14400 = 120 := by
  have hlog : Int.log 2 (14400 : ℚ) = 13 :=
    log_eq_of_bounds 14400 13 (by norm_num) (by norm_num)
  have hsp : (2 : ℚ) ^ ((13 : ℤ) / 2 - 52) = 1 / 2 ^ 46 := by norm_num
  have hscaled : (14400 : ℚ) / (1 / 2 ^ 46 * (1 / 2 ^ 46))
      = ((71305346262837903834189555302400 : ℕ) : ℚ) := by norm_num
  have hsqrt : Nat.sqrt 71305346262837903834189555302400 = 8444249301319680 := by
    norm_num
  unfold sqrtDouble
  rw [if_neg (by norm_num), hlog]
  simp only [hsp, hscaled, Nat.floor_natCast, hsqrt]
  norm_num
/-- Claim C22 fails for the particles at `(7 / 2 ^ 22, 120 - 2 ^ (-46))` and
`(0, 0)`: `dx * dx + dy * dy` is below `14400` and the Euclidean distance is
below `120`, but in the double arithmetic of the script the sum is rounded
to `14400`, its square root is `120`, and `connectParticles` draws no line. -/
theorem connectParticles_misses_near_pair :
    ((7 : ℚ) / 2 ^ 22 - 0) * (7 / 2 ^ 22 - 0)
        + (120 - 1 / 2 ^ 46 - 0) * (120 - 1 / 2 ^ 46 - 0) < 14400 ∧
      Real.sqrt ((((7 : ℚ) / 2 ^ 22 - 0) * (7 / 2 ^ 22 - 0)
        + (120 - 1 / 2 ^ 46 - 0) * (120 - 1 / 2 ^ 46 - 0) : ℚ) : ℝ) < 120 ∧
      squaredDistance ⟨7 / 2 ^ 22, 120 - 1 / 2 ^ 46, 1, 0, 0, 1⟩ ⟨0, 0, 1, 0, 0, 1⟩ = 14400 ∧
      sqrtDouble (squaredDistance ⟨7 / 2 ^ 22, 120 - 1 / 2 ^ 46, 1, 0, 0, 1⟩ ⟨0, 0, 1, 0, 0, 1⟩)
        = 120 ∧
      connectParticles [⟨7 / 2 ^ 22, 120 - 1 / 2 ^ 46, 1, 0, 0, 1⟩, ⟨0, 0, 1, 0, 0, 1⟩] = [] ∧
      ¬ ∀ (particles : List Particle) (i j : Nat) (p q : Particle),
        particles.get? i = some p → particles.get? j = some q → i < j →
        ((i, j) ∈ connectParticles particles ↔
          (p.x - q.x) * (p.x - q.x) + (p.y - q.y) * (p.y - q.y) < 14400) := by
  have hexact : ((7 : ℚ) / 2 ^ 22 - 0) * (7 / 2 ^ 22 - 0)
      + (120 - 1 / 2 ^ 46 - 0) * (120 - 1 / 2 ^ 46 - 0) < 14400 := by norm_num
  have hroot : sqrtDouble (squaredDistance ⟨7 / 2 ^ 22, 120 - 1 / 2 ^ 46, 1, 0, 0, 1⟩
      ⟨0, 0, 1, 0, 0, 1⟩) = 120 := by
    rw [squaredDistance_near_reach, sqrtDouble_maxDistance]
  have hnone : connectParticles
      [⟨7 / 2 ^ 22, 120 - 1 / 2 ^ 46, 1, 0, 0, 1⟩, ⟨0, 0, 1, 0, 0, 1⟩] = [] := by
    rw [List.eq_nil_iff_forall_not_mem]
    rintro ⟨i, j⟩ hmem
    rw [mem_connectParticles] at hmem
    obtain ⟨hij, hj, hreach⟩ := hmem
    simp only [List.length_cons, List.length_nil] at hj
    have hi0 : i = 0 := by omega
    have hj1 : j = 1 := by omega
    subst hi0 hj1
    simp only [withinReach, List.get?, decide_eq_true_eq, maxDistance] at hreach
    rw [hroot] at hreach
    exact lt_irrefl _ hreach
  refine ⟨hexact, ?_, squaredDistance_near_reach, hroot, hnone, ?_⟩
  · rw [Real.sqrt_lt' (by norm_num : (0 : ℝ) < 120)]
    have : ((((7 : ℚ) / 2 ^ 22 - 0) * (7 / 2 ^ 22 - 0)
        + (120 - 1 / 2 ^ 46 - 0) * (120 - 1 / 2 ^ 46 - 0) : ℚ) : ℝ) < ((14400 : ℚ) : ℝ) := by
      exact_mod_cast hexact
    calc _ < ((14400 : ℚ) : ℝ) := this
      _ = 120 ^ 2 := by norm_num
  · intro h
    have h2 := (h [⟨7 / 2 ^ 22, 120 - 1 / 2 ^ 46, 1, 0, 0, 1⟩, ⟨0, 0, 1, 0, 0, 1⟩] 0 1
      ⟨7 / 2 ^ 22, 120 - 1 / 2 ^ 46, 1, 0, 0, 1⟩ ⟨0, 0, 1, 0, 0, 1⟩ rfl rfl (by decide)).mpr
      hexact
    rw [hnone] at h2
    exact List.not_mem_nil _ h2

/-- Claim C22, amended: for `n` particles the loops of `connectParticles` make
`n (n - 1) / 2` checks, one for each pair of indices `a < b < n` and none
twice; every line joins a checked pair; for the particles `p` at `i` and `q`
at `j` a line is stroked exactly when `i < j` and the value of
`dx * dx + dy * dy`, computed in double arithmetic with each operation
rounded, is below `14400`; with `i < j` that is so when the exact value of
`dx * dx + dy * dy` is at most `14400 - 2 ^ (-20)` and is not so when it is
at least `14400 + 2 ^ (-20)`; no line joins a particle to itself and no
pair gets a line twice, in either order. -/
theorem connectParticles_checks_each_pair (particles : List Particle) (i j : Nat)
    (p q : Particle) (hp : particles.get? i = some p) (hq : particles.get? j = some q) :
    (pairChecks particles.length).length = particles.length * (particles.length - 1) / 2 ∧
      (∀ a b : Nat, (a, b) ∈ pairChecks particles.length ↔ a < b ∧ b < particles.length) ∧
      (pairChecks particles.length).Nodup ∧
      connectParticles particles
        = (pairChecks particles.length).filter
            (fun pair => withinReach particles pair.1 pair.2) ∧
      ((i, j) ∈ connectParticles particles ↔
        i < j ∧
          roundDouble
            (roundDouble (roundDouble (p.x - q.x) * roundDouble (p.x - q.x)) +
              roundDouble (roundDouble (p.y - q.y) * roundDouble (p.y - q.y))) < 14400) ∧
      (i < j →
        (p.x - q.x) * (p.x - q.x) + (p.y - q.y) * (p.y - q.y) ≤ 14400 - 1 / 2 ^ 20 →
        (i, j) ∈ connectParticles particles) ∧
      (14400 + 1 / 2 ^ 20 ≤ (p.x - q.x) * (p.x - q.x) + (p.y - q.y) * (p.y - q.y) →
        (i, j) ∉ connectParticles particles) ∧
      (i, i) ∉ connectParticles particles ∧
      (connectParticles particles).Nodup ∧
      ¬ ((i, j) ∈ connectParticles particles ∧ (j, i) ∈ connectParticles particles) := by
  have hnodup : (connectParticles particles).Nodup := by
    rw [connectParticles_eq_filter]
    exact (pairChecks_nodup _).filter _
  have hj : j < particles.length := by
    rw [List.get?_eq_some] at hq
    exact hq.1
  have hmem : (i, j) ∈ connectParticles particles ↔
      i < j ∧
        roundDouble
          (roundDouble (roundDouble (p.x - q.x) * roundDouble (p.x - q.x)) +
            roundDouble (roundDouble (p.y - q.y) * roundDouble (p.y - q.y))) < 14400 := by
    rw [mem_connectParticles, withinReach_iff particles i j p q hp hq]
    exact ⟨fun h => ⟨h.1, h.2.2⟩, fun h => ⟨h.1, hj, h.2⟩⟩
  refine ⟨pairChecks_length _, fun a b => mem_pairChecks _ a b, pairChecks_nodup _,
    connectParticles_eq_filter particles, hmem, ?_, ?_, ?_, hnodup, ?_⟩
  · intro hij hnear
    exact hmem.mpr ⟨hij, computed_sum_below _ _ hnear⟩
  · intro hfar hin
    have h1 := (hmem.mp hin).2
    have h2 := computed_sum_above _ _ hfar
    linarith
  · rw [mem_connectParticles]
    omega
  · rw [mem_connectParticles, mem_connectParticles]
    omega

/-- Claim C22, amended, for three particles: the first two are 100 apart, the
third is 120 from the first. -/
theorem connectParticles_checks_each_pair_witness :
    (pairChecks 3).length = 3 * (3 - 1) / 2 ∧
      ((0, 1) ∈ connectParticles
          [⟨0, 0, 1, 0, 0, 1⟩, ⟨100, 0, 1, 0, 0, 1⟩, ⟨0, 120, 1, 0, 0, 1⟩] ↔
        0 < 1 ∧
          roundDouble
            (roundDouble (roundDouble ((0 : ℚ) - 100) * roundDouble ((0 : ℚ) - 100)) +
              roundDouble (roundDouble ((0 : ℚ) - 0) * roundDouble ((0 : ℚ) - 0))) < 14400) ∧
      (0, 1) ∈ connectParticles
        [⟨0, 0, 1, 0, 0, 1⟩, ⟨100, 0, 1, 0, 0, 1⟩, ⟨0, 120, 1, 0, 0, 1⟩] :=
  ⟨(connectParticles_checks_each_pair
      [⟨0, 0, 1, 0, 0, 1⟩, ⟨100, 0, 1, 0, 0, 1⟩, ⟨0, 120, 1, 0, 0, 1⟩] 0 1
      ⟨0, 0, 1, 0, 0, 1⟩ ⟨100, 0, 1, 0, 0, 1⟩ rfl rfl).1,
    (connectParticles_checks_each_pair
      [⟨0, 0, 1, 0, 0, 1⟩, ⟨100, 0, 1, 0, 0, 1⟩, ⟨0, 120, 1, 0, 0, 1⟩] 0 1
      ⟨0, 0, 1, 0, 0, 1⟩ ⟨100, 0, 1, 0, 0, 1⟩ rfl rfl).2.2.2.2.1,
    (connectParticles_checks_each_pair
      [⟨0, 0, 1, 0, 0, 1⟩, ⟨100, 0, 1, 0, 0, 1⟩, ⟨0, 120, 1, 0, 0, 1⟩] 0 1
      ⟨0, 0, 1, 0, 0, 1⟩ ⟨100, 0, 1, 0, 0, 1⟩ rfl rfl).2.2.2.2.2.1 (by decide)
      (by norm_num)⟩

/-! ## Body scroll lock -/

theorem runHandler_overflow (p : PageState) (handler : ScrollHandler) :
    (runHandler p handler).sidebar.bodyOverflow = (if handler.locks then "hidden" else "") ∧
      (runHandler p handler).modal.bodyOverflow = (if handler.locks then "hidden" else "") := by
  cases handler <;> exact ⟨rfl, rfl⟩

theorem runHandler_opens (p : PageState) (handler : ScrollHandler)
    (h : handler.locks = true) :
    (runHandler p handler).sidebar.sidebarOpen = true ∨
      (runHandler p handler).modalActive = true := by
  cases handler with
  | openSidebar => exact Or.inl rfl
  | closeSidebar => simp [ScrollHandler.locks] at h
  | openModal projectName =>
    right
    simp [runHandler, PageState.withModal, PageState.modalActive, openModal,
      DOMTokenList.contains_add_self]
  | closeModal => simp [ScrollHandler.locks] at h

/-- Claim C25 as stated fails: after `openSidebar`, `openModal` and
`closeModal` the sidebar is open and body scrolling is not locked. -/
theorem scroll_unlocked_with_sidebar_open :
    ¬ ∀ handlers : List ScrollHandler,
      ((runHandlers pageAtLoad handlers).scrollLocked = true ↔
        ((runHandlers pageAtLoad handlers).sidebar.sidebarOpen = true ∨
          (runHandlers pageAtLoad handlers).modalActive = true)) := by
  intro h
  have h0 := h [.openSidebar, .openModal "TaxMate", .closeModal]
  revert h0
  decide

/-- Claim C25, amended: in every state reached by at least one call of the
sidebar and modal handlers, from any state and in any order, body scrolling
is locked exactly when the handler called last was `openSidebar` or
`openModal`; so a locked body implies that the sidebar is open or the modal
active, but the sidebar or the modal can be open with the body unlocked,
when the other one was closed after it was opened. -/
theorem scroll_lock_follows_last_handler (p : PageState) (handlers : List ScrollHandler)
    (last : ScrollHandler) :
    ((runHandlers p (handlers ++ [last])).scrollLocked = true ↔ last.locks = true) ∧
      (runHandlers p (handlers ++ [last])).sidebar.bodyOverflow
        = (if last.locks then "hidden" else "") ∧
      (runHandlers p (handlers ++ [last])).modal.bodyOverflow
        = (runHandlers p (handlers ++ [last])).sidebar.bodyOverflow ∧
      ¬ ((runHandlers p (handlers ++ [last])).scrollLocked = true ∧
        (runHandlers p (handlers ++ [last])).sidebar.sidebarOpen = false ∧
        (runHandlers p (handlers ++ [last])).modalActive = false) := by
  have hrun : runHandlers p (handlers ++ [last]) = runHandler (runHandlers p handlers) last := by
    simp [runHandlers, List.foldl_append]
  rw [hrun]
  obtain ⟨h1, h2⟩ := runHandler_overflow (runHandlers p handlers) last
  have hlocked : (runHandler (runHandlers p handlers) last).scrollLocked = true ↔
      last.locks = true := by
    simp only [PageState.scrollLocked, h1]
    cases last.locks <;> decide
  refine ⟨hlocked, h1, by rw [h1, h2], ?_⟩
  rintro ⟨hl, hs, hm⟩
  rcases runHandler_opens _ last (hlocked.mp hl) with h | h
  · rw [h] at hs; exact Bool.noConfusion hs
  · rw [h] at hm; exact Bool.noConfusion hm

/-! ## Mobile theme icons -/

theorem mobileToggleClick_agrees (s : MobileThemeState) :
    (mobileToggleClick s).mobileIconsAgree = true := by
  unfold mobileToggleClick updateMobileThemeIcons MobileThemeState.mobileIconsAgree
  by_cases hd : (toggleTheme s.theme).dark = true
  · cases hsun : s.mobileSunIcon <;> cases hmoon : s.mobileMoonIcon <;>
      simp [hd, hsun, hmoon, DOMTokenList.contains_add_self, DOMTokenList.contains_remove_self]
  · cases hsun : s.mobileSunIcon <;> cases hmoon : s.mobileMoonIcon <;>
      simp [hd, hsun, hmoon, DOMTokenList.contains_add_self, DOMTokenList.contains_remove_self]

/-- Claim C26 fails for the desktop button: on the page as loaded in the light
theme the mobile icons agree with the flag; a click on the desktop toggle
sets the flag and leaves the mobile sun icon visible and the mobile moon icon
hidden, while a click on the mobile toggle keeps the icons in agreement. -/
theorem desktop_toggle_leaves_mobile_icons :
    mobileThemeAtLoad.mobileIconsAgree = true ∧
      (desktopToggleClick mobileThemeAtLoad).theme.dark = true ∧
      (desktopToggleClick mobileThemeAtLoad).mobileSunIcon = some [] ∧
      (desktopToggleClick mobileThemeAtLoad).mobileMoonIcon = some ["hidden"] ∧
      (desktopToggleClick mobileThemeAtLoad).mobileIconsAgree = false ∧
      (mobileToggleClick mobileThemeAtLoad).mobileIconsAgree = true := by
  decide

/-! ## Event listener registration -/

/-- Claim C27: the two registrations of `toggleTheme` on the desktop toggle
leave one listener in its list, so a click runs `toggleTheme` exactly once
and flips the dark flag. -/
theorem toggle_button_click_runs_once (s : ThemeState) :
    toggleButtonListeners = [⟨"click", Callback.toggleTheme, false⟩] ∧
      dispatchEvent toggleButtonListeners "click" s = toggleTheme s ∧
      (dispatchEvent toggleButtonListeners "click" s).dark = (!s.dark) := by
  have hlist : toggleButtonListeners = [⟨"click", Callback.toggleTheme, false⟩] := by decide
  have hrun : dispatchEvent toggleButtonListeners "click" s = toggleTheme s := by
    rw [hlist]
    rfl
  exact ⟨hlist, hrun, by rw [hrun, toggleTheme_dark]⟩

/-! ## Star twinkle: consecutive updates -/

theorem twinkling_no_double_flip (speed : ℚ) (hspeed : 0 < speed) (hsmall : speed < 2 / 5)
    (star : Star) (h : star.Twinkling speed) :
    ¬ (star.update.twinkleSpeed = -star.twinkleSpeed ∧
      star.update.update.twinkleSpeed = -star.update.twinkleSpeed) := by
  have hb : star.update.brightness = star.brightness + star.twinkleSpeed := rfl
  have hs : star.update.twinkleSpeed =
      if star.brightness + star.twinkleSpeed ≥ 0.6 ∨ star.brightness + star.twinkleSpeed ≤ 0.2
      then -star.twinkleSpeed else star.twinkleSpeed := rfl
  have hs2 : star.update.update.twinkleSpeed =
      if star.update.brightness + star.update.twinkleSpeed ≥ 0.6 ∨
          star.update.brightness + star.update.twinkleSpeed ≤ 0.2
      then -star.update.twinkleSpeed else star.update.twinkleSpeed := rfl
  rintro ⟨h1, h2⟩
  have hback : star.update.brightness + star.update.twinkleSpeed = star.brightness := by
    rw [hb, h1]; ring
  rw [hs2, hback] at h2
  have hv : star.update.twinkleSpeed ≠ 0 := by
    rw [h1]
    unfold Star.Twinkling at h
    rcases h with ⟨hv, _, _⟩ | ⟨hv, _, _⟩ <;> rw [hv] <;> intro h0 <;> linarith
  have hcond : star.brightness ≥ 0.6 ∨ star.brightness ≤ 0.2 := by
    by_contra hc
    rw [if_neg hc] at h2
    apply hv
    linarith
  have hflip : star.brightness + star.twinkleSpeed ≥ 0.6 ∨
      star.brightness + star.twinkleSpeed ≤ 0.2 := by
    by_contra hc
    rw [hs, if_neg hc] at h1
    apply hv
    rw [hs, if_neg hc]
    linarith
  unfold Star.Twinkling at h
  rcases h with ⟨hv', hlow, hhigh⟩ | ⟨hv', hlow, hhigh⟩
  · rw [hv'] at hflip
    rcases hcond with hc | hc <;> rcases hflip with hf | hf <;> norm_num at * <;> linarith
  · rw [hv'] at hflip
    rcases hcond with hc | hc <;> rcases hflip with hf | hf <;> norm_num at * <;> linarith

/-- Claim C28: with exact arithmetic, for every star created by the constructor
and every number of update steps, the brightness is above 0.6 or below 0.2 by
less than the magnitude of the twinkle speed, it stays strictly between 0.16
and 0.64, and the direction is not reversed on two consecutive updates. -/
theorem star_twinkle_bounds (canvasWidth canvasHeight : ℚ) (random : Nat → ℚ)
    (hrandom : ∀ i, 0 ≤ random i ∧ random i < 1) (steps : Nat) :
    (Star.update^[steps] (Star.new canvasWidth canvasHeight random)).brightness - 0.6
        < |(Star.update^[steps] (Star.new canvasWidth canvasHeight random)).twinkleSpeed| ∧
      0.2 - (Star.update^[steps] (Star.new canvasWidth canvasHeight random)).brightness
        < |(Star.update^[steps] (Star.new canvasWidth canvasHeight random)).twinkleSpeed| ∧
      0.16 < (Star.update^[steps] (Star.new canvasWidth canvasHeight random)).brightness ∧
      (Star.update^[steps] (Star.new canvasWidth canvasHeight random)).brightness < 0.64 ∧
      ¬ ((Star.update^[steps + 1] (Star.new canvasWidth canvasHeight random)).twinkleSpeed
            = -(Star.update^[steps] (Star.new canvasWidth canvasHeight random)).twinkleSpeed ∧
          (Star.update^[steps + 2] (Star.new canvasWidth canvasHeight random)).twinkleSpeed
            = -(Star.update^[steps + 1]
                (Star.new canvasWidth canvasHeight random)).twinkleSpeed) := by
  obtain ⟨hnew, hlow, hhigh⟩ := twinkling_new canvasWidth canvasHeight random hrandom
  have hpos : 0 < (Star.new canvasWidth canvasHeight random).twinkleSpeed := by linarith
  have h := twinkling_iterate _ hpos steps _ hnew
  have hflip := twinkling_no_double_flip _ hpos (by linarith) _ h
  rw [← Function.iterate_succ_apply' Star.update steps,
    ← Function.iterate_succ_apply' Star.update (steps + 1)] at hflip
  have hfacts :
      |(Star.update^[steps] (Star.new canvasWidth canvasHeight random)).twinkleSpeed|
          = (Star.new canvasWidth canvasHeight random).twinkleSpeed ∧
        0.2 - (Star.new canvasWidth canvasHeight random).twinkleSpeed
          < (Star.update^[steps] (Star.new canvasWidth canvasHeight random)).brightness ∧
        (Star.update^[steps] (Star.new canvasWidth canvasHeight random)).brightness
          < 0.6 + (Star.new canvasWidth canvasHeight random).twinkleSpeed := by
    unfold Star.Twinkling at h
    rcases h with ⟨hv, h1, h2⟩ | ⟨hv, h1, h2⟩
    · exact ⟨by rw [hv, abs_of_pos hpos], h1, by linarith⟩
    · exact ⟨by rw [hv, abs_neg, abs_of_pos hpos], by linarith, h2⟩
  obtain ⟨habs, hb1, hb2⟩ := hfacts
  rw [habs]
  refine ⟨?_, ?_, ?_, ?_, hflip⟩
  · linarith
  · linarith
  · norm_num at hb1 hlow hhigh ⊢
    linarith
  · norm_num at hb2 hlow hhigh ⊢
    linarith

/-- Claim C28 for the star created from the random numbers `1 / 2`, after 100
updates. -/
theorem star_twinkle_bounds_witness :
    0.16 < (Star.update^[100] (Star.new 100 100 (fun _ => 1 / 2))).brightness ∧
      (Star.update^[100] (Star.new 100 100 (fun _ => 1 / 2))).brightness < 0.64 :=
  ⟨(star_twinkle_bounds 100 100 (fun _ => 1 / 2) (fun _ => by norm_num) 100).2.2.1,
    (star_twinkle_bounds 100 100 (fun _ => 1 / 2) (fun _ => by norm_num) 100).2.2.2.1⟩

/-! ## Throttle -/

theorem throttled_dropped {α : Type} (limit : Nat) (later : List α) :
    ∀ s : ThrottleState α, s.inThrottle = true → later.foldl (throttled limit) s = s := by
  induction later with
  | nil => intro s _; rfl
  | cons args rest ih =>
    intro s h
    have hstep : throttled limit s args = s := by simp [throttled, h]
    rw [List.foldl_cons, hstep]
    exact ih s h

theorem throttleRun_calls {α : Type} (limit : Nat) (later : List α)
    (events : List (ThrottleEvent α)) :
    ∀ s : ThrottleState α,
      throttleRun limit s (later.map ThrottleEvent.call ++ events)
        = throttleRun limit (later.foldl (throttled limit) s) events := by
  induction later with
  | nil => intro s; rfl
  | cons args rest ih =>
    intro s
    simp only [List.map_cons, List.cons_append, throttleRun, throttleStep, List.foldl_cons]
    exact ih _

/-- Claim C29: a call made while `inThrottle` is false invokes the function
at once with that call's arguments, sets `inThrottle` and starts a timeout of
`limit` ms; every call made before that timeout runs leaves the state
unchanged, and the timeout callback only clears `inThrottle`; so from the
opening call to the run of its timeout the function is invoked exactly once,
with the arguments of the opening call. -/
theorem throttle_window_runs_once {α : Type} (limit : Nat) (s : ThrottleState α) (args : α)
    (later : List α) (hidle : s.inThrottle = false) :
    throttled limit s args
        = { inThrottle := true, timers := s.timers ++ [limit],
            invocations := s.invocations ++ [args] } ∧
      later.foldl (throttled limit) (throttled limit s args) = throttled limit s args ∧
      throttleRun limit s
          (ThrottleEvent.call args ::
            (later.map ThrottleEvent.call ++ [ThrottleEvent.timeout s.timers.length]))
        = some { inThrottle := false, timers := s.timers,
                 invocations := s.invocations ++ [args] } := by
  have hfirst : throttled limit s args
      = { inThrottle := true, timers := s.timers ++ [limit],
          invocations := s.invocations ++ [args] } := by
    simp [throttled, hidle]
  have hdrop : later.foldl (throttled limit) (throttled limit s args)
      = throttled limit s args :=
    throttled_dropped limit later _ (by rw [hfirst])
  refine ⟨hfirst, hdrop, ?_⟩
  simp only [throttleRun, throttleStep]
  rw [throttleRun_calls, hdrop, hfirst]
  simp [throttleRun, throttleStep]

/-- Claim C29 on a fresh throttled function: three calls, then the timeout. -/
theorem throttle_window_runs_once_witness :
    throttleRun 100 ({ inThrottle := false, timers := [], invocations := [] } : ThrottleState Nat)
        [.call 1, .call 2, .call 3, .timeout 0]
      = some { inThrottle := false, timers := [], invocations := [1] } :=
  (throttle_window_runs_once 100
    ({ inThrottle := false, timers := [], invocations := [] } : ThrottleState Nat) 1 [2, 3]
    rfl).2.2

/-! ## Debounce -/

theorem debounced_not_due {α : Type} (wait : Nat) (s : DebounceState α) (now : Nat) (args : α)
    (h : ∀ due pending, s.timeout = some (due, pending) → now < due) :
    debounced wait s now args
      = { timeout := some (now + wait, args), invocations := s.invocations } := by
  unfold debounced DebounceState.advanceTo
  cases ht : s.timeout with
  | none => rfl
  | some timer =>
    obtain ⟨due, pending⟩ := timer
    have hlt := h due pending ht
    have hnot : ¬ due ≤ now := by omega
    simp [hnot]

theorem debounceRun_burst {α : Type} (wait : Nat) (rest : List (Nat × α)) :
    ∀ (first : Nat × α) (s : DebounceState α),
      (∀ due pending, s.timeout = some (due, pending) → first.1 < due) →
      List.Chain (fun call next => call.1 ≤ next.1 ∧ next.1 < call.1 + wait) first rest →
      debounceRun wait s (first :: rest)
        = { timeout := some (((first :: rest).getLast (List.cons_ne_nil _ _)).1 + wait,
              ((first :: rest).getLast (List.cons_ne_nil _ _)).2),
            invocations := s.invocations } := by
  induction rest with
  | nil =>
    intro first s h _
    simp only [debounceRun, List.foldl_cons, List.foldl_nil, List.getLast_singleton]
    exact debounced_not_due wait s first.1 first.2 h
  | cons next rest ih =>
    intro first s h hchain
    rw [List.chain_cons] at hchain
    have hstep := debounced_not_due wait s first.1 first.2 h
    have hrun : debounceRun wait s (first :: next :: rest)
        = debounceRun wait (debounced wait s first.1 first.2) (next :: rest) := rfl
    rw [hrun, hstep, ih next _ ?_ hchain.2]
    · simp only [List.getLast_cons_cons]
    · intro due pending hdue
      simp only [Option.some.injEq, Prod.mk.injEq] at hdue
      omega

/-- Claim C30: every call replaces the pending timer by one due `wait` ms
later; so after a burst of calls, each less than `wait` ms after the one
before, no invocation has been made and one timer is pending, and as time
passes the function is invoked exactly once, `wait` ms after the last call
of the burst and with the arguments of that call. -/
theorem debounce_burst_invokes_once {α : Type} (wait : Nat) (first : Nat × α)
    (rest : List (Nat × α))
    (hburst : List.Chain (fun call next => call.1 ≤ next.1 ∧ next.1 < call.1 + wait)
      first rest)
    (s : DebounceState α) (now : Nat) (args : α) :
    (debounced wait s now args).timeout = some (now + wait, args) ∧
      debounceRun wait { timeout := none, invocations := [] } (first :: rest)
        = { timeout := some (((first :: rest).getLast (List.cons_ne_nil _ _)).1 + wait,
              ((first :: rest).getLast (List.cons_ne_nil _ _)).2),
            invocations := [] } ∧
      (debounceRun wait { timeout := none, invocations := [] } (first :: rest)).advanceTo now
        = (if ((first :: rest).getLast (List.cons_ne_nil _ _)).1 + wait ≤ now then
            { timeout := none,
              invocations := [(((first :: rest).getLast (List.cons_ne_nil _ _)).1 + wait,
                ((first :: rest).getLast (List.cons_ne_nil _ _)).2)] }
          else
            debounceRun wait { timeout := none, invocations := [] } (first :: rest)) := by
  have hrun := debounceRun_burst wait rest first { timeout := none, invocations := [] }
    (by intro due pending h; simp at h) hburst
  refine ⟨rfl, hrun, ?_⟩
  rw [hrun]
  by_cases hdue : ((first :: rest).getLast (List.cons_ne_nil _ _)).1 + wait ≤ now
  · simp [DebounceState.advanceTo, hdue]
  · simp [DebounceState.advanceTo, hdue]

/-- Claim C30 for a burst of three calls with a wait of 250 ms: one invocation,
250 ms after the last call. -/
theorem debounce_burst_invokes_once_witness :
    (debounceRun 250 ({ timeout := none, invocations := [] } : DebounceState String)
        [(0, "a"), (100, "b"), (349, "c")]).advanceTo 599
      = { timeout := none, invocations := [(599, "c")] } :=
  ((debounce_burst_invokes_once 250 (0, "a") [(100, "b"), (349, "c")]
    (List.Chain.cons ⟨by decide, by decide⟩
      (List.Chain.cons ⟨by decide, by decide⟩ List.Chain.nil))
    { timeout := none, invocations := [] } 599 "z").2.2).trans (by decide)

end Portfolio
